import Mathlib

/-!
Verification of the HashLife engine (`src/universe.rs`, `algo/src/rule.rs`,
`algo/src/node.rs`) against its specification.

The development has three layers:

* a bit-level layer mirroring the `u16` quadrant arithmetic of the source
  (`countOnes`, `level2Results`, `level3Results`, `centerq`, ...);
* a pure quadtree layer `QTree` mirroring the interned node structure
  (hash-consing makes structurally equal nodes share one handle, so node
  identity is tree equality) together with `toGrid`, the semantics of a tree
  as an infinite dead-bordered configuration, and a reference evolution
  `lifeStep` / `lifeIter`;
* an executable state-passing layer (`Uni`, `findNode`, `stepS`,
  `simulateS`, ...) mirroring the imperative store with its mutable result
  caches, used for the claims that concern interning and cache state.

Machine integers are modelled as `Nat` with explicit `&&& 0xFFFF` masking
exactly where Rust's `u16` shifts truncate; signed `i64` coordinates are
`Int` (the source never overflows them in the scenarios considered).
All recursion is structural (on an explicit fuel or level argument where the
source uses loops or level-indexed recursion), so every definition is
kernel-executable.
-/

namespace HashLife

/-- Life-family rule: 9-bit birth/survival neighbor-count masks
(`algo/src/rule.rs`). -/
structure Rule where
  birth : Nat
  survival : Nat
deriving DecidableEq

/-- `GAME_OF_LIFE` constant from `algo/src/rule.rs`: B3/S23. -/
def GAME_OF_LIFE : Rule := ⟨0b000001000, 0b000001100⟩

/-- Fueled binary popcount; the fuel only bounds the recursion depth. -/
def countOnesF : Nat → Nat → Nat
  | 0, _ => 0
  | f + 1, n => if n = 0 then 0 else n % 2 + countOnesF f (n / 2)

/-- `u16::count_ones`: popcount of a 16-bit value. -/
def countOnes (n : Nat) : Nat := countOnesF 16 n

/-- The two-element array `nexts = [rule.birth, rule.survival]` of
`compute_level2_results`, indexed by the cell's current state bit. -/
def nexts (rule : Rule) (b : Nat) : Nat :=
  if b = 1 then rule.survival else rule.birth

/-- Entry `i` of the 65536-entry level-2 table of
`compute_level2_results` (`algo/src/rule.rs`): the center 2×2 of the 4×4
square encoded by `i` after one generation, packed as
`NW<<5 | NE<<4 | SW<<1 | SE`. -/
def level2Results (rule : Rule) (i : Nat) : Nat :=
  let nw := nexts rule (i >>> 10 &&& 1) >>> countOnes (i &&& 0b1110101011100000) &&& 1
  let ne := nexts rule (i >>> 9 &&& 1) >>> countOnes (i &&& 0b0111010101110000) &&& 1
  let sw := nexts rule (i >>> 6 &&& 1) >>> countOnes (i &&& 0b0000111010101110) &&& 1
  let se := nexts rule (i >>> 5 &&& 1) >>> countOnes (i &&& 0b0000011101010111) &&& 1
  nw <<< 5 ||| ne <<< 4 ||| sw <<< 1 ||| se

/-! ### Specification-side reading of 4×4 squares

A `u16` as a 4×4 bit-square in the row-major layout documented on
`LeafNodeKey` (`algo/src/node.rs`): bit 15 is the top-left cell, bit 0 the
bottom-right, MSB-first within a row. -/

/-- Cell `(x, y)` (column, row, both in `[0,4)`) of the 4×4 square `q`;
dead outside the square. -/
def sq4 (q : Nat) (x y : Int) : Bool :=
  if 0 ≤ x ∧ x < 4 ∧ 0 ≤ y ∧ y < 4 then
    q.testBit (15 - (x.toNat + 4 * y.toNat))
  else false

/-- One application of the rule to a cell with `n` live neighbors. -/
def ruleNext (rule : Rule) (alive : Bool) (n : Nat) : Bool :=
  (if alive then rule.survival else rule.birth).testBit n

/-- Number of live neighbors of `(x, y)` in configuration `g`. -/
def nbrs (g : Int → Int → Bool) (x y : Int) : Nat :=
  (g (x-1) (y-1)).toNat + (g x (y-1)).toNat + (g (x+1) (y-1)).toNat +
  (g (x-1) y).toNat + (g (x+1) y).toNat +
  (g (x-1) (y+1)).toNat + (g x (y+1)).toNat + (g (x+1) (y+1)).toNat

/-- Spec-side level-2 transition: decode `i` row-major, apply one
generation of the rule to the center 2×2, pack as
`NW<<5 | NE<<4 | SW<<1 | SE`. -/
def level2Spec (rule : Rule) (i : Nat) : Nat :=
  let f := fun x y : Int => (ruleNext rule (sq4 i x y) (nbrs (sq4 i) x y)).toNat
  f 1 1 <<< 5 ||| f 2 1 <<< 4 ||| f 1 2 <<< 1 ||| f 2 2

/-- The claim's alternative reading of the index: the 4×4 is split into
2×2 quadrants which are stacked as `nw<<12 | ne<<8 | sw<<4 | se` (each
quadrant row-major, bit 3 its top-left cell). -/
def sq4Stacked (q : Nat) (x y : Int) : Bool :=
  if 0 ≤ x ∧ x < 4 ∧ 0 ≤ y ∧ y < 4 then
    let base : Nat := if x < 2 then (if y < 2 then 12 else 4) else (if y < 2 then 8 else 0)
    let lx := (x % 2).toNat
    let ly := (y % 2).toNat
    q.testBit (base + (1 - lx) + 2 * (1 - ly))
  else false

/-- Level-2 transition under the quadrant-stacked index encoding stated in
the claim. -/
def level2SpecStacked (rule : Rule) (i : Nat) : Nat :=
  let f := fun x y : Int =>
    (ruleNext rule (sq4Stacked i x y) (nbrs (sq4Stacked i) x y)).toNat
  f 1 1 <<< 5 ||| f 2 1 <<< 4 ||| f 1 2 <<< 1 ||| f 2 2

/-! ### Leaf-level definitions (8×8 squares) -/

/-- `level2_square_from_quadrant` (`universe.rs`): assemble a row-major 4×4
from four 6-bit level-2 outputs placed as its 2×2 quadrants. -/
def l2sq (nw ne sw se : Nat) : Nat :=
  nw <<< 10 ||| ne <<< 8 ||| sw <<< 2 ||| se

/-- `LeafNodeKey::center` (`algo/src/node.rs`): the centered 4×4 of the 8×8
leaf with quadrants `(nw, ne, sw, se)`. -/
def centerq (nw ne sw se : Nat) : Nat :=
  nw <<< 10 &&& 0xcc00 ||| ne <<< 6 &&& 0x3300 |||
  sw >>> 6 &&& 0x00cc ||| se >>> 10 &&& 0x0033

/-- `compute_level3_results` (`universe.rs`): the two precomputed center
results of a leaf — the center 4×4 after one generation and after two.
`u16` left-shifts by 8 truncate, hence the `&&& 0xFFFF`. -/
def level3Results (rule : Rule) (nw ne sw se : Nat) : Nat × Nat :=
  let n0 := level2Results rule nw
  let nn := nw <<< 2 &&& 0xcccc ||| ne >>> 2 &&& 0x3333
  let n1 := level2Results rule nn
  let n2 := level2Results rule ne
  let ww := (nw <<< 8) &&& 0xFFFF ||| sw >>> 8
  let n3 := level2Results rule ww
  let n4 := level2Results rule (centerq nw ne sw se)
  let ee := (ne <<< 8) &&& 0xFFFF ||| se >>> 8
  let n5 := level2Results rule ee
  let n6 := level2Results rule sw
  let ss := sw <<< 2 &&& 0xcccc ||| se >>> 2 &&& 0x3333
  let n7 := level2Results rule ss
  let n8 := level2Results rule se
  let r0 := l2sq n0 n1 n3 n4
  let r1 := l2sq n1 n2 n4 n5
  let r2 := l2sq n3 n4 n6 n7
  let r3 := l2sq n4 n5 n7 n8
  let result1 := r0 <<< 5 &&& 0xcc00 ||| r1 <<< 3 &&& 0x3300 |||
    r2 >>> 3 &&& 0x00cc ||| r3 >>> 5 &&& 0x0033
  let result2 := l2sq (level2Results rule r0) (level2Results rule r1)
    (level2Results rule r2) (level2Results rule r3)
  (result1, result2)

/-- The 8×8 leaf `(nw, ne, sw, se)` as a configuration covering
`[-4,4) × [-4,4)` centered at the origin, dead outside. -/
def leafGrid (nw ne sw se : Nat) (x y : Int) : Bool :=
  if x < 0 then (if y < 0 then sq4 nw (x+4) (y+4) else sq4 sw (x+4) y)
  else (if y < 0 then sq4 ne x (y+4) else sq4 se x y)

/-- One synchronous generation of the rule on an infinite configuration. -/
def lifeStepG (rule : Rule) (g : Int → Int → Bool) : Int → Int → Bool :=
  fun x y => ruleNext rule (g x y) (nbrs g x y)

/-- `n` generations of the rule. -/
def lifeIter (rule : Rule) : Nat → (Int → Int → Bool) → (Int → Int → Bool)
  | 0, g => g
  | n + 1, g => lifeIter rule n (lifeStepG rule g)

/-! ### The pure quadtree layer

Nodes are hash-consed by structural key (`find_node`), so two nodes are the
same node exactly when they are structurally equal trees; `QTree` is that
quotient.  A leaf is a level-3 (8×8) node with four `u16` quadrants, an
internal node has four children one level lower. -/

inductive QTree where
  | leaf (nw ne sw se : Nat) : QTree
  | internal (nw ne sw se : QTree) : QTree
deriving DecidableEq

/-- Node level; as in `Node::new_internal`, an internal node's level is one
more than its `nw` child's. -/
def levelT : QTree → Nat
  | .leaf _ _ _ _ => 3
  | .internal a _ _ _ => levelT a + 1

/-- Store invariant: quadrants are 16-bit values and the four children of
any internal node have equal levels (spec invariant I2). -/
def wfT : QTree → Bool
  | .leaf a b c d =>
      decide (a < 65536) && decide (b < 65536) &&
      decide (c < 65536) && decide (d < 65536)
  | .internal a b c d =>
      wfT a && wfT b && wfT c && wfT d &&
      (levelT b == levelT a) && (levelT c == levelT a) && (levelT d == levelT a)

/-- The semantics of a node: its cells as a configuration centered at the
origin (a node of level `L` covers `[-2^(L-1), 2^(L-1))` on each axis),
dead outside.  The quadrant dispatch and the `±r` recentering mirror
`set_rec` / `boundary_rec` with `r = 1 << (level - 2)`. -/
def toGrid : QTree → Int → Int → Bool
  | .leaf a b c d, x, y => leafGrid a b c d x y
  | .internal a b c d, x, y =>
      let r : Int := 2 ^ (levelT a - 1)
      if y < 0 then (if x < 0 then toGrid a (x+r) (y+r) else toGrid b (x-r) (y+r))
      else (if x < 0 then toGrid c (x+r) (y-r) else toGrid d (x-r) (y-r))

/-- The canonical empty node of each level (`empty_nodes[level]`);
level 3 is the all-zero leaf. -/
def emptyT : Nat → QTree
  | 0 => .leaf 0 0 0 0
  | 1 => .leaf 0 0 0 0
  | 2 => .leaf 0 0 0 0
  | 3 => .leaf 0 0 0 0
  | l + 4 => .internal (emptyT (l+3)) (emptyT (l+3)) (emptyT (l+3)) (emptyT (l+3))

/-- `Universe::expand`: replace the root by a node one level higher with
the old root's quadrants wrapped at its center. -/
def expandT : QTree → QTree
  | .leaf a b c d =>
      .internal (.leaf 0 0 0 a) (.leaf 0 0 b 0) (.leaf 0 c 0 0) (.leaf d 0 0 0)
  | .internal a b c d =>
      let e := emptyT (levelT a)
      .internal (.internal e e e a) (.internal e e b e)
        (.internal e c e e) (.internal d e e e)

/-- The leaf bit mask of `set_rec`: Rust's `x & 3` on `i64` is the
Euclidean remainder `x % 4`. -/
def maskOf (x y : Int) : Nat :=
  1 <<< ((3 - (x % 4).toNat) + 4 * (3 - (y % 4).toNat))

/-- `set_rec`: rebuild the path to the cell `(x, y)` (coordinates relative
to the node center), flipping one bit of one leaf quadrant.  Rust's
`!mask` on `u16` is `0xFFFF ^^^ mask`. -/
def setRecT : QTree → Int → Int → Bool → QTree
  | .leaf a b c d, x, y, alive =>
      let mask : Nat := maskOf x y
      if x < 0 then
        if y < 0 then
          .leaf (if alive then a ||| mask else a &&& (0xFFFF ^^^ mask)) b c d
        else
          .leaf a b (if alive then c ||| mask else c &&& (0xFFFF ^^^ mask)) d
      else
        if y < 0 then
          .leaf a (if alive then b ||| mask else b &&& (0xFFFF ^^^ mask)) c d
        else
          .leaf a b c (if alive then d ||| mask else d &&& (0xFFFF ^^^ mask))
  | .internal a b c d, x, y, alive =>
      let r : Int := 2 ^ (levelT a - 1)
      if y < 0 then
        if x < 0 then .internal (setRecT a (x+r) (y+r) alive) b c d
        else .internal a (setRecT b (x-r) (y+r) alive) c d
      else
        if x < 0 then .internal a b (setRecT c (x+r) (y-r) alive) d
        else .internal a b c (setRecT d (x-r) (y-r) alive)

/-- Guard of `set`'s expansion loop: `(x, y)` falls outside the root
square. -/
def setNeedsExpand (t : QTree) (x y : Int) : Bool :=
  let radius : Int := 2 ^ (levelT t - 1)
  x < -radius || x ≥ radius || y < -radius || y ≥ radius

/-- `set`'s `while` loop as a fueled iteration (the fuel only bounds the
number of expansions; `setT` supplies enough for the loop to reach its
fixed point). -/
def expandFor : Nat → QTree → Int → Int → QTree
  | 0, t, _, _ => t
  | f + 1, t, x, y =>
      if setNeedsExpand t x y then expandFor f (expandT t) x y else t

/-- `Universe::set`: expand until `(x, y)` is inside the root, then
rebuild the path to the cell. -/
def setT (t : QTree) (x y : Int) (alive : Bool) : QTree :=
  setRecT (expandFor (x.natAbs + y.natAbs + 1) t x y) x y alive

/-- One test of `shrink`'s loop body plus the recursion, fueled. -/
def shrinkGo : Nat → QTree → QTree
  | 0, t => t
  | f + 1, t =>
      if 4 < levelT t then
        match t with
        | .internal (.internal anw ane asw ase) (.internal bnw bne bsw bse)
            (.internal cnw cne csw cse) (.internal dnw dne dsw dse) =>
          let e := emptyT (levelT (QTree.internal
            (QTree.internal anw ane asw ase) (QTree.internal bnw bne bsw bse)
            (QTree.internal cnw cne csw cse) (QTree.internal dnw dne dsw dse)) - 2)
          if anw == e && ane == e && asw == e &&
             bnw == e && bne == e && bse == e &&
             cnw == e && csw == e && cse == e &&
             dne == e && dsw == e && dse == e then
            shrinkGo f (.internal ase bsw cne dnw)
          else t
        | t => t
      else t

/-- `Universe::shrink`: while the root's level exceeds 4 and its twelve
non-center grandchildren are all the canonical empty node of level
`root.level - 2`, replace the root by the node of its four innermost
grandchildren.  (The level decreases by one per iteration, so `levelT t`
iterations suffice.) -/
def shrinkT (t : QTree) : QTree := shrinkGo (levelT t) t

/-! ### Boundary computation -/

def I64MAX : Int := 2 ^ 63 - 1

def I64MIN : Int := -(2 ^ 63)

def EMPTY_BOUNDARY : Int × Int × Int × Int := (I64MAX, I64MAX, I64MIN, I64MIN)

/-- Fueled count of trailing zero bits (`u8::trailing_zeros` with fuel 8). -/
def ctzF : Nat → Nat → Nat
  | 0, _ => 0
  | f + 1, n => if n % 2 = 1 then 0 else 1 + ctzF f (n / 2)

/-- Fueled bit length; `8 - bitLenF 8 m` is `u8::leading_zeros`. -/
def bitLenF : Nat → Nat → Nat
  | 0, _ => 0
  | f + 1, n => if n = 0 then 0 else bitLenF f (n / 2) + 1

/-- `compute_byte_range` (`universe.rs`): the half-open occupied span of an
8-bit mask measured from the byte center, `(MAX, MIN)` for the zero mask. -/
def byteRange (m : Nat) : Int × Int :=
  if m = 0 then (I64MAX, I64MIN)
  else (((8 - bitLenF 8 m : Nat) : Int) - 4, 4 - (ctzF 8 m : Int))

/-- The 8-bit column-occupancy mask of a leaf (`row` in `boundary_rec`):
bit `7 - (x+4)` is set iff column `x` has a live cell. -/
def rowMask (a b c d : Nat) : Nat :=
  let w := a ||| c
  let w := (w >>> 8 ||| w >>> 4 ||| w ||| w <<< 4) &&& 0xf0
  let e := b ||| d
  let e := (e >>> 12 ||| e >>> 8 ||| e >>> 4 ||| e) &&& 0xf
  w ||| e

/-- The 8-bit row-occupancy mask of a leaf (`col` in `boundary_rec`):
bit `7 - (y+4)` is set iff row `y` has a live cell. -/
def colMask (a b c d : Nat) : Nat :=
  let n := a ||| b
  let n := n ||| n >>> 1 ||| n >>> 2 ||| n >>> 3
  let s := c ||| d
  let s := s ||| s >>> 1 ||| s >>> 2 ||| s >>> 3
  n >>> 5 &&& 0x80 ||| n >>> 2 &&& 0x40 |||
    n <<< 1 &&& 0x20 ||| n <<< 4 &&& 0x10 |||
    s >>> 9 &&& 0x8 ||| s >>> 6 &&& 0x4 ||| s >>> 3 &&& 0x2 ||| s &&& 0x1

/-- `boundary_rec`: `(left, top, right, bottom)` of the live cells of a
node whose center is at `(ox, oy)`, right and bottom exclusive.  The
canonical-empty identity check of the source (`node ==
empty_nodes[level]`) is the structural-equality test `t = emptyT level`
under hash-consing. -/
def boundaryRec : QTree → Int → Int → Int × Int × Int × Int
  | .leaf a b c d, ox, oy =>
      if QTree.leaf a b c d = emptyT 3 then EMPTY_BOUNDARY
      else
        let lr := byteRange (rowMask a b c d)
        let tb := byteRange (colMask a b c d)
        (lr.1 + ox, tb.1 + oy, lr.2 + ox, tb.2 + oy)
  | .internal a b c d, ox, oy =>
      if QTree.internal a b c d = emptyT (levelT (QTree.internal a b c d)) then
        EMPTY_BOUNDARY
      else
        let r : Int := 2 ^ (levelT a - 1)
        let nwb := boundaryRec a (ox - r) (oy - r)
        let neb := boundaryRec b (ox + r) (oy - r)
        let swb := boundaryRec c (ox - r) (oy + r)
        let seb := boundaryRec d (ox + r) (oy + r)
        (min (min nwb.1 neb.1) (min swb.1 seb.1),
         min (min nwb.2.1 neb.2.1) (min swb.2.1 seb.2.1),
         max (max nwb.2.2.1 neb.2.2.1) (max swb.2.2.1 seb.2.2.1),
         max (max nwb.2.2.2 neb.2.2.2) (max swb.2.2.2 seb.2.2.2))

/-- `Universe::boundary`. -/
def boundaryT (t : QTree) : Int × Int × Int × Int := boundaryRec t 0 0

/-- Specification of a tight bounding box for a cell set `S`: every cell
lies inside, and either the box is the sentinel with `S` empty, or all four
sides are attained and the components stay strictly inside the `i64`
sentinels. -/
def boxOk (S : Int → Int → Prop) (B : Int × Int × Int × Int) : Prop :=
  (∀ x y, S x y → B.1 ≤ x ∧ x < B.2.2.1 ∧ B.2.1 ≤ y ∧ y < B.2.2.2) ∧
  ((B = EMPTY_BOUNDARY ∧ ∀ x y, ¬ S x y) ∨
   ((∃ x y, S x y ∧ x = B.1) ∧ (∃ x y, S x y ∧ x = B.2.2.1 - 1) ∧
    (∃ x y, S x y ∧ y = B.2.1) ∧ (∃ x y, S x y ∧ y = B.2.2.2 - 1) ∧
    B.1 < I64MAX ∧ B.2.1 < I64MAX ∧ I64MIN < B.2.2.1 ∧ I64MIN < B.2.2.2))

/-! ### The stateful interned-node engine -/

structure SLeaf where
  nw : Nat
  ne : Nat
  sw : Nat
  se : Nat
  res1 : Nat
  res2 : Nat
deriving DecidableEq

structure SInt where
  nw : Nat
  ne : Nat
  sw : Nat
  se : Nat
  level : Nat
  result : Nat
deriving DecidableEq

inductive SNode where
  | leaf : SLeaf → SNode
  | internal : SInt → SNode
deriving DecidableEq

inductive SKey where
  | leaf : Nat → Nat → Nat → Nat → SKey
  | internal : Nat → Nat → Nat → Nat → SKey
deriving DecidableEq

def nodeKey : SNode → SKey
  | .leaf l => .leaf l.nw l.ne l.sw l.se
  | .internal n => .internal n.nw n.ne n.sw n.se

structure Uni where
  rule : Rule
  nodes : List SNode
  root : Nat
  emptyNodes : List Nat

def defaultSNode : SNode := .leaf ⟨0, 0, 0, 0, 0, 0⟩

def getNode (u : Uni) (id : Nat) : SNode := u.nodes.getD (id - 1) defaultSNode

def levelOf (u : Uni) (id : Nat) : Nat :=
  match getNode u id with
  | .leaf _ => 3
  | .internal n => n.level

def mkNode (u : Uni) (key : SKey) : SNode :=
  match key with
  | .leaf a b c d =>
      let r := level3Results u.rule a b c d
      .leaf ⟨a, b, c, d, r.1, r.2⟩
  | .internal a b c d => .internal ⟨a, b, c, d, levelOf u a + 1, 0⟩

def findNode (u : Uni) (key : SKey) : Uni × Nat :=
  match u.nodes.findIdx? (fun n => nodeKey n == key) with
  | some i => (u, i + 1)
  | none => ({ u with nodes := u.nodes ++ [mkNode u key] }, u.nodes.length + 1)

def setResult (u : Uni) (id res : Nat) : Uni :=
  match getNode u id with
  | .internal m => { u with nodes := u.nodes.set (id - 1) (.internal { m with result := res }) }
  | .leaf _ => u

def findEmptyGo : Nat → Uni → Uni
  | 0, u => u
  | f + 1, u =>
      let prev := u.emptyNodes.getD (u.emptyNodes.length - 1) 0
      match findNode u (.internal prev prev prev prev) with
      | (u1, id) =>
        let u2 := setResult u1 id prev
        findEmptyGo f { u2 with emptyNodes := u2.emptyNodes ++ [id] }

def findEmptyNode (u : Uni) (level : Nat) : Uni × Nat :=
  let u' := if u.emptyNodes.length < level + 1
            then findEmptyGo (level + 1 - u.emptyNodes.length) u
            else u
  (u', u'.emptyNodes.getD level 0)

def expandU (u : Uni) : Uni :=
  match getNode u u.root with
  | .leaf l =>
      match findNode u (.leaf 0 0 0 l.nw) with
      | (u1, a) =>
      match findNode u1 (.leaf 0 0 l.ne 0) with
      | (u2, b) =>
      match findNode u2 (.leaf 0 l.sw 0 0) with
      | (u3, c) =>
      match findNode u3 (.leaf l.se 0 0 0) with
      | (u4, d) =>
      match findNode u4 (.internal a b c d) with
      | (u5, r) => { u5 with root := r }
  | .internal n =>
      match findEmptyNode u (n.level - 1) with
      | (u0, e) =>
      match findNode u0 (.internal e e e n.nw) with
      | (u1, a) =>
      match findNode u1 (.internal e e n.ne e) with
      | (u2, b) =>
      match findNode u2 (.internal e n.sw e e) with
      | (u3, c) =>
      match findNode u3 (.internal n.se e e e) with
      | (u4, d) =>
      match findNode u4 (.internal a b c d) with
      | (u5, r) => { u5 with root := r }

def shrinkGoU : Nat → Uni → Uni
  | 0, u => u
  | f + 1, u =>
      let level := levelOf u u.root
      if 4 < level then
        match getNode u u.root with
        | .internal rt =>
          match getNode u rt.nw, getNode u rt.ne, getNode u rt.sw, getNode u rt.se with
          | .internal nw, .internal ne, .internal sw, .internal se =>
            let empty := u.emptyNodes.getD (level - 2) 0
            if nw.nw == empty && nw.ne == empty && nw.sw == empty &&
               ne.nw == empty && ne.ne == empty && ne.se == empty &&
               sw.nw == empty && sw.sw == empty && sw.se == empty &&
               se.ne == empty && se.sw == empty && se.se == empty then
              match findNode u (.internal nw.se ne.sw sw.ne se.nw) with
              | (u1, r) => shrinkGoU f { u1 with root := r }
            else u
          | _, _, _, _ => u
        | _ => u
      else u

def shrinkU (u : Uni) : Uni :=
  if u.emptyNodes.length ≤ levelOf u u.root - 2 then u
  else shrinkGoU (levelOf u u.root) u

def clearResults (u : Uni) (k newK : Nat) : Uni :=
  { u with nodes := u.nodes.map (fun n =>
      match n with
      | .internal m =>
          if 4 ≤ m.level ∧ k < m.level - 2 ∧ m.level - 2 ≤ newK then
            .internal { m with result := 0 }
          else .internal m
      | .leaf l => .leaf l) }

def setExpandGo : Nat → Uni → Int → Int → Uni
  | 0, u, _, _ => u
  | f + 1, u, x, y =>
      let radius : Int := 2 ^ (levelOf u u.root - 1)
      if x < -radius ∨ x ≥ radius ∨ y < -radius ∨ y ≥ radius then
        setExpandGo f (expandU u) x y
      else u

def setRecU : Nat → Uni → Nat → Int → Int → Bool → Uni × Nat
  | 0, u, id, _, _, _ => (u, id)
  | f + 1, u, id, x, y, alive =>
      match getNode u id with
      | .leaf l =>
          let mask := maskOf x y
          let upd := fun q => if alive then q ||| mask else q &&& (0xFFFF ^^^ mask)
          if x < 0 then
            if y < 0 then findNode u (.leaf (upd l.nw) l.ne l.sw l.se)
            else findNode u (.leaf l.nw l.ne (upd l.sw) l.se)
          else
            if y < 0 then findNode u (.leaf l.nw (upd l.ne) l.sw l.se)
            else findNode u (.leaf l.nw l.ne l.sw (upd l.se))
      | .internal n =>
          let r : Int := 2 ^ (n.level - 2)
          if y < 0 then
            if x < 0 then
              match setRecU f u n.nw (x + r) (y + r) alive with
              | (u1, m) => findNode u1 (.internal m n.ne n.sw n.se)
            else
              match setRecU f u n.ne (x - r) (y + r) alive with
              | (u1, m) => findNode u1 (.internal n.nw m n.sw n.se)
          else
            if x < 0 then
              match setRecU f u n.sw (x + r) (y - r) alive with
              | (u1, m) => findNode u1 (.internal n.nw n.ne m n.se)
            else
              match setRecU f u n.se (x - r) (y - r) alive with
              | (u1, m) => findNode u1 (.internal n.nw n.ne n.sw m)

def setU (u : Uni) (x y : Int) (alive : Bool) : Uni :=
  let u1 := setExpandGo (x.natAbs + y.natAbs + 1) u x y
  match setRecU (levelOf u1 u1.root) u1 u1.root x y alive with
  | (u2, r) => { u2 with root := r }

def leafRes (u : Uni) (id : Nat) (k : Nat) : Nat :=
  match getNode u id with
  | .leaf l => if 0 < k then l.res2 else l.res1
  | .internal _ => 0

def leafRes2 (u : Uni) (id : Nat) : Nat :=
  match getNode u id with
  | .leaf l => l.res2
  | .internal _ => 0

def leafStepU (u : Uni) (id : Nat) (rt : SInt) (k : Nat) : Uni × Nat :=
  match getNode u rt.nw, getNode u rt.ne, getNode u rt.sw, getNode u rt.se with
  | .leaf nw, .leaf ne, .leaf sw, .leaf se =>
      let pick := fun (l : SLeaf) => if 0 < k then l.res2 else l.res1
      let n0 := pick nw
      match findNode u (.leaf nw.ne ne.nw nw.se ne.sw) with
      | (v1, i1) =>
      let n1 := leafRes v1 i1 k
      let n2 := pick ne
      match findNode v1 (.leaf nw.sw nw.se sw.nw sw.ne) with
      | (v3, i3) =>
      let n3 := leafRes v3 i3 k
      match findNode v3 (.leaf nw.se ne.sw sw.ne se.nw) with
      | (v4, i4) =>
      let n4 := leafRes v4 i4 k
      match findNode v4 (.leaf ne.sw ne.se se.nw se.ne) with
      | (v5, i5) =>
      let n5 := leafRes v5 i5 k
      let n6 := pick sw
      match findNode v5 (.leaf sw.ne se.nw sw.se se.sw) with
      | (v7, i7) =>
      let n7 := leafRes v7 i7 k
      let n8 := pick se
      if 2 ≤ k then
        match findNode v7 (.leaf n0 n1 n3 n4) with
        | (w0, j0) =>
        let rnw := leafRes2 w0 j0
        match findNode w0 (.leaf n1 n2 n4 n5) with
        | (w1, j1) =>
        let rne := leafRes2 w1 j1
        match findNode w1 (.leaf n3 n4 n6 n7) with
        | (w2, j2) =>
        let rsw := leafRes2 w2 j2
        match findNode w2 (.leaf n4 n5 n7 n8) with
        | (w3, j3) =>
        let rse := leafRes2 w3 j3
        match findNode w3 (.leaf rnw rne rsw rse) with
        | (w4, jr) => (setResult w4 id jr, jr)
      else
        match findNode v7 (.leaf (centerq n0 n1 n3 n4) (centerq n1 n2 n4 n5)
          (centerq n3 n4 n6 n7) (centerq n4 n5 n7 n8)) with
        | (w4, jr) => (setResult w4 id jr, jr)
  | _, _, _, _ => (u, 0)

def stepU : Nat → Uni → Nat → Nat → Uni × Nat
  | 0, u, id, _ => (u, id)
  | f + 1, u, id, k =>
      match getNode u id with
      | .leaf _ => (u, id)
      | .internal nd =>
        if nd.result ≠ 0 then (u, nd.result)
        else if nd.level = 4 then leafStepU u id nd k
        else
          match getNode u nd.nw, getNode u nd.ne, getNode u nd.sw, getNode u nd.se with
          | .internal nw, .internal ne, .internal sw, .internal se =>
            match stepU f u nd.nw k with
            | (a1, rn0) =>
            match findNode a1 (.internal nw.ne ne.nw nw.se ne.sw) with
            | (a2, nn) =>
            match stepU f a2 nn k with
            | (a3, rn1) =>
            match stepU f a3 nd.ne k with
            | (a4, rn2) =>
            match findNode a4 (.internal nw.sw nw.se sw.nw sw.ne) with
            | (a5, ww) =>
            match stepU f a5 ww k with
            | (a6, rn3) =>
            match findNode a6 (.internal nw.se ne.sw sw.ne se.nw) with
            | (a7, cc) =>
            match stepU f a7 cc k with
            | (a8, rn4) =>
            match findNode a8 (.internal ne.sw ne.se se.nw se.ne) with
            | (a9, ee) =>
            match stepU f a9 ee k with
            | (a10, rn5) =>
            match stepU f a10 nd.sw k with
            | (a11, rn6) =>
            match findNode a11 (.internal sw.ne se.nw sw.se se.sw) with
            | (a12, ss) =>
            match stepU f a12 ss k with
            | (a13, rn7) =>
            match stepU f a13 nd.se k with
            | (u14, rn8) =>
            if nd.level - 2 ≤ k then
              match findNode u14 (.internal rn0 rn1 rn3 rn4) with
              | (b1, r0) =>
              match findNode b1 (.internal rn1 rn2 rn4 rn5) with
              | (b2, r1) =>
              match findNode b2 (.internal rn3 rn4 rn6 rn7) with
              | (b3, r2) =>
              match findNode b3 (.internal rn4 rn5 rn7 rn8) with
              | (b4, r3) =>
              match stepU f b4 r0 k with
              | (c1, q0) =>
              match stepU f c1 r1 k with
              | (c2, q1) =>
              match stepU f c2 r2 k with
              | (c3, q2) =>
              match stepU f c3 r3 k with
              | (c4, q3) =>
              match findNode c4 (.internal q0 q1 q2 q3) with
              | (c5, res) => (setResult c5 id res, res)
            else
              match getNode u14 rn0, getNode u14 rn1, getNode u14 rn2,
                    getNode u14 rn3, getNode u14 rn4, getNode u14 rn5,
                    getNode u14 rn6, getNode u14 rn7, getNode u14 rn8 with
              | .internal m0, .internal m1, .internal m2, .internal m3, .internal m4,
                .internal m5, .internal m6, .internal m7, .internal m8 =>
                match findNode u14 (.internal m0.se m1.sw m3.ne m4.nw) with
                | (b1, g0) =>
                match findNode b1 (.internal m1.se m2.sw m4.ne m5.nw) with
                | (b2, g1) =>
                match findNode b2 (.internal m3.se m4.sw m6.ne m7.nw) with
                | (b3, g2) =>
                match findNode b3 (.internal m4.se m5.sw m7.ne m8.nw) with
                | (b4, g3) =>
                match findNode b4 (.internal g0 g1 g2 g3) with
                | (b5, res) => (setResult b5 id res, res)
              | .leaf m0, .leaf m1, .leaf m2, .leaf m3, .leaf m4,
                .leaf m5, .leaf m6, .leaf m7, .leaf m8 =>
                match findNode u14 (.leaf m0.se m1.sw m3.ne m4.nw) with
                | (b1, g0) =>
                match findNode b1 (.leaf m1.se m2.sw m4.ne m5.nw) with
                | (b2, g1) =>
                match findNode b2 (.leaf m3.se m4.sw m6.ne m7.nw) with
                | (b3, g2) =>
                match findNode b3 (.leaf m4.se m5.sw m7.ne m8.nw) with
                | (b4, g3) =>
                match findNode b4 (.internal g0 g1 g2 g3) with
                | (b5, res) => (setResult b5 id res, res)
              | _, _, _, _, _, _, _, _, _ => (u, 0)
          | _, _, _, _ => (u, 0)

def expandWhileGo : Nat → Nat → Uni → Uni
  | 0, _, u => u
  | f + 1, target, u =>
      if levelOf u u.root < target then expandWhileGo f target (expandU u) else u

def simulateGo : Nat → Uni → Nat → Nat → Uni
  | 0, u, _, _ => u
  | f + 1, u, ng, k =>
      let u1 := expandU (expandU u)
      let u2 := expandWhileGo (k + 4) (max 4 (k + 3)) u1
      let ng1 := ng &&& (ng - 1)
      match stepU (levelOf u2 u2.root) u2 u2.root k with
      | (u3, r) =>
      let u4 := shrinkU { u3 with root := r }
      if ng1 = 0 then u4
      else simulateGo f (clearResults u4 k (ctzF 64 ng1)) ng1 (ctzF 64 ng1)

def simulateU (u : Uni) (n : Nat) : Uni :=
  if n = 0 then u else simulateGo n u n (ctzF 64 n)

def newU (rule : Rule) : Uni :=
  match findNode ⟨rule, [], 0, [0, 0, 0, 0]⟩ (.leaf 0 0 0 0) with
  | (u1, r) => { u1 with root := r, emptyNodes := [0, 0, 0, r] }

def toQTreeU : Nat → Uni → Nat → QTree
  | 0, _, _ => QTree.leaf 0 0 0 0
  | f + 1, u, id =>
      match getNode u id with
      | .leaf l => QTree.leaf l.nw l.ne l.sw l.se
      | .internal n => QTree.internal (toQTreeU f u n.nw) (toQTreeU f u n.ne)
          (toQTreeU f u n.sw) (toQTreeU f u n.se)

def cellU (u : Uni) (x y : Int) : Bool :=
  toGrid (toQTreeU (levelOf u u.root) u u.root) x y

def uniC1 : Uni :=
  setU (setU (setU (setU (setU (setU (newU GAME_OF_LIFE)
    (-1) 0 true) 0 0 true) 1 0 true)
    (-16) (-1) true) (-16) 0 true) (-16) 1 true

/-- The `prev` value read at the start of one iteration of `find_empty_node`'s
filling loop: the last entry of `empty_nodes`. -/
def fePrev (u : Uni) : Nat := u.emptyNodes.getD (u.emptyNodes.length - 1) 0

/-- The interning key `NodeKey::new_internal(prev, prev, prev, prev)` used by
`find_empty_node` to create the next canonical empty node. -/
def feKey (u : Uni) : SKey := .internal (fePrev u) (fePrev u) (fePrev u) (fePrev u)

/-- One iteration of `find_empty_node`'s filling loop: intern the node whose
four children are the last empty node, set its cached result to that same
node, and push it onto `empty_nodes`. -/
def feStep (u : Uni) : Uni :=
  match findNode u (feKey u) with
  | (u1, id) =>
    let u2 := setResult u1 id (fePrev u)
    { u2 with emptyNodes := u2.emptyNodes ++ [id] }

/-- The at-creation cache invariant of the canonical empty node recorded at
index `i` of `empty_nodes`: the node is internal, its four children are the
empty node one level lower, and its cached result is that same lower empty
node. -/
def emptyInv (u : Uni) (i : Nat) : Prop :=
  match getNode u (u.emptyNodes.getD i 0) with
  | .internal n =>
      n.nw = u.emptyNodes.getD (i - 1) 0 ∧
      n.ne = u.emptyNodes.getD (i - 1) 0 ∧
      n.sw = u.emptyNodes.getD (i - 1) 0 ∧
      n.se = u.emptyNodes.getD (i - 1) 0 ∧
      n.result = u.emptyNodes.getD (i - 1) 0
  | .leaf _ => False

/-! ### Popcount and bit-extraction lemmas -/

theorem countOnesF_spec : ∀ f n, n < 2 ^ f →
    countOnesF f n = ∑ j ∈ Finset.range f, (n.testBit j).toNat := by
  intro f
  induction f with
  | zero =>
    intro n h
    have : n = 0 := by omega
    subst this
    simp [countOnesF]
  | succ f ih =>
    intro n h
    rw [countOnesF]
    by_cases h0 : n = 0
    · subst h0; simp
    · rw [if_neg h0, Finset.sum_range_succ']
      have h2 : n / 2 < 2 ^ f := by
        have := Nat.pow_succ 2 f
        omega
      rw [ih (n / 2) h2]
      have hb : ∀ j, n.testBit (j + 1) = (n / 2).testBit j := by
        intro j
        simpa using Nat.testBit_succ n j
      have h0b : (n.testBit 0).toNat = n % 2 := by
        rcases Nat.mod_two_eq_zero_or_one n with h1 | h1 <;>
          simp [Nat.testBit_zero, h1]
      simp only [hb]
      omega

theorem countOnes_spec (n : Nat) (h : n < 2 ^ 16) :
    countOnes n = ∑ j ∈ Finset.range 16, (n.testBit j).toNat :=
  countOnesF_spec 16 n h

/-- `a >>> k &&& 1` is the `k`-th bit of `a` as a `Nat`. -/
theorem shr_and_one (a k : Nat) : a >>> k &&& 1 = (a.testBit k).toNat := by
  rw [Nat.and_one_is_mod, Nat.shiftRight_eq_div_pow, Nat.testBit_to_div_mod]
  rcases Nat.mod_two_eq_zero_or_one (a / 2 ^ k) with h | h <;> simp [h]

theorem nexts_toNat (rule : Rule) (t : Bool) :
    nexts rule t.toNat = if t then rule.survival else rule.birth := by
  cases t <;> simp [nexts]

/-! The four neighbor masks of `compute_level2_results` select exactly the
eight row-major bits surrounding each center cell. -/

theorem count_nw (i : Nat) :
    countOnes (i &&& 0b1110101011100000) = nbrs (sq4 i) 1 1 := by
  have hm : i &&& 0b1110101011100000 < 2 ^ 16 :=
    lt_of_le_of_lt (Nat.and_le_right) (by norm_num)
  rw [countOnes_spec _ hm]
  simp only [Finset.sum_range_succ, Finset.sum_range_zero, Nat.testBit_and]
  simp [nbrs, sq4, Nat.testBit, Nat.shiftRight_eq_div_pow]
  omega

theorem count_ne (i : Nat) :
    countOnes (i &&& 0b0111010101110000) = nbrs (sq4 i) 2 1 := by
  have hm : i &&& 0b0111010101110000 < 2 ^ 16 :=
    lt_of_le_of_lt (Nat.and_le_right) (by norm_num)
  rw [countOnes_spec _ hm]
  simp only [Finset.sum_range_succ, Finset.sum_range_zero, Nat.testBit_and]
  simp [nbrs, sq4, Nat.testBit, Nat.shiftRight_eq_div_pow]
  omega

theorem count_sw (i : Nat) :
    countOnes (i &&& 0b0000111010101110) = nbrs (sq4 i) 1 2 := by
  have hm : i &&& 0b0000111010101110 < 2 ^ 16 :=
    lt_of_le_of_lt (Nat.and_le_right) (by norm_num)
  rw [countOnes_spec _ hm]
  simp only [Finset.sum_range_succ, Finset.sum_range_zero, Nat.testBit_and]
  simp [nbrs, sq4, Nat.testBit, Nat.shiftRight_eq_div_pow]
  omega

theorem count_se (i : Nat) :
    countOnes (i &&& 0b0000011101010111) = nbrs (sq4 i) 2 2 := by
  have hm : i &&& 0b0000011101010111 < 2 ^ 16 :=
    lt_of_le_of_lt (Nat.and_le_right) (by norm_num)
  rw [countOnes_spec _ hm]
  simp only [Finset.sum_range_succ, Finset.sum_range_zero, Nat.testBit_and]
  simp [nbrs, sq4, Nat.testBit, Nat.shiftRight_eq_div_pow]
  omega

theorem comp_nw (rule : Rule) (i : Nat) :
    nexts rule (i >>> 10 &&& 1) >>> countOnes (i &&& 0b1110101011100000) &&& 1
      = (ruleNext rule (sq4 i 1 1) (nbrs (sq4 i) 1 1)).toNat := by
  rw [shr_and_one, shr_and_one, nexts_toNat, count_nw]
  have h : sq4 i 1 1 = i.testBit 10 := by norm_num [sq4]
  rw [h, ruleNext]

theorem comp_ne (rule : Rule) (i : Nat) :
    nexts rule (i >>> 9 &&& 1) >>> countOnes (i &&& 0b0111010101110000) &&& 1
      = (ruleNext rule (sq4 i 2 1) (nbrs (sq4 i) 2 1)).toNat := by
  rw [shr_and_one, shr_and_one, nexts_toNat, count_ne]
  have h : sq4 i 2 1 = i.testBit 9 := by
    norm_num [sq4, show ((2:Int).toNat = 2) from rfl]
  rw [h, ruleNext]

theorem comp_sw (rule : Rule) (i : Nat) :
    nexts rule (i >>> 6 &&& 1) >>> countOnes (i &&& 0b0000111010101110) &&& 1
      = (ruleNext rule (sq4 i 1 2) (nbrs (sq4 i) 1 2)).toNat := by
  rw [shr_and_one, shr_and_one, nexts_toNat, count_sw]
  have h : sq4 i 1 2 = i.testBit 6 := by
    norm_num [sq4, show ((2:Int).toNat = 2) from rfl]
  rw [h, ruleNext]

theorem comp_se (rule : Rule) (i : Nat) :
    nexts rule (i >>> 5 &&& 1) >>> countOnes (i &&& 0b0000011101010111) &&& 1
      = (ruleNext rule (sq4 i 2 2) (nbrs (sq4 i) 2 2)).toNat := by
  rw [shr_and_one, shr_and_one, nexts_toNat, count_se]
  have h : sq4 i 2 2 = i.testBit 5 := by
    norm_num [sq4, show ((2:Int).toNat = 2) from rfl]
  rw [h, ruleNext]

/-- The level-2 table agrees everywhere with the row-major specification. -/
theorem level2Results_eq_spec (rule : Rule) (i : Nat) :
    level2Results rule i = level2Spec rule i := by
  rw [level2Results, level2Spec]
  rw [comp_nw, comp_ne, comp_sw, comp_se]

/-! ### Positional readings of `sq4` and output-bit extraction -/

theorem tn0 : (0:Int).toNat = 0 := rfl

theorem tn1 : (1:Int).toNat = 1 := rfl

theorem tn2 : (2:Int).toNat = 2 := rfl

theorem tn3 : (3:Int).toNat = 3 := rfl

theorem sq4at_00 (q : Nat) : sq4 q 0 0 = q.testBit 15 := by
  norm_num [sq4, tn0, tn1, tn2, tn3]

theorem sq4at_01 (q : Nat) : sq4 q 0 1 = q.testBit 11 := by
  norm_num [sq4, tn0, tn1, tn2, tn3]

theorem sq4at_02 (q : Nat) : sq4 q 0 2 = q.testBit 7 := by
  norm_num [sq4, tn0, tn1, tn2, tn3]

theorem sq4at_03 (q : Nat) : sq4 q 0 3 = q.testBit 3 := by
  norm_num [sq4, tn0, tn1, tn2, tn3]

theorem sq4at_10 (q : Nat) : sq4 q 1 0 = q.testBit 14 := by
  norm_num [sq4, tn0, tn1, tn2, tn3]

theorem sq4at_11 (q : Nat) : sq4 q 1 1 = q.testBit 10 := by
  norm_num [sq4, tn0, tn1, tn2, tn3]

theorem sq4at_12 (q : Nat) : sq4 q 1 2 = q.testBit 6 := by
  norm_num [sq4, tn0, tn1, tn2, tn3]

theorem sq4at_13 (q : Nat) : sq4 q 1 3 = q.testBit 2 := by
  norm_num [sq4, tn0, tn1, tn2, tn3]

theorem sq4at_20 (q : Nat) : sq4 q 2 0 = q.testBit 13 := by
  norm_num [sq4, tn0, tn1, tn2, tn3]

theorem sq4at_21 (q : Nat) : sq4 q 2 1 = q.testBit 9 := by
  norm_num [sq4, tn0, tn1, tn2, tn3]

theorem sq4at_22 (q : Nat) : sq4 q 2 2 = q.testBit 5 := by
  norm_num [sq4, tn0, tn1, tn2, tn3]

theorem sq4at_23 (q : Nat) : sq4 q 2 3 = q.testBit 1 := by
  norm_num [sq4, tn0, tn1, tn2, tn3]

theorem sq4at_30 (q : Nat) : sq4 q 3 0 = q.testBit 12 := by
  norm_num [sq4, tn0, tn1, tn2, tn3]

theorem sq4at_31 (q : Nat) : sq4 q 3 1 = q.testBit 8 := by
  norm_num [sq4, tn0, tn1, tn2, tn3]

theorem sq4at_32 (q : Nat) : sq4 q 3 2 = q.testBit 4 := by
  norm_num [sq4, tn0, tn1, tn2, tn3]

theorem sq4at_33 (q : Nat) : sq4 q 3 3 = q.testBit 0 := by
  norm_num [sq4, tn0, tn1, tn2, tn3]

theorem testBit_small (v j : Nat) (hv : v < 64) (hj : 6 ≤ j) : v.testBit j = false := by
  apply Nat.testBit_lt_two_pow
  calc v < 64 := hv
    _ = 2 ^ 6 := by norm_num
    _ ≤ 2 ^ j := Nat.pow_le_pow_right (by norm_num) hj

theorem pack4_testBit (a b c d : Bool) (j : Nat) :
    (a.toNat <<< 5 ||| b.toNat <<< 4 ||| c.toNat <<< 1 ||| d.toNat).testBit j =
      if j = 5 then a else if j = 4 then b else if j = 1 then c else if j = 0 then d
      else false := by
  rcases Nat.lt_or_ge j 6 with h | h
  · interval_cases j <;> cases a <;> cases b <;> cases c <;> cases d <;> decide
  · rw [testBit_small _ j (by cases a <;> cases b <;> cases c <;> cases d <;> decide) h]
    have h5 : j ≠ 5 := by omega
    have h4 : j ≠ 4 := by omega
    have h1 : j ≠ 1 := by omega
    have h0 : j ≠ 0 := by omega
    simp [h5, h4, h1, h0]

/-- Bit characterization of the level-2 table outputs: bits 5, 4, 1, 0
carry the next-generation center cells, every other bit is zero. -/
theorem level2Results_testBit (rule : Rule) (i : Nat) (j : Nat) :
    (level2Results rule i).testBit j =
      (if j = 5 then ruleNext rule (sq4 i 1 1) (nbrs (sq4 i) 1 1)
      else if j = 4 then ruleNext rule (sq4 i 2 1) (nbrs (sq4 i) 2 1)
      else if j = 1 then ruleNext rule (sq4 i 1 2) (nbrs (sq4 i) 1 2)
      else if j = 0 then ruleNext rule (sq4 i 2 2) (nbrs (sq4 i) 2 2)
      else false) := by
  rw [level2Results_eq_spec]
  simp only [level2Spec]
  exact pack4_testBit _ _ _ _ j

/-! ### The nine 4×4 windows of `compute_level3_results` as sub-squares of
the 8×8 leaf -/

theorem win_nw (a b c d : Nat) :
    ∀ x y : Int, 0 ≤ x → x < 4 → 0 ≤ y → y < 4 →
    sq4 (a) x y = leafGrid a b c d (x + (-4)) (y + (-4)) := by
  intro x y h1 h2 h3 h4
  interval_cases x <;> interval_cases y <;>
    · simp only [sq4, leafGrid]
      norm_num [tn0, tn1, tn2, tn3]
      try norm_num [Nat.testBit, Nat.shiftRight_eq_div_pow]

theorem win_nn (a b c d : Nat) :
    ∀ x y : Int, 0 ≤ x → x < 4 → 0 ≤ y → y < 4 →
    sq4 (a <<< 2 &&& 0xcccc ||| b >>> 2 &&& 0x3333) x y = leafGrid a b c d (x + (-2)) (y + (-4)) := by
  intro x y h1 h2 h3 h4
  interval_cases x <;> interval_cases y <;>
    · simp only [sq4, leafGrid, centerq]
      norm_num [tn0, tn1, tn2, tn3]
      try norm_num [Nat.testBit, Nat.shiftRight_eq_div_pow]

theorem win_ne (a b c d : Nat) :
    ∀ x y : Int, 0 ≤ x → x < 4 → 0 ≤ y → y < 4 →
    sq4 (b) x y = leafGrid a b c d (x + 0) (y + (-4)) := by
  intro x y h1 h2 h3 h4
  interval_cases x <;> interval_cases y <;>
    · simp only [sq4, leafGrid]
      norm_num [tn0, tn1, tn2, tn3]
      try norm_num [Nat.testBit, Nat.shiftRight_eq_div_pow]

theorem win_ww (a b c d : Nat) (hb : c < 65536) :
    ∀ x y : Int, 0 ≤ x → x < 4 → 0 ≤ y → y < 4 →
    sq4 ((a <<< 8) &&& 0xFFFF ||| c >>> 8) x y = leafGrid a b c d (x + (-4)) (y + (-2)) := by
  have e1 : c / 65536 = 0 := by omega
  have e2 : c / 131072 = 0 := by omega
  have e3 : c / 262144 = 0 := by omega
  have e4 : c / 524288 = 0 := by omega
  have e5 : c / 1048576 = 0 := by omega
  have e6 : c / 2097152 = 0 := by omega
  have e7 : c / 4194304 = 0 := by omega
  have e8 : c / 8388608 = 0 := by omega
  intro x y h1 h2 h3 h4
  interval_cases x <;> interval_cases y <;>
    · simp only [sq4, leafGrid]
      norm_num [tn0, tn1, tn2, tn3]
      try norm_num [Nat.testBit, Nat.shiftRight_eq_div_pow, e1, e2, e3, e4, e5, e6, e7, e8]

theorem win_cc (a b c d : Nat) :
    ∀ x y : Int, 0 ≤ x → x < 4 → 0 ≤ y → y < 4 →
    sq4 (centerq a b c d) x y = leafGrid a b c d (x + (-2)) (y + (-2)) := by
  intro x y h1 h2 h3 h4
  interval_cases x <;> interval_cases y <;>
    · simp only [sq4, leafGrid, centerq]
      norm_num [tn0, tn1, tn2, tn3]
      try norm_num [Nat.testBit, Nat.shiftRight_eq_div_pow]

theorem win_ee (a b c d : Nat) (hb : d < 65536) :
    ∀ x y : Int, 0 ≤ x → x < 4 → 0 ≤ y → y < 4 →
    sq4 ((b <<< 8) &&& 0xFFFF ||| d >>> 8) x y = leafGrid a b c d (x + 0) (y + (-2)) := by
  have e1 : d / 65536 = 0 := by omega
  have e2 : d / 131072 = 0 := by omega
  have e3 : d / 262144 = 0 := by omega
  have e4 : d / 524288 = 0 := by omega
  have e5 : d / 1048576 = 0 := by omega
  have e6 : d / 2097152 = 0 := by omega
  have e7 : d / 4194304 = 0 := by omega
  have e8 : d / 8388608 = 0 := by omega
  intro x y h1 h2 h3 h4
  interval_cases x <;> interval_cases y <;>
    · simp only [sq4, leafGrid]
      norm_num [tn0, tn1, tn2, tn3]
      try norm_num [Nat.testBit, Nat.shiftRight_eq_div_pow, e1, e2, e3, e4, e5, e6, e7, e8]

theorem win_sw (a b c d : Nat) :
    ∀ x y : Int, 0 ≤ x → x < 4 → 0 ≤ y → y < 4 →
    sq4 (c) x y = leafGrid a b c d (x + (-4)) (y + 0) := by
  intro x y h1 h2 h3 h4
  interval_cases x <;> interval_cases y <;>
    · simp only [sq4, leafGrid]
      norm_num [tn0, tn1, tn2, tn3]
      try norm_num [Nat.testBit, Nat.shiftRight_eq_div_pow]

theorem win_ss (a b c d : Nat) :
    ∀ x y : Int, 0 ≤ x → x < 4 → 0 ≤ y → y < 4 →
    sq4 (c <<< 2 &&& 0xcccc ||| d >>> 2 &&& 0x3333) x y = leafGrid a b c d (x + (-2)) (y + 0) := by
  intro x y h1 h2 h3 h4
  interval_cases x <;> interval_cases y <;>
    · simp only [sq4, leafGrid, centerq]
      norm_num [tn0, tn1, tn2, tn3]
      try norm_num [Nat.testBit, Nat.shiftRight_eq_div_pow]

theorem win_se (a b c d : Nat) :
    ∀ x y : Int, 0 ≤ x → x < 4 → 0 ≤ y → y < 4 →
    sq4 (d) x y = leafGrid a b c d (x + 0) (y + 0) := by
  intro x y h1 h2 h3 h4
  interval_cases x <;> interval_cases y <;>
    · simp only [sq4, leafGrid]
      norm_num [tn0, tn1, tn2, tn3]
      try norm_num [Nat.testBit, Nat.shiftRight_eq_div_pow]

/-- Assembling the four level-2 outputs of 2×2-spaced windows of `g` into a
4×4 (`l2sq` of table lookups) gives a window of `lifeStepG rule g`. -/
theorem l2sq_window (rule : Rule)
    (g : Int → Int → Bool) (q0 q1 q2 q3 : Nat) (ox oy : Int)
    (pnw qnw pne qne psw qsw pse qse : Int)
    (hnw : ∀ x y : Int, 0 ≤ x → x < 4 → 0 ≤ y → y < 4 →
      sq4 q0 x y = g (x + pnw) (y + qnw))
    (hne : ∀ x y : Int, 0 ≤ x → x < 4 → 0 ≤ y → y < 4 →
      sq4 q1 x y = g (x + pne) (y + qne))
    (hsw : ∀ x y : Int, 0 ≤ x → x < 4 → 0 ≤ y → y < 4 →
      sq4 q2 x y = g (x + psw) (y + qsw))
    (hse : ∀ x y : Int, 0 ≤ x → x < 4 → 0 ≤ y → y < 4 →
      sq4 q3 x y = g (x + pse) (y + qse))
    (e1 : pnw = ox - 1) (e2 : qnw = oy - 1) (e3 : pne = ox + 1) (e4 : qne = oy - 1)
    (e5 : psw = ox - 1) (e6 : qsw = oy + 1) (e7 : pse = ox + 1) (e8 : qse = oy + 1) :
    ∀ x y : Int, 0 ≤ x → x < 4 → 0 ≤ y → y < 4 →
    sq4 (l2sq (level2Results rule q0) (level2Results rule q1)
        (level2Results rule q2) (level2Results rule q3)) x y
      = lifeStepG rule g (x + ox) (y + oy) := by
  subst e1
  subst e2
  subst e3
  subst e4
  subst e5
  subst e6
  subst e7
  subst e8
  intro x y h1 h2 h3 h4
  interval_cases x <;> interval_cases y <;>
    · simp only [sq4at_00, sq4at_01, sq4at_02, sq4at_03, sq4at_10, sq4at_11, sq4at_12, sq4at_13, sq4at_20, sq4at_21, sq4at_22, sq4at_23, sq4at_30, sq4at_31, sq4at_32, sq4at_33, l2sq]
      simp only [Nat.testBit_or, Nat.testBit_and, Nat.testBit_shiftLeft, Nat.testBit_shiftRight]
      simp only [level2Results_testBit]
      norm_num
      simp only [lifeStepG, nbrs]
      norm_num [hnw, hne, hsw, hse]
      try ring_nf

/-- Center extraction assembling `result1` from the four overlapping
one-generation squares `r0..r3` (disjoint masks). -/
theorem res1_extract (r0 r1 r2 r3 : Nat) :
    ∀ x y : Int, 0 ≤ x → x < 4 → 0 ≤ y → y < 4 →
    sq4 (r0 <<< 5 &&& 0xcc00 ||| r1 <<< 3 &&& 0x3300 |||
        r2 >>> 3 &&& 0x00cc ||| r3 >>> 5 &&& 0x0033) x y
      = if x < 2 then (if y < 2 then sq4 r0 (x+1) (y+1) else sq4 r2 (x+1) (y-1))
        else (if y < 2 then sq4 r1 (x-1) (y+1) else sq4 r3 (x-1) (y-1)) := by
  intro x y h1 h2 h3 h4
  interval_cases x <;> interval_cases y <;>
    · norm_num [sq4, tn0, tn1, tn2, tn3]
      try norm_num [Nat.testBit, Nat.shiftRight_eq_div_pow]


/-! ### Correctness of the leaf center results -/

theorem level3_res1 (rule : Rule) (a b c d : Nat)
    (hc : c < 65536) (hd : d < 65536) :
    ∀ x y : Int, -2 ≤ x → x < 2 → -2 ≤ y → y < 2 →
    sq4 (level3Results rule a b c d).1 (x + 2) (y + 2)
      = lifeStepG rule (leafGrid a b c d) x y := by
  have hr0 := l2sq_window rule (leafGrid a b c d) a
    (a <<< 2 &&& 0xcccc ||| b >>> 2 &&& 0x3333)
    ((a <<< 8) &&& 0xFFFF ||| c >>> 8) (centerq a b c d) (-3) (-3)
    (-4) (-4) (-2) (-4) (-4) (-2) (-2) (-2)
    (win_nw a b c d) (win_nn a b c d) (win_ww a b c d hc) (win_cc a b c d)
    (by norm_num) (by norm_num) (by norm_num) (by norm_num)
    (by norm_num) (by norm_num) (by norm_num) (by norm_num)
  have hr1 := l2sq_window rule (leafGrid a b c d)
    (a <<< 2 &&& 0xcccc ||| b >>> 2 &&& 0x3333) b (centerq a b c d)
    ((b <<< 8) &&& 0xFFFF ||| d >>> 8) (-1) (-3)
    (-2) (-4) 0 (-4) (-2) (-2) 0 (-2)
    (win_nn a b c d) (win_ne a b c d) (win_cc a b c d) (win_ee a b c d hd)
    (by norm_num) (by norm_num) (by norm_num) (by norm_num)
    (by norm_num) (by norm_num) (by norm_num) (by norm_num)
  have hr2 := l2sq_window rule (leafGrid a b c d)
    ((a <<< 8) &&& 0xFFFF ||| c >>> 8) (centerq a b c d) c
    (c <<< 2 &&& 0xcccc ||| d >>> 2 &&& 0x3333) (-3) (-1)
    (-4) (-2) (-2) (-2) (-4) 0 (-2) 0
    (win_ww a b c d hc) (win_cc a b c d) (win_sw a b c d) (win_ss a b c d)
    (by norm_num) (by norm_num) (by norm_num) (by norm_num)
    (by norm_num) (by norm_num) (by norm_num) (by norm_num)
  have hr3 := l2sq_window rule (leafGrid a b c d)
    (centerq a b c d) ((b <<< 8) &&& 0xFFFF ||| d >>> 8)
    (c <<< 2 &&& 0xcccc ||| d >>> 2 &&& 0x3333) d (-1) (-1)
    (-2) (-2) 0 (-2) (-2) 0 0 0
    (win_cc a b c d) (win_ee a b c d hd) (win_ss a b c d) (win_se a b c d)
    (by norm_num) (by norm_num) (by norm_num) (by norm_num)
    (by norm_num) (by norm_num) (by norm_num) (by norm_num)
  intro x y h1 h2 h3 h4
  simp only [level3Results]
  interval_cases x <;> interval_cases y <;>
    · norm_num [res1_extract]
      norm_num [hr0, hr1, hr2, hr3]

theorem level3_res2 (rule : Rule) (a b c d : Nat)
    (hc : c < 65536) (hd : d < 65536) :
    ∀ x y : Int, -2 ≤ x → x < 2 → -2 ≤ y → y < 2 →
    sq4 (level3Results rule a b c d).2 (x + 2) (y + 2)
      = lifeStepG rule (lifeStepG rule (leafGrid a b c d)) x y := by
  have hr0 := l2sq_window rule (leafGrid a b c d) a
    (a <<< 2 &&& 0xcccc ||| b >>> 2 &&& 0x3333)
    ((a <<< 8) &&& 0xFFFF ||| c >>> 8) (centerq a b c d) (-3) (-3)
    (-4) (-4) (-2) (-4) (-4) (-2) (-2) (-2)
    (win_nw a b c d) (win_nn a b c d) (win_ww a b c d hc) (win_cc a b c d)
    (by norm_num) (by norm_num) (by norm_num) (by norm_num)
    (by norm_num) (by norm_num) (by norm_num) (by norm_num)
  have hr1 := l2sq_window rule (leafGrid a b c d)
    (a <<< 2 &&& 0xcccc ||| b >>> 2 &&& 0x3333) b (centerq a b c d)
    ((b <<< 8) &&& 0xFFFF ||| d >>> 8) (-1) (-3)
    (-2) (-4) 0 (-4) (-2) (-2) 0 (-2)
    (win_nn a b c d) (win_ne a b c d) (win_cc a b c d) (win_ee a b c d hd)
    (by norm_num) (by norm_num) (by norm_num) (by norm_num)
    (by norm_num) (by norm_num) (by norm_num) (by norm_num)
  have hr2 := l2sq_window rule (leafGrid a b c d)
    ((a <<< 8) &&& 0xFFFF ||| c >>> 8) (centerq a b c d) c
    (c <<< 2 &&& 0xcccc ||| d >>> 2 &&& 0x3333) (-3) (-1)
    (-4) (-2) (-2) (-2) (-4) 0 (-2) 0
    (win_ww a b c d hc) (win_cc a b c d) (win_sw a b c d) (win_ss a b c d)
    (by norm_num) (by norm_num) (by norm_num) (by norm_num)
    (by norm_num) (by norm_num) (by norm_num) (by norm_num)
  have hr3 := l2sq_window rule (leafGrid a b c d)
    (centerq a b c d) ((b <<< 8) &&& 0xFFFF ||| d >>> 8)
    (c <<< 2 &&& 0xcccc ||| d >>> 2 &&& 0x3333) d (-1) (-1)
    (-2) (-2) 0 (-2) (-2) 0 0 0
    (win_cc a b c d) (win_ee a b c d hd) (win_ss a b c d) (win_se a b c d)
    (by norm_num) (by norm_num) (by norm_num) (by norm_num)
    (by norm_num) (by norm_num) (by norm_num) (by norm_num)
  have hres2 := l2sq_window rule (lifeStepG rule (leafGrid a b c d)) _ _ _ _ (-2) (-2)
    (-3) (-3) (-1) (-3) (-3) (-1) (-1) (-1)
    hr0 hr1 hr2 hr3
    (by norm_num) (by norm_num) (by norm_num) (by norm_num)
    (by norm_num) (by norm_num) (by norm_num) (by norm_num)
  intro x y h1 h2 h3 h4
  simp only [level3Results]
  interval_cases x <;> interval_cases y <;>
    · norm_num [hres2]


/-! ### Claims C8 and C3 -/

/-- C8, counterexample to the claim as stated: at rule B3/S23 (which has no
B0) and index 11, the table entry differs from the value obtained by
decoding the index in the quadrant-stacked encoding
(`nw<<12 | ne<<8 | sw<<4 | se`) stated in the claim. -/
theorem claim_C8_counterexample :
    GAME_OF_LIFE.birth.testBit 0 = false ∧
    level2Results GAME_OF_LIFE 11 ≠ level2SpecStacked GAME_OF_LIFE 11 := by
  constructor
  · decide
  · decide

/-- C8 (amended): for every rule without B0 and every 16-bit index `i`,
`level2_results[i]` is the 6-bit value `NW<<5 | NE<<4 | SW<<1 | SE` (bits 3
and 2 zero) equal to one generation of the rule applied to the center 2×2
of the 4×4 bit-square that `i` encodes in PLAIN ROW-MAJOR order (bit 0 =
bottom-right cell, bit 15 = top-left cell, MSB-first within a row) — not
the quadrant-stacked order stated in the claim. -/
theorem claim_C8 (rule : Rule) (i : Nat)
    (hB0 : rule.birth.testBit 0 = false) (hi : i < 65536) :
    level2Results rule i = level2Spec rule i :=
  level2Results_eq_spec rule i

theorem claim_C8_witness :
    (GAME_OF_LIFE.birth.testBit 0 = false ∧ (3 : Nat) < 65536) ∧
    level2Results GAME_OF_LIFE 3 = level2Spec GAME_OF_LIFE 3 :=
  ⟨⟨by decide, by decide⟩, claim_C8 GAME_OF_LIFE 3 (by decide) (by decide)⟩

/-- C3: for every newly interned leaf with 16-bit quadrants
`(nw, ne, sw, se)`, `results[0]` equals the center 4×4 of the 8×8 square
after 1 generation of the rule, and `results[1]` equals the center 4×4
after 2 generations (cell-for-cell, over the centered coordinates
`[-2,2) × [-2,2)` of the leaf's 8×8 square embedded in a dead plane). -/
theorem claim_C3 (rule : Rule) (a b c d : Nat)
    (ha : a < 65536) (hb : b < 65536) (hc : c < 65536) (hd : d < 65536) :
    ∀ x y : Int, -2 ≤ x → x < 2 → -2 ≤ y → y < 2 →
      sq4 (level3Results rule a b c d).1 (x + 2) (y + 2)
        = lifeIter rule 1 (leafGrid a b c d) x y ∧
      sq4 (level3Results rule a b c d).2 (x + 2) (y + 2)
        = lifeIter rule 2 (leafGrid a b c d) x y := by
  intro x y h1 h2 h3 h4
  constructor
  · rw [show lifeIter rule 1 (leafGrid a b c d)
        = lifeStepG rule (leafGrid a b c d) from rfl]
    exact level3_res1 rule a b c d hc hd x y h1 h2 h3 h4
  · rw [show lifeIter rule 2 (leafGrid a b c d)
        = lifeStepG rule (lifeStepG rule (leafGrid a b c d)) from rfl]
    exact level3_res2 rule a b c d hc hd x y h1 h2 h3 h4

theorem claim_C3_witness :
    ((0x0001 : Nat) < 65536 ∧ (0x0008 : Nat) < 65536 ∧
     (0x3100 : Nat) < 65536 ∧ (0x0000 : Nat) < 65536) ∧
    (∀ x y : Int, -2 ≤ x → x < 2 → -2 ≤ y → y < 2 →
      sq4 (level3Results GAME_OF_LIFE 0x0001 0x0008 0x3100 0x0000).1 (x + 2) (y + 2)
        = lifeIter GAME_OF_LIFE 1 (leafGrid 0x0001 0x0008 0x3100 0x0000) x y ∧
      sq4 (level3Results GAME_OF_LIFE 0x0001 0x0008 0x3100 0x0000).2 (x + 2) (y + 2)
        = lifeIter GAME_OF_LIFE 2 (leafGrid 0x0001 0x0008 0x3100 0x0000) x y) :=
  ⟨⟨by decide, by decide, by decide, by decide⟩,
   claim_C3 GAME_OF_LIFE 0x0001 0x0008 0x3100 0x0000
     (by decide) (by decide) (by decide) (by decide)⟩

/-! ### Tree-level theorems: expand, set, shrink -/

theorem levelT_ge (t : QTree) : 3 ≤ levelT t := by
  induction t with
  | leaf a b c d => simp [levelT]
  | internal a b c d iha ihb ihc ihd => simp [levelT]; omega

theorem levelT_emptyT : ∀ L, 3 ≤ L → levelT (emptyT L) = L
  | 0, h => by omega
  | 1, h => by omega
  | 2, h => by omega
  | 3, _ => rfl
  | (l+4), _ => by
      rw [emptyT, levelT, levelT_emptyT (l+3) (by omega)]

theorem wfT_emptyT : ∀ L, wfT (emptyT L) = true
  | 0 => by decide
  | 1 => by decide
  | 2 => by decide
  | 3 => by decide
  | (l+4) => by
      rw [emptyT]
      simp [wfT, wfT_emptyT (l+3)]

theorem toGrid_emptyT : ∀ L x y, toGrid (emptyT L) x y = false
  | 0, x, y => by simp [emptyT, toGrid, leafGrid, sq4]
  | 1, x, y => by simp [emptyT, toGrid, leafGrid, sq4]
  | 2, x, y => by simp [emptyT, toGrid, leafGrid, sq4]
  | 3, x, y => by simp [emptyT, toGrid, leafGrid, sq4]
  | (l+4), x, y => by
      rw [emptyT]
      simp only [toGrid]
      split <;> split <;> rw [toGrid_emptyT (l+3)]

theorem leafGrid_out (a b c d : Nat) (x y : Int)
    (h : x < -4 ∨ 4 ≤ x ∨ y < -4 ∨ 4 ≤ y) :
    leafGrid a b c d x y = false := by
  unfold leafGrid sq4
  rcases h with h | h | h | h <;> split <;> split <;>
    · rw [if_neg]
      omega

theorem two_pow_pos (n : Nat) : (1 : Int) ≤ 2 ^ n := by
  induction n with
  | zero => norm_num
  | succ n ih =>
      rw [pow_succ]
      nlinarith

theorem toGrid_out (t : QTree) (x y : Int) (hw : wfT t = true)
    (h : x < -(2 ^ (levelT t - 1)) ∨ (2 : Int) ^ (levelT t - 1) ≤ x ∨
         y < -(2 ^ (levelT t - 1)) ∨ (2 : Int) ^ (levelT t - 1) ≤ y) :
    toGrid t x y = false := by
  induction t generalizing x y with
  | leaf a b c d =>
      apply leafGrid_out
      simp only [levelT] at h
      norm_num at h
      omega
  | internal a b c d iha ihb ihc ihd =>
      simp only [wfT, Bool.and_eq_true, beq_iff_eq] at hw
      obtain ⟨⟨⟨⟨⟨⟨hwa, hwb⟩, hwc⟩, hwd⟩, hlb⟩, hlc⟩, hld⟩ := hw
      simp only [levelT] at h
      have hr : (2 : Int) ^ (levelT a + 1 - 1) = 2 * 2 ^ (levelT a - 1) := by
        have h3 := levelT_ge a
        rw [show levelT a + 1 - 1 = (levelT a - 1) + 1 from by omega, pow_succ]
        ring
      rw [hr] at h
      have hp := two_pow_pos (levelT a - 1)
      simp only [toGrid]
      have hrb : (2 : Int) ^ (levelT b - 1) = 2 ^ (levelT a - 1) := by rw [hlb]
      have hrc : (2 : Int) ^ (levelT c - 1) = 2 ^ (levelT a - 1) := by rw [hlc]
      have hrd : (2 : Int) ^ (levelT d - 1) = 2 ^ (levelT a - 1) := by rw [hld]
      split <;> split
      · exact iha _ _ hwa (by omega)
      · exact ihb _ _ hwb (by rw [hrb]; omega)
      · exact ihc _ _ hwc (by rw [hrc]; omega)
      · exact ihd _ _ hwd (by rw [hrd]; omega)


theorem levelT_expandT (t : QTree) : levelT (expandT t) = levelT t + 1 := by
  cases t with
  | leaf a b c d => rfl
  | internal a b c d =>
      simp only [expandT, levelT, levelT_emptyT (levelT a) (levelT_ge a)]

theorem wfT_expandT (t : QTree) (hw : wfT t = true) : wfT (expandT t) = true := by
  cases t with
  | leaf a b c d =>
      simp only [wfT, Bool.and_eq_true, decide_eq_true_eq] at hw
      simp [expandT, wfT, levelT]
      omega
  | internal a b c d =>
      simp only [wfT, Bool.and_eq_true, beq_iff_eq] at hw
      obtain ⟨⟨⟨⟨⟨⟨hwa, hwb⟩, hwc⟩, hwd⟩, hlb⟩, hlc⟩, hld⟩ := hw
      simp [expandT, wfT, levelT, wfT_emptyT, levelT_emptyT (levelT a) (levelT_ge a),
        hwa, hwb, hwc, hwd, hlb, hlc, hld]

theorem toGrid_expandT (t : QTree) (hw : wfT t = true) (x y : Int) :
    toGrid (expandT t) x y = toGrid t x y := by
  cases t with
  | leaf a b c d =>
      simp only [expandT, toGrid, levelT]
      norm_num
      unfold leafGrid sq4
      split_ifs <;> first | rfl | omega | simp
  | internal a b c d =>
      simp only [wfT, Bool.and_eq_true, beq_iff_eq] at hw
      obtain ⟨⟨⟨⟨⟨⟨hwa, hwb⟩, hwc⟩, hwd⟩, hlb⟩, hlc⟩, hld⟩ := hw
      have h3 := levelT_ge a
      have hle := levelT_emptyT (levelT a) h3
      simp only [expandT, toGrid, levelT, hle]
      have hp := two_pow_pos (levelT a - 1)
      have hrr : (2 : Int) ^ (levelT a + 1 - 1) = 2 * 2 ^ (levelT a - 1) := by
        rw [show levelT a + 1 - 1 = (levelT a - 1) + 1 from by omega, pow_succ]
        ring
      rw [hrr]
      set r := (2 : Int) ^ (levelT a - 1) with hrdef
      have hrb : (2 : Int) ^ (levelT b - 1) = r := by rw [hlb]
      have hrc : (2 : Int) ^ (levelT c - 1) = r := by rw [hlc]
      have hrd : (2 : Int) ^ (levelT d - 1) = r := by rw [hld]
      split <;> split
      · -- x < 0, y < 0 (outer nw): inner node (internal e e e a)
        simp only [toGrid, levelT_emptyT (levelT a) h3, hrdef]
        split <;> split
        · rw [toGrid_emptyT]
          rw [toGrid_out a _ _ hwa (by omega)]
        · rw [toGrid_emptyT]
          rw [toGrid_out a _ _ hwa (by omega)]
        · rw [toGrid_emptyT]
          rw [toGrid_out a _ _ hwa (by omega)]
        · congr 1 <;> ring
      · simp only [toGrid, levelT_emptyT (levelT a) h3, hrdef, hlb, hrb]
        split <;> split
        · rw [toGrid_emptyT]
          rw [toGrid_out b _ _ hwb (by rw [hrb]; omega)]
        · rw [toGrid_emptyT]
          rw [toGrid_out b _ _ hwb (by rw [hrb]; omega)]
        · congr 1 <;> ring
        · rw [toGrid_emptyT]
          rw [toGrid_out b _ _ hwb (by rw [hrb]; omega)]
      · simp only [toGrid, levelT_emptyT (levelT a) h3, hrdef, hlc, hrc]
        split <;> split
        · rw [toGrid_emptyT]
          rw [toGrid_out c _ _ hwc (by rw [hrc]; omega)]
        · congr 1 <;> ring
        · rw [toGrid_emptyT]
          rw [toGrid_out c _ _ hwc (by rw [hrc]; omega)]
        · rw [toGrid_emptyT]
          rw [toGrid_out c _ _ hwc (by rw [hrc]; omega)]
      · simp only [toGrid, levelT_emptyT (levelT a) h3, hrdef, hld, hrd]
        split <;> split
        · congr 1 <;> ring
        · rw [toGrid_emptyT]
          rw [toGrid_out d _ _ hwd (by rw [hrd]; omega)]
        · rw [toGrid_emptyT]
          rw [toGrid_out d _ _ hwd (by rw [hrd]; omega)]
        · rw [toGrid_emptyT]
          rw [toGrid_out d _ _ hwd (by rw [hrd]; omega)]


theorem testBit_one_shift (K B : Nat) : (1 <<< K).testBit B = decide (B = K) := by
  rw [Nat.testBit_shiftLeft]
  rcases Nat.lt_or_ge B K with h | h
  · have h1 : ¬ K ≤ B := by omega
    have h2 : B ≠ K := by omega
    simp [h1, h2]
  · rcases Nat.eq_or_lt_of_le h with h1 | h1
    · subst h1
      simp [Nat.sub_self, Nat.testBit_zero]
    · have h2 : K ≤ B := by omega
      have h3 : B ≠ K := by omega
      have h4 : B - K = (B - K - 1) + 1 := by omega
      rw [h4, Nat.testBit_succ]
      rw [show (1 : Nat) / 2 = 0 from rfl]
      simp [h2, h3]

theorem maskOf_lt (x y : Int) : maskOf x y < 65536 := by
  rw [maskOf]
  have hx : (3 - (x % 4).toNat) ≤ 3 := by omega
  have hy : (3 - (y % 4).toNat) ≤ 3 := by omega
  have hs : (3 - (x % 4).toNat) + 4 * (3 - (y % 4).toNat) ≤ 15 := by omega
  calc 1 <<< ((3 - (x % 4).toNat) + 4 * (3 - (y % 4).toNat))
      = 2 ^ ((3 - (x % 4).toNat) + 4 * (3 - (y % 4).toNat)) := by
        rw [Nat.shiftLeft_eq, one_mul]
    _ ≤ 2 ^ 15 := Nat.pow_le_pow_right (by norm_num) hs
    _ < 65536 := by norm_num

theorem sq4_update (a : Nat) (alive : Bool) (K : Nat) (B : Nat) (hB : B < 16) :
    (if alive then a ||| 1 <<< K else a &&& (0xFFFF ^^^ 1 <<< K)).testBit B
      = if B = K then alive else a.testBit B := by
  cases alive with
  | true =>
      rw [if_pos rfl]
      simp only [Nat.testBit_or, testBit_one_shift]
      by_cases h : B = K <;> simp [h]
  | false =>
      rw [if_neg (by simp)]
      simp only [Nat.testBit_and, Nat.testBit_xor, testBit_one_shift]
      have hf : (0xFFFF : Nat).testBit B = true := by
        have h16 : (0xFFFF : Nat) = 2 ^ 16 - 1 := by norm_num
        rw [h16, Nat.testBit_two_pow_sub_one]
        simpa using hB
      rw [hf]
      by_cases h : B = K <;> simp [h]

theorem levelT_setRecT (t : QTree) (x y : Int) (alive : Bool) :
    levelT (setRecT t x y alive) = levelT t := by
  induction t generalizing x y with
  | leaf a b c d =>
      simp only [setRecT]
      split <;> split <;> rfl
  | internal a b c d iha ihb ihc ihd =>
      simp only [setRecT]
      split <;> split <;> simp only [levelT, iha, ihb, ihc, ihd]

theorem or_lt_65536 (a m : Nat) (ha : a < 65536) (hm : m < 65536) :
    a ||| m < 65536 := by
  have h1 : a ||| m < 2 ^ 16 := Nat.or_lt_two_pow ha hm
  simpa using h1

theorem wfT_setRecT (t : QTree) (x y : Int) (alive : Bool) (hw : wfT t = true) :
    wfT (setRecT t x y alive) = true := by
  induction t generalizing x y with
  | leaf a b c d =>
      simp only [wfT, Bool.and_eq_true, decide_eq_true_eq] at hw
      obtain ⟨⟨⟨ha, hb⟩, hc⟩, hd⟩ := hw
      have hm := maskOf_lt x y
      simp only [setRecT]
      split <;> split <;>
        · cases alive <;>
            simp only [wfT, Bool.and_eq_true, decide_eq_true_eq] <;>
            refine ⟨⟨⟨?_, ?_⟩, ?_⟩, ?_⟩ <;>
            first
              | assumption
              | exact or_lt_65536 _ _ (by assumption) hm
              | exact lt_of_le_of_lt (Nat.and_le_left) (by assumption)
  | internal a b c d iha ihb ihc ihd =>
      simp only [wfT, Bool.and_eq_true, beq_iff_eq] at hw
      obtain ⟨⟨⟨⟨⟨⟨hwa, hwb⟩, hwc⟩, hwd⟩, hlb⟩, hlc⟩, hld⟩ := hw
      simp only [setRecT]
      split <;> split <;>
        simp [wfT, levelT_setRecT, iha, ihb, ihc, ihd, hwa, hwb, hwc, hwd, hlb, hlc, hld]


theorem toGrid_setRecT : ∀ (t : QTree) (x y : Int) (alive : Bool), wfT t = true →
    -(2 ^ (levelT t - 1)) ≤ x → x < 2 ^ (levelT t - 1) →
    -(2 ^ (levelT t - 1)) ≤ y → y < 2 ^ (levelT t - 1) →
    ∀ p q : Int, toGrid (setRecT t x y alive) p q
      = if p = x ∧ q = y then alive else toGrid t p q := by
  intro t
  induction t with
  | leaf a b c d =>
      intro x y alive hw hx1 hx2 hy1 hy2 p q
      simp only [levelT] at hx1 hx2 hy1 hy2
      norm_num at hx1 hx2 hy1 hy2
      simp only [setRecT]
      by_cases hx0 : x < 0
      · rw [if_pos hx0]
        by_cases hy0 : y < 0
        · rw [if_pos hy0]
          by_cases hpq : p = x ∧ q = y
          · rw [if_pos hpq]
            obtain ⟨hp1, hq1⟩ := hpq
            simp only [toGrid, leafGrid]
            rw [if_pos (show p < 0 from by omega), if_pos (show q < 0 from by omega)]
            simp only [sq4, maskOf]
            rw [if_pos (show (0:Int) ≤ p + 4 ∧ p + 4 < 4 ∧ (0:Int) ≤ q + 4 ∧ q + 4 < 4 from by omega)]
            rw [sq4_update a alive _ _ (by omega)]
            rw [if_pos (by omega)]
          · rw [if_neg hpq]
            simp only [toGrid, leafGrid]
            by_cases hp0 : p < 0 <;> by_cases hq0 : q < 0
            · rw [if_pos hp0, if_pos hp0, if_pos hq0, if_pos hq0]
              simp only [sq4, maskOf]
              by_cases hin : (0:Int) ≤ p + 4 ∧ p + 4 < 4 ∧ (0:Int) ≤ q + 4 ∧ q + 4 < 4
              · rw [if_pos hin, if_pos hin]
                rw [sq4_update a alive _ _ (by omega)]
                rw [if_neg (by omega)]
              · rw [if_neg hin, if_neg hin]
            · try rw [if_pos hp0]
              try rw [if_pos hp0]
              try rw [if_neg hq0]
              try rw [if_neg hq0]
              try rfl
            · try rw [if_neg hp0]
              try rw [if_neg hp0]
              try rw [if_pos hq0]
              try rw [if_pos hq0]
              try rfl
            · try rw [if_neg hp0]
              try rw [if_neg hp0]
              try rw [if_neg hq0]
              try rw [if_neg hq0]
              try rfl
        · rw [if_neg hy0]
          by_cases hpq : p = x ∧ q = y
          · rw [if_pos hpq]
            obtain ⟨hp1, hq1⟩ := hpq
            simp only [toGrid, leafGrid]
            rw [if_pos (show p < 0 from by omega), if_neg (show ¬ q < 0 from by omega)]
            simp only [sq4, maskOf]
            rw [if_pos (show (0:Int) ≤ p + 4 ∧ p + 4 < 4 ∧ (0:Int) ≤ q ∧ q < 4 from by omega)]
            rw [sq4_update c alive _ _ (by omega)]
            rw [if_pos (by omega)]
          · rw [if_neg hpq]
            simp only [toGrid, leafGrid]
            by_cases hp0 : p < 0 <;> by_cases hq0 : q < 0
            · try rw [if_pos hp0]
              try rw [if_pos hp0]
              try rw [if_pos hq0]
              try rw [if_pos hq0]
              try rfl
            · rw [if_pos hp0, if_pos hp0, if_neg hq0, if_neg hq0]
              simp only [sq4, maskOf]
              by_cases hin : (0:Int) ≤ p + 4 ∧ p + 4 < 4 ∧ (0:Int) ≤ q ∧ q < 4
              · rw [if_pos hin, if_pos hin]
                rw [sq4_update c alive _ _ (by omega)]
                rw [if_neg (by omega)]
              · rw [if_neg hin, if_neg hin]
            · try rw [if_neg hp0]
              try rw [if_neg hp0]
              try rw [if_pos hq0]
              try rw [if_pos hq0]
              try rfl
            · try rw [if_neg hp0]
              try rw [if_neg hp0]
              try rw [if_neg hq0]
              try rw [if_neg hq0]
              try rfl
      · rw [if_neg hx0]
        by_cases hy0 : y < 0
        · rw [if_pos hy0]
          by_cases hpq : p = x ∧ q = y
          · rw [if_pos hpq]
            obtain ⟨hp1, hq1⟩ := hpq
            simp only [toGrid, leafGrid]
            rw [if_neg (show ¬ p < 0 from by omega), if_pos (show q < 0 from by omega)]
            simp only [sq4, maskOf]
            rw [if_pos (show (0:Int) ≤ p ∧ p < 4 ∧ (0:Int) ≤ q + 4 ∧ q + 4 < 4 from by omega)]
            rw [sq4_update b alive _ _ (by omega)]
            rw [if_pos (by omega)]
          · rw [if_neg hpq]
            simp only [toGrid, leafGrid]
            by_cases hp0 : p < 0 <;> by_cases hq0 : q < 0
            · try rw [if_pos hp0]
              try rw [if_pos hp0]
              try rw [if_pos hq0]
              try rw [if_pos hq0]
              try rfl
            · try rw [if_pos hp0]
              try rw [if_pos hp0]
              try rw [if_neg hq0]
              try rw [if_neg hq0]
              try rfl
            · rw [if_neg hp0, if_neg hp0, if_pos hq0, if_pos hq0]
              simp only [sq4, maskOf]
              by_cases hin : (0:Int) ≤ p ∧ p < 4 ∧ (0:Int) ≤ q + 4 ∧ q + 4 < 4
              · rw [if_pos hin, if_pos hin]
                rw [sq4_update b alive _ _ (by omega)]
                rw [if_neg (by omega)]
              · rw [if_neg hin, if_neg hin]
            · try rw [if_neg hp0]
              try rw [if_neg hp0]
              try rw [if_neg hq0]
              try rw [if_neg hq0]
              try rfl
        · rw [if_neg hy0]
          by_cases hpq : p = x ∧ q = y
          · rw [if_pos hpq]
            obtain ⟨hp1, hq1⟩ := hpq
            simp only [toGrid, leafGrid]
            rw [if_neg (show ¬ p < 0 from by omega), if_neg (show ¬ q < 0 from by omega)]
            simp only [sq4, maskOf]
            rw [if_pos (show (0:Int) ≤ p ∧ p < 4 ∧ (0:Int) ≤ q ∧ q < 4 from by omega)]
            rw [sq4_update d alive _ _ (by omega)]
            rw [if_pos (by omega)]
          · rw [if_neg hpq]
            simp only [toGrid, leafGrid]
            by_cases hp0 : p < 0 <;> by_cases hq0 : q < 0
            · try rw [if_pos hp0]
              try rw [if_pos hp0]
              try rw [if_pos hq0]
              try rw [if_pos hq0]
              try rfl
            · try rw [if_pos hp0]
              try rw [if_pos hp0]
              try rw [if_neg hq0]
              try rw [if_neg hq0]
              try rfl
            · try rw [if_neg hp0]
              try rw [if_neg hp0]
              try rw [if_pos hq0]
              try rw [if_pos hq0]
              try rfl
            · rw [if_neg hp0, if_neg hp0, if_neg hq0, if_neg hq0]
              simp only [sq4, maskOf]
              by_cases hin : (0:Int) ≤ p ∧ p < 4 ∧ (0:Int) ≤ q ∧ q < 4
              · rw [if_pos hin, if_pos hin]
                rw [sq4_update d alive _ _ (by omega)]
                rw [if_neg (by omega)]
              · rw [if_neg hin, if_neg hin]
  | internal a b c d iha ihb ihc ihd =>
      intro x y alive hw hx1 hx2 hy1 hy2 p q
      simp only [wfT, Bool.and_eq_true, beq_iff_eq] at hw
      obtain ⟨⟨⟨⟨⟨⟨hwa, hwb⟩, hwc⟩, hwd⟩, hlb⟩, hlc⟩, hld⟩ := hw
      have h3 := levelT_ge a
      have hp2 := two_pow_pos (levelT a - 1)
      simp only [levelT] at hx1 hx2 hy1 hy2
      have hrr : (2 : Int) ^ (levelT a + 1 - 1) = 2 * 2 ^ (levelT a - 1) := by
        rw [show levelT a + 1 - 1 = (levelT a - 1) + 1 from by omega, pow_succ]
        ring
      rw [hrr] at hx1 hx2 hy1 hy2
      simp only [setRecT]
      by_cases hy0 : y < 0
      · rw [if_pos hy0]
        by_cases hx0 : x < 0
        · rw [if_pos hx0]
          by_cases hpq : p = x ∧ q = y
          · rw [if_pos hpq]
            obtain ⟨hp1, hq1⟩ := hpq
            simp only [toGrid, levelT_setRecT]
            rw [if_pos (show q < 0 from by omega), if_pos (show p < 0 from by omega)]
            rw [iha (x + 2 ^ (levelT a - 1)) (y + 2 ^ (levelT a - 1)) alive hwa (by omega) (by omega) (by omega) (by omega) (p + 2 ^ (levelT a - 1)) (q + 2 ^ (levelT a - 1))]
            rw [if_pos (by omega)]
          · rw [if_neg hpq]
            simp only [toGrid, levelT_setRecT]
            by_cases hq0 : q < 0 <;> by_cases hp0 : p < 0
            · rw [if_pos hq0, if_pos hq0, if_pos hp0, if_pos hp0]
              rw [iha (x + 2 ^ (levelT a - 1)) (y + 2 ^ (levelT a - 1)) alive hwa (by omega) (by omega) (by omega) (by omega) (p + 2 ^ (levelT a - 1)) (q + 2 ^ (levelT a - 1))]
              rw [if_neg (by omega)]
            · try rw [if_pos hq0]
              try rw [if_pos hq0]
              try rw [if_neg hp0]
              try rw [if_neg hp0]
              try rfl
            · try rw [if_neg hq0]
              try rw [if_neg hq0]
              try rw [if_pos hp0]
              try rw [if_pos hp0]
              try rfl
            · try rw [if_neg hq0]
              try rw [if_neg hq0]
              try rw [if_neg hp0]
              try rw [if_neg hp0]
              try rfl
        · rw [if_neg hx0]
          by_cases hpq : p = x ∧ q = y
          · rw [if_pos hpq]
            obtain ⟨hp1, hq1⟩ := hpq
            simp only [toGrid, levelT_setRecT]
            rw [if_pos (show q < 0 from by omega), if_neg (show ¬ p < 0 from by omega)]
            rw [ihb (x - 2 ^ (levelT a - 1)) (y + 2 ^ (levelT a - 1)) alive hwb (by rw [hlb]; omega) (by rw [hlb]; omega) (by rw [hlb]; omega) (by rw [hlb]; omega) (p - 2 ^ (levelT a - 1)) (q + 2 ^ (levelT a - 1))]
            rw [if_pos (by omega)]
          · rw [if_neg hpq]
            simp only [toGrid, levelT_setRecT]
            by_cases hq0 : q < 0 <;> by_cases hp0 : p < 0
            · try rw [if_pos hq0]
              try rw [if_pos hq0]
              try rw [if_pos hp0]
              try rw [if_pos hp0]
              try rfl
            · rw [if_pos hq0, if_pos hq0, if_neg hp0, if_neg hp0]
              rw [ihb (x - 2 ^ (levelT a - 1)) (y + 2 ^ (levelT a - 1)) alive hwb (by rw [hlb]; omega) (by rw [hlb]; omega) (by rw [hlb]; omega) (by rw [hlb]; omega) (p - 2 ^ (levelT a - 1)) (q + 2 ^ (levelT a - 1))]
              rw [if_neg (by omega)]
            · try rw [if_neg hq0]
              try rw [if_neg hq0]
              try rw [if_pos hp0]
              try rw [if_pos hp0]
              try rfl
            · try rw [if_neg hq0]
              try rw [if_neg hq0]
              try rw [if_neg hp0]
              try rw [if_neg hp0]
              try rfl
      · rw [if_neg hy0]
        by_cases hx0 : x < 0
        · rw [if_pos hx0]
          by_cases hpq : p = x ∧ q = y
          · rw [if_pos hpq]
            obtain ⟨hp1, hq1⟩ := hpq
            simp only [toGrid, levelT_setRecT]
            rw [if_neg (show ¬ q < 0 from by omega), if_pos (show p < 0 from by omega)]
            rw [ihc (x + 2 ^ (levelT a - 1)) (y - 2 ^ (levelT a - 1)) alive hwc (by rw [hlc]; omega) (by rw [hlc]; omega) (by rw [hlc]; omega) (by rw [hlc]; omega) (p + 2 ^ (levelT a - 1)) (q - 2 ^ (levelT a - 1))]
            rw [if_pos (by omega)]
          · rw [if_neg hpq]
            simp only [toGrid, levelT_setRecT]
            by_cases hq0 : q < 0 <;> by_cases hp0 : p < 0
            · try rw [if_pos hq0]
              try rw [if_pos hq0]
              try rw [if_pos hp0]
              try rw [if_pos hp0]
              try rfl
            · try rw [if_pos hq0]
              try rw [if_pos hq0]
              try rw [if_neg hp0]
              try rw [if_neg hp0]
              try rfl
            · rw [if_neg hq0, if_neg hq0, if_pos hp0, if_pos hp0]
              rw [ihc (x + 2 ^ (levelT a - 1)) (y - 2 ^ (levelT a - 1)) alive hwc (by rw [hlc]; omega) (by rw [hlc]; omega) (by rw [hlc]; omega) (by rw [hlc]; omega) (p + 2 ^ (levelT a - 1)) (q - 2 ^ (levelT a - 1))]
              rw [if_neg (by omega)]
            · try rw [if_neg hq0]
              try rw [if_neg hq0]
              try rw [if_neg hp0]
              try rw [if_neg hp0]
              try rfl
        · rw [if_neg hx0]
          by_cases hpq : p = x ∧ q = y
          · rw [if_pos hpq]
            obtain ⟨hp1, hq1⟩ := hpq
            simp only [toGrid, levelT_setRecT]
            rw [if_neg (show ¬ q < 0 from by omega), if_neg (show ¬ p < 0 from by omega)]
            rw [ihd (x - 2 ^ (levelT a - 1)) (y - 2 ^ (levelT a - 1)) alive hwd (by rw [hld]; omega) (by rw [hld]; omega) (by rw [hld]; omega) (by rw [hld]; omega) (p - 2 ^ (levelT a - 1)) (q - 2 ^ (levelT a - 1))]
            rw [if_pos (by omega)]
          · rw [if_neg hpq]
            simp only [toGrid, levelT_setRecT]
            by_cases hq0 : q < 0 <;> by_cases hp0 : p < 0
            · try rw [if_pos hq0]
              try rw [if_pos hq0]
              try rw [if_pos hp0]
              try rw [if_pos hp0]
              try rfl
            · try rw [if_pos hq0]
              try rw [if_pos hq0]
              try rw [if_neg hp0]
              try rw [if_neg hp0]
              try rfl
            · try rw [if_neg hq0]
              try rw [if_neg hq0]
              try rw [if_pos hp0]
              try rw [if_pos hp0]
              try rfl
            · rw [if_neg hq0, if_neg hq0, if_neg hp0, if_neg hp0]
              rw [ihd (x - 2 ^ (levelT a - 1)) (y - 2 ^ (levelT a - 1)) alive hwd (by rw [hld]; omega) (by rw [hld]; omega) (by rw [hld]; omega) (by rw [hld]; omega) (p - 2 ^ (levelT a - 1)) (q - 2 ^ (levelT a - 1))]
              rw [if_neg (by omega)]


theorem wfT_expandFor (f : Nat) (t : QTree) (x y : Int) (hw : wfT t = true) :
    wfT (expandFor f t x y) = true := by
  induction f generalizing t with
  | zero => exact hw
  | succ f ih =>
      rw [expandFor]
      split
      · exact ih _ (wfT_expandT t hw)
      · exact hw

theorem toGrid_expandFor (f : Nat) (t : QTree) (x y : Int) (hw : wfT t = true)
    (p q : Int) : toGrid (expandFor f t x y) p q = toGrid t p q := by
  induction f generalizing t with
  | zero => rfl
  | succ f ih =>
      rw [expandFor]
      split
      · rw [ih _ (wfT_expandT t hw), toGrid_expandT t hw]
      · rfl

theorem levelT_expandFor_ge (f : Nat) (t : QTree) (x y : Int) :
    levelT t ≤ levelT (expandFor f t x y) := by
  induction f generalizing t with
  | zero => exact le_refl _
  | succ f ih =>
      rw [expandFor]
      split
      · calc levelT t ≤ levelT (expandT t) := by rw [levelT_expandT]; omega
          _ ≤ _ := ih (expandT t)
      · exact le_refl _

theorem expandFor_fits (f : Nat) (t : QTree) (x y : Int)
    (hx : (x.natAbs : Int) < 2 ^ (levelT t - 1 + f))
    (hy : (y.natAbs : Int) < 2 ^ (levelT t - 1 + f)) :
    setNeedsExpand (expandFor f t x y) x y = false := by
  induction f generalizing t with
  | zero =>
      simp only [expandFor, setNeedsExpand, Bool.or_eq_false_iff,
        decide_eq_false_iff_not]
      rw [Nat.add_zero] at hx hy
      omega
  | succ f ih =>
      rw [expandFor]
      split
      · have he : levelT (expandT t) - 1 + f = levelT t - 1 + (f + 1) := by
          rw [levelT_expandT]
          have := levelT_ge t
          omega
        apply ih
        · rw [he]
          exact hx
        · rw [he]
          exact hy
      · rename_i h
        simpa using h

theorem natAbs_lt_two_pow (n m : Nat) (h : n ≤ m) : (n : Int) < 2 ^ m := by
  have h1 : n < 2 ^ n := Nat.lt_two_pow n
  have h2 : (2 : Nat) ^ n ≤ 2 ^ m := Nat.pow_le_pow_right (by norm_num) h
  have h3 : n < 2 ^ m := lt_of_lt_of_le h1 h2
  exact_mod_cast h3

theorem setT_fits (t : QTree) (x y : Int) :
    setNeedsExpand (expandFor (x.natAbs + y.natAbs + 1) t x y) x y = false := by
  apply expandFor_fits
  · exact natAbs_lt_two_pow _ _ (by omega)
  · exact natAbs_lt_two_pow _ _ (by omega)

/-- Core semantics of `set`: the cell `(x, y)` is set to `alive` and every
other cell is unchanged. -/
theorem toGrid_setT (t : QTree) (x y : Int) (alive : Bool) (hw : wfT t = true)
    (p q : Int) : toGrid (setT t x y alive) p q
      = if p = x ∧ q = y then alive else toGrid t p q := by
  rw [setT]
  have hw2 : wfT (expandFor (x.natAbs + y.natAbs + 1) t x y) = true :=
    wfT_expandFor _ t x y hw
  have hfit := setT_fits t x y
  simp only [setNeedsExpand, Bool.or_eq_false_iff, decide_eq_false_iff_not] at hfit
  rw [toGrid_setRecT _ x y alive hw2 (by omega) (by omega) (by omega) (by omega) p q]
  exact if_congr Iff.rfl rfl (toGrid_expandFor _ t x y hw p q)


theorem or_or_self (a m : Nat) : (a ||| m) ||| m = a ||| m := by
  apply Nat.eq_of_testBit_eq
  intro i
  simp [Nat.testBit_or]

theorem and_and_self (a m : Nat) : (a &&& m) &&& m = a &&& m := by
  apply Nat.eq_of_testBit_eq
  intro i
  simp [Nat.testBit_and]

theorem setRecT_idem (t : QTree) (x y : Int) (alive : Bool) :
    setRecT (setRecT t x y alive) x y alive = setRecT t x y alive := by
  induction t generalizing x y with
  | leaf a b c d =>
      by_cases hx0 : x < 0 <;> by_cases hy0 : y < 0
      · simp only [setRecT]
        rw [if_pos hx0, if_pos hy0]
        simp only [setRecT]
        rw [if_pos hx0, if_pos hy0]
        cases alive <;> simp [or_or_self, and_and_self]
      · simp only [setRecT]
        rw [if_pos hx0, if_neg hy0]
        simp only [setRecT]
        rw [if_pos hx0, if_neg hy0]
        cases alive <;> simp [or_or_self, and_and_self]
      · simp only [setRecT]
        rw [if_neg hx0, if_pos hy0]
        simp only [setRecT]
        rw [if_neg hx0, if_pos hy0]
        cases alive <;> simp [or_or_self, and_and_self]
      · simp only [setRecT]
        rw [if_neg hx0, if_neg hy0]
        simp only [setRecT]
        rw [if_neg hx0, if_neg hy0]
        cases alive <;> simp [or_or_self, and_and_self]
  | internal a b c d iha ihb ihc ihd =>
      simp only [setRecT]
      by_cases hy0 : y < 0 <;> by_cases hx0 : x < 0
      · rw [if_pos hy0, if_pos hx0]
        simp only [setRecT, levelT_setRecT]
        rw [if_pos hy0, if_pos hx0, iha]
      · rw [if_pos hy0, if_neg hx0]
        simp only [setRecT, levelT_setRecT]
        rw [if_pos hy0, if_neg hx0, ihb]
      · rw [if_neg hy0, if_pos hx0]
        simp only [setRecT, levelT_setRecT]
        rw [if_neg hy0, if_pos hx0, ihc]
      · rw [if_neg hy0, if_neg hx0]
        simp only [setRecT, levelT_setRecT]
        rw [if_neg hy0, if_neg hx0, ihd]


theorem expandFor_noop (f : Nat) (t : QTree) (x y : Int)
    (h : setNeedsExpand t x y = false) : expandFor f t x y = t := by
  cases f with
  | zero => rfl
  | succ f =>
      rw [expandFor]
      simp [h]

theorem levelT_setT (t : QTree) (x y : Int) (alive : Bool) :
    levelT (setT t x y alive) = levelT (expandFor (x.natAbs + y.natAbs + 1) t x y) := by
  rw [setT, levelT_setRecT]

theorem setT_idem (t : QTree) (x y : Int) :
    setT (setT t x y true) x y true = setT t x y true := by
  have hfit := setT_fits t x y
  have hfix : setNeedsExpand (setT t x y true) x y = false := by
    have : levelT (setT t x y true)
        = levelT (expandFor (x.natAbs + y.natAbs + 1) t x y) := levelT_setT t x y true
    simp only [setNeedsExpand] at hfit ⊢
    rw [this]
    exact hfit
  conv_lhs => rw [setT]
  rw [expandFor_noop _ _ _ _ hfix]
  rw [setT, setRecT_idem]

/-- C6: `set(x, y, alive)` first expands while the cell is outside the root
square (the loop `expandFor` reaches its guard's fixed point and does not
change any cell); afterwards the cell at `(x, y)` is live iff `alive`,
every other cell is unchanged; setting twice equals setting once; and
`set(x, y, false)` on a dead cell leaves the live-cell set unchanged. -/
theorem claim_C6 (t : QTree) (x y : Int) (alive : Bool) (hw : wfT t = true) :
    setNeedsExpand (expandFor (x.natAbs + y.natAbs + 1) t x y) x y = false ∧
    (∀ p q : Int,
      toGrid (expandFor (x.natAbs + y.natAbs + 1) t x y) p q = toGrid t p q) ∧
    (∀ p q : Int, toGrid (setT t x y alive) p q
        = if p = x ∧ q = y then alive else toGrid t p q) ∧
    setT (setT t x y true) x y true = setT t x y true ∧
    (toGrid t x y = false →
      ∀ p q : Int, toGrid (setT t x y false) p q = toGrid t p q) := by
  refine ⟨setT_fits t x y, fun p q => toGrid_expandFor _ t x y hw p q,
    fun p q => toGrid_setT t x y alive hw p q, setT_idem t x y, ?_⟩
  intro hdead p q
  rw [toGrid_setT t x y false hw p q]
  by_cases hpq : p = x ∧ q = y
  · rw [if_pos hpq]
    obtain ⟨h1, h2⟩ := hpq
    rw [h1, h2, hdead]
  · rw [if_neg hpq]

theorem claim_C6_witness :
    wfT (QTree.leaf 0 0 0 0) = true ∧
    (setNeedsExpand (expandFor ((5:Int).natAbs + (0:Int).natAbs + 1)
        (QTree.leaf 0 0 0 0) 5 0) 5 0 = false ∧
    (∀ p q : Int, toGrid (expandFor ((5:Int).natAbs + (0:Int).natAbs + 1)
        (QTree.leaf 0 0 0 0) 5 0) p q = toGrid (QTree.leaf 0 0 0 0) p q) ∧
    (∀ p q : Int, toGrid (setT (QTree.leaf 0 0 0 0) 5 0 true) p q
        = if p = 5 ∧ q = 0 then true else toGrid (QTree.leaf 0 0 0 0) p q) ∧
    setT (setT (QTree.leaf 0 0 0 0) 5 0 true) 5 0 true
      = setT (QTree.leaf 0 0 0 0) 5 0 true ∧
    (toGrid (QTree.leaf 0 0 0 0) 5 0 = false →
      ∀ p q : Int, toGrid (setT (QTree.leaf 0 0 0 0) 5 0 false) p q
        = toGrid (QTree.leaf 0 0 0 0) p q)) :=
  ⟨by decide, claim_C6 (QTree.leaf 0 0 0 0) 5 0 true (by decide)⟩

/-- C10: clearing a cell outside the current root square leaves the
live-cell set unchanged but still expands: the root's level strictly
increases. -/
theorem claim_C10 (t : QTree) (x y : Int) (hw : wfT t = true)
    (hout : x < -(2 ^ (levelT t - 1)) ∨ (2 : Int) ^ (levelT t - 1) ≤ x ∨
            y < -(2 ^ (levelT t - 1)) ∨ (2 : Int) ^ (levelT t - 1) ≤ y) :
    (∀ p q : Int, toGrid (setT t x y false) p q = toGrid t p q) ∧
    levelT t < levelT (setT t x y false) := by
  constructor
  · intro p q
    rw [toGrid_setT t x y false hw p q]
    by_cases hpq : p = x ∧ q = y
    · rw [if_pos hpq]
      obtain ⟨h1, h2⟩ := hpq
      rw [h1, h2, toGrid_out t x y hw hout]
    · rw [if_neg hpq]
  · rw [levelT_setT]
    have hneed : setNeedsExpand t x y = true := by
      simp only [setNeedsExpand, Bool.or_eq_true, decide_eq_true_eq]
      omega
    rw [expandFor]
    rw [if_pos hneed]
    calc levelT t < levelT (expandT t) := by rw [levelT_expandT]; omega
      _ ≤ _ := levelT_expandFor_ge _ _ x y

theorem claim_C10_witness :
    (wfT (QTree.leaf 0 0 0 0) = true ∧
     ((9:Int) < -(2 ^ (levelT (QTree.leaf 0 0 0 0) - 1)) ∨
      (2:Int) ^ (levelT (QTree.leaf 0 0 0 0) - 1) ≤ 9 ∨
      (0:Int) < -(2 ^ (levelT (QTree.leaf 0 0 0 0) - 1)) ∨
      (2:Int) ^ (levelT (QTree.leaf 0 0 0 0) - 1) ≤ 0)) ∧
    ((∀ p q : Int, toGrid (setT (QTree.leaf 0 0 0 0) 9 0 false) p q
        = toGrid (QTree.leaf 0 0 0 0) p q) ∧
     levelT (QTree.leaf 0 0 0 0) < levelT (setT (QTree.leaf 0 0 0 0) 9 0 false)) :=
  ⟨⟨by decide, by norm_num [levelT]⟩,
   claim_C10 (QTree.leaf 0 0 0 0) 9 0 (by decide) (by norm_num [levelT])⟩


theorem two_pow_shift (L : Nat) (h : 1 <= L) : (2 : Int) ^ (L + 1 - 1) = 2 * 2 ^ (L - 1) := by
  rw [show L + 1 - 1 = (L - 1) + 1 from by omega, pow_succ]
  ring

set_option maxHeartbeats 400000 in
theorem shrink_step_grid (anw ane asw ase bnw bne bsw bse cnw cne csw cse dnw dne dsw dse : QTree)
    (hw : wfT (QTree.internal (QTree.internal anw ane asw ase) (QTree.internal bnw bne bsw bse) (QTree.internal cnw cne csw cse) (QTree.internal dnw dne dsw dse)) = true)
    (hg1 : ∀ p q : Int, toGrid anw p q = false)
    (hg2 : ∀ p q : Int, toGrid ane p q = false)
    (hg3 : ∀ p q : Int, toGrid asw p q = false)
    (hg4 : ∀ p q : Int, toGrid bnw p q = false)
    (hg5 : ∀ p q : Int, toGrid bne p q = false)
    (hg6 : ∀ p q : Int, toGrid bse p q = false)
    (hg7 : ∀ p q : Int, toGrid cnw p q = false)
    (hg8 : ∀ p q : Int, toGrid csw p q = false)
    (hg9 : ∀ p q : Int, toGrid cse p q = false)
    (hg10 : ∀ p q : Int, toGrid dne p q = false)
    (hg11 : ∀ p q : Int, toGrid dsw p q = false)
    (hg12 : ∀ p q : Int, toGrid dse p q = false)
    (p q : Int) :
    toGrid (QTree.internal ase bsw cne dnw) p q = toGrid (QTree.internal (QTree.internal anw ane asw ase) (QTree.internal bnw bne bsw bse) (QTree.internal cnw cne csw cse) (QTree.internal dnw dne dsw dse)) p q := by
  simp only [wfT, Bool.and_eq_true, beq_iff_eq, levelT] at hw
  obtain ⟨⟨⟨⟨⟨⟨hWA, hWB⟩, hWC⟩, hWD⟩, hLB⟩, hLC⟩, hLD⟩ := hw
  obtain ⟨⟨⟨⟨⟨⟨wa1, wa2⟩, wa3⟩, wa4⟩, la2⟩, la3⟩, la4⟩ := hWA
  obtain ⟨⟨⟨⟨⟨⟨wb1, wb2⟩, wb3⟩, wb4⟩, lb2⟩, lb3⟩, lb4⟩ := hWB
  obtain ⟨⟨⟨⟨⟨⟨wc1, wc2⟩, wc3⟩, wc4⟩, lc2⟩, lc3⟩, lc4⟩ := hWC
  obtain ⟨⟨⟨⟨⟨⟨wd1, wd2⟩, wd3⟩, wd4⟩, ld2⟩, ld3⟩, ld4⟩ := hWD
  have h3 := levelT_ge anw
  have hp := two_pow_pos (levelT anw - 1)
  have haseL : levelT ase = levelT anw := la4
  have hbswL : levelT bsw = levelT anw := by omega
  have hcneL : levelT cne = levelT anw := by omega
  have hdnwL : levelT dnw = levelT anw := by omega
  have hRR := two_pow_shift (levelT anw) (by omega)
  simp only [toGrid, levelT]
  rw [show (2 : Int) ^ (levelT ase - 1) = 2 ^ (levelT anw - 1) from by rw [haseL]]
  rw [show (2 : Int) ^ (levelT bnw - 1) = 2 ^ (levelT anw - 1) from by
    rw [show levelT bnw = levelT anw from by omega]]
  rw [show (2 : Int) ^ (levelT cnw - 1) = 2 ^ (levelT anw - 1) from by
    rw [show levelT cnw = levelT anw from by omega]]
  rw [show (2 : Int) ^ (levelT dnw - 1) = 2 ^ (levelT anw - 1) from by
    rw [show levelT dnw = levelT anw from by omega]]
  rw [hRR]
  set r := (2 : Int) ^ (levelT anw - 1) with hrdef
  split <;> split
  · split <;> split
    · rw [hg1]
      rw [toGrid_out ase _ _ wa4 (by rw [haseL, ← hrdef]; omega)]
    · rw [hg2]
      rw [toGrid_out ase _ _ wa4 (by rw [haseL, ← hrdef]; omega)]
    · rw [hg3]
      rw [toGrid_out ase _ _ wa4 (by rw [haseL, ← hrdef]; omega)]
    · congr 1 <;> ring
  · split <;> split
    · rw [hg4]
      rw [toGrid_out bsw _ _ wb3 (by rw [hbswL, ← hrdef]; omega)]
    · rw [hg5]
      rw [toGrid_out bsw _ _ wb3 (by rw [hbswL, ← hrdef]; omega)]
    · congr 1 <;> ring
    · rw [hg6]
      rw [toGrid_out bsw _ _ wb3 (by rw [hbswL, ← hrdef]; omega)]
  · split <;> split
    · rw [hg7]
      rw [toGrid_out cne _ _ wc2 (by rw [hcneL, ← hrdef]; omega)]
    · congr 1 <;> ring
    · rw [hg8]
      rw [toGrid_out cne _ _ wc2 (by rw [hcneL, ← hrdef]; omega)]
    · rw [hg9]
      rw [toGrid_out cne _ _ wc2 (by rw [hcneL, ← hrdef]; omega)]
  · split <;> split
    · congr 1 <;> ring
    · rw [hg10]
      rw [toGrid_out dnw _ _ wd1 (by rw [hdnwL, ← hrdef]; omega)]
    · rw [hg11]
      rw [toGrid_out dnw _ _ wd1 (by rw [hdnwL, ← hrdef]; omega)]
    · rw [hg12]
      rw [toGrid_out dnw _ _ wd1 (by rw [hdnwL, ← hrdef]; omega)]

theorem shrink_inner_wf (anw ane asw ase bnw bne bsw bse cnw cne csw cse dnw dne dsw dse : QTree)
    (hw : wfT (QTree.internal (QTree.internal anw ane asw ase) (QTree.internal bnw bne bsw bse) (QTree.internal cnw cne csw cse) (QTree.internal dnw dne dsw dse)) = true) :
    wfT (QTree.internal ase bsw cne dnw) = true ∧
    levelT (QTree.internal ase bsw cne dnw) + 1 = levelT (QTree.internal (QTree.internal anw ane asw ase) (QTree.internal bnw bne bsw bse) (QTree.internal cnw cne csw cse) (QTree.internal dnw dne dsw dse)) := by
  simp only [wfT, Bool.and_eq_true, beq_iff_eq, levelT] at hw ⊢
  obtain ⟨⟨⟨⟨⟨⟨hWA, hWB⟩, hWC⟩, hWD⟩, hLB⟩, hLC⟩, hLD⟩ := hw
  obtain ⟨⟨⟨⟨⟨⟨wa1, wa2⟩, wa3⟩, wa4⟩, la2⟩, la3⟩, la4⟩ := hWA
  obtain ⟨⟨⟨⟨⟨⟨wb1, wb2⟩, wb3⟩, wb4⟩, lb2⟩, lb3⟩, lb4⟩ := hWB
  obtain ⟨⟨⟨⟨⟨⟨wc1, wc2⟩, wc3⟩, wc4⟩, lc2⟩, lc3⟩, lc4⟩ := hWC
  obtain ⟨⟨⟨⟨⟨⟨wd1, wd2⟩, wd3⟩, wd4⟩, ld2⟩, ld3⟩, ld4⟩ := hWD
  exact ⟨⟨⟨⟨⟨⟨⟨wa4, wb3⟩, wc2⟩, wd1⟩, by omega⟩, by omega⟩, by omega⟩, by omega⟩

theorem shrinkGo_stop (fuel : Nat) (t : QTree) (h : ¬ 4 < levelT t) :
    shrinkGo fuel t = t := by
  cases fuel with
  | zero => rfl
  | succ f =>
      simp only [shrinkGo]
      rw [if_neg h]

theorem shrinkGo_grid : ∀ (f : Nat) (t : QTree), wfT t = true →
    ∀ p q : Int, toGrid (shrinkGo f t) p q = toGrid t p q := by
  intro f
  induction f with
  | zero =>
      intro t hw p q
      rfl
  | succ f ih =>
      intro t hw p q
      rcases t with ⟨x1, x2, x3, x4⟩ | ⟨A, B, C, D⟩
      · simp only [shrinkGo]
        split <;> rfl
      rcases A with ⟨a1, a2, a3, a4⟩ | ⟨anw, ane, asw, ase⟩ <;>
        rcases B with ⟨b1, b2, b3, b4⟩ | ⟨bnw, bne, bsw, bse⟩ <;>
          rcases C with ⟨c1, c2, c3, c4⟩ | ⟨cnw, cne, csw, cse⟩ <;>
            rcases D with ⟨d1, d2, d3, d4⟩ | ⟨dnw, dne, dsw, dse⟩
      · simp only [shrinkGo]
        split <;> rfl
      · simp only [shrinkGo]
        split <;> rfl
      · simp only [shrinkGo]
        split <;> rfl
      · simp only [shrinkGo]
        split <;> rfl
      · simp only [shrinkGo]
        split <;> rfl
      · simp only [shrinkGo]
        split <;> rfl
      · simp only [shrinkGo]
        split <;> rfl
      · simp only [shrinkGo]
        split <;> rfl
      · simp only [shrinkGo]
        split <;> rfl
      · simp only [shrinkGo]
        split <;> rfl
      · simp only [shrinkGo]
        split <;> rfl
      · simp only [shrinkGo]
        split <;> rfl
      · simp only [shrinkGo]
        split <;> rfl
      · simp only [shrinkGo]
        split <;> rfl
      · simp only [shrinkGo]
        split <;> rfl
      · simp only [shrinkGo]
        split
        · split
          · rename_i h4 hcond
            simp only [Bool.and_eq_true, beq_iff_eq] at hcond
            obtain ⟨⟨⟨⟨⟨⟨⟨⟨⟨⟨⟨e1, e2⟩, e3⟩, e4⟩, e5⟩, e6⟩, e7⟩, e8⟩, e9⟩, e10⟩, e11⟩, e12⟩ := hcond
            obtain ⟨hwI, hlI⟩ := shrink_inner_wf anw ane asw ase bnw bne bsw bse cnw cne csw cse dnw dne dsw dse hw
            rw [ih _ hwI]
            exact shrink_step_grid anw ane asw ase bnw bne bsw bse cnw cne csw cse dnw dne dsw dse hw
                (fun pz qz => by
                  rw [e1]
                  exact toGrid_emptyT _ pz qz)
                (fun pz qz => by
                  rw [e2]
                  exact toGrid_emptyT _ pz qz)
                (fun pz qz => by
                  rw [e3]
                  exact toGrid_emptyT _ pz qz)
                (fun pz qz => by
                  rw [e4]
                  exact toGrid_emptyT _ pz qz)
                (fun pz qz => by
                  rw [e5]
                  exact toGrid_emptyT _ pz qz)
                (fun pz qz => by
                  rw [e6]
                  exact toGrid_emptyT _ pz qz)
                (fun pz qz => by
                  rw [e7]
                  exact toGrid_emptyT _ pz qz)
                (fun pz qz => by
                  rw [e8]
                  exact toGrid_emptyT _ pz qz)
                (fun pz qz => by
                  rw [e9]
                  exact toGrid_emptyT _ pz qz)
                (fun pz qz => by
                  rw [e10]
                  exact toGrid_emptyT _ pz qz)
                (fun pz qz => by
                  rw [e11]
                  exact toGrid_emptyT _ pz qz)
                (fun pz qz => by
                  rw [e12]
                  exact toGrid_emptyT _ pz qz)
                p q
          · rfl
        · rfl

theorem shrinkGo_pres : ∀ (f : Nat) (t : QTree), wfT t = true →
    wfT (shrinkGo f t) = true ∧ (4 ≤ levelT t → 4 ≤ levelT (shrinkGo f t)) := by
  intro f
  induction f with
  | zero =>
      intro t hw
      exact ⟨hw, fun h => h⟩
  | succ f ih =>
      intro t hw
      rcases t with ⟨x1, x2, x3, x4⟩ | ⟨A, B, C, D⟩
      · simp only [shrinkGo]
        split <;> exact ⟨hw, fun h => h⟩
      rcases A with ⟨a1, a2, a3, a4⟩ | ⟨anw, ane, asw, ase⟩ <;>
        rcases B with ⟨b1, b2, b3, b4⟩ | ⟨bnw, bne, bsw, bse⟩ <;>
          rcases C with ⟨c1, c2, c3, c4⟩ | ⟨cnw, cne, csw, cse⟩ <;>
            rcases D with ⟨d1, d2, d3, d4⟩ | ⟨dnw, dne, dsw, dse⟩
      · simp only [shrinkGo]
        split <;> exact ⟨hw, fun h => h⟩
      · simp only [shrinkGo]
        split <;> exact ⟨hw, fun h => h⟩
      · simp only [shrinkGo]
        split <;> exact ⟨hw, fun h => h⟩
      · simp only [shrinkGo]
        split <;> exact ⟨hw, fun h => h⟩
      · simp only [shrinkGo]
        split <;> exact ⟨hw, fun h => h⟩
      · simp only [shrinkGo]
        split <;> exact ⟨hw, fun h => h⟩
      · simp only [shrinkGo]
        split <;> exact ⟨hw, fun h => h⟩
      · simp only [shrinkGo]
        split <;> exact ⟨hw, fun h => h⟩
      · simp only [shrinkGo]
        split <;> exact ⟨hw, fun h => h⟩
      · simp only [shrinkGo]
        split <;> exact ⟨hw, fun h => h⟩
      · simp only [shrinkGo]
        split <;> exact ⟨hw, fun h => h⟩
      · simp only [shrinkGo]
        split <;> exact ⟨hw, fun h => h⟩
      · simp only [shrinkGo]
        split <;> exact ⟨hw, fun h => h⟩
      · simp only [shrinkGo]
        split <;> exact ⟨hw, fun h => h⟩
      · simp only [shrinkGo]
        split <;> exact ⟨hw, fun h => h⟩
      · simp only [shrinkGo]
        split
        · split
          · rename_i h4 hcond
            obtain ⟨hwI, hlI⟩ := shrink_inner_wf anw ane asw ase bnw bne bsw bse cnw cne csw cse dnw dne dsw dse hw
            have hres := ih _ hwI
            exact ⟨hres.1, fun _ => hres.2 (by omega)⟩
          · exact ⟨hw, fun h => h⟩
        · exact ⟨hw, fun h => h⟩

theorem shrinkGo_succ_step (f : Nat) (anw ane asw ase bnw bne bsw bse cnw cne csw cse dnw dne dsw dse : QTree)
    (h4 : 4 < levelT (QTree.internal (QTree.internal anw ane asw ase) (QTree.internal bnw bne bsw bse) (QTree.internal cnw cne csw cse) (QTree.internal dnw dne dsw dse)))
    (q1 : anw = emptyT (levelT (QTree.internal (QTree.internal anw ane asw ase) (QTree.internal bnw bne bsw bse) (QTree.internal cnw cne csw cse) (QTree.internal dnw dne dsw dse)) - 2))
    (q2 : ane = emptyT (levelT (QTree.internal (QTree.internal anw ane asw ase) (QTree.internal bnw bne bsw bse) (QTree.internal cnw cne csw cse) (QTree.internal dnw dne dsw dse)) - 2))
    (q3 : asw = emptyT (levelT (QTree.internal (QTree.internal anw ane asw ase) (QTree.internal bnw bne bsw bse) (QTree.internal cnw cne csw cse) (QTree.internal dnw dne dsw dse)) - 2))
    (q4 : bnw = emptyT (levelT (QTree.internal (QTree.internal anw ane asw ase) (QTree.internal bnw bne bsw bse) (QTree.internal cnw cne csw cse) (QTree.internal dnw dne dsw dse)) - 2))
    (q5 : bne = emptyT (levelT (QTree.internal (QTree.internal anw ane asw ase) (QTree.internal bnw bne bsw bse) (QTree.internal cnw cne csw cse) (QTree.internal dnw dne dsw dse)) - 2))
    (q6 : bse = emptyT (levelT (QTree.internal (QTree.internal anw ane asw ase) (QTree.internal bnw bne bsw bse) (QTree.internal cnw cne csw cse) (QTree.internal dnw dne dsw dse)) - 2))
    (q7 : cnw = emptyT (levelT (QTree.internal (QTree.internal anw ane asw ase) (QTree.internal bnw bne bsw bse) (QTree.internal cnw cne csw cse) (QTree.internal dnw dne dsw dse)) - 2))
    (q8 : csw = emptyT (levelT (QTree.internal (QTree.internal anw ane asw ase) (QTree.internal bnw bne bsw bse) (QTree.internal cnw cne csw cse) (QTree.internal dnw dne dsw dse)) - 2))
    (q9 : cse = emptyT (levelT (QTree.internal (QTree.internal anw ane asw ase) (QTree.internal bnw bne bsw bse) (QTree.internal cnw cne csw cse) (QTree.internal dnw dne dsw dse)) - 2))
    (q10 : dne = emptyT (levelT (QTree.internal (QTree.internal anw ane asw ase) (QTree.internal bnw bne bsw bse) (QTree.internal cnw cne csw cse) (QTree.internal dnw dne dsw dse)) - 2))
    (q11 : dsw = emptyT (levelT (QTree.internal (QTree.internal anw ane asw ase) (QTree.internal bnw bne bsw bse) (QTree.internal cnw cne csw cse) (QTree.internal dnw dne dsw dse)) - 2))
    (q12 : dse = emptyT (levelT (QTree.internal (QTree.internal anw ane asw ase) (QTree.internal bnw bne bsw bse) (QTree.internal cnw cne csw cse) (QTree.internal dnw dne dsw dse)) - 2)) :
    shrinkGo (f + 1) (QTree.internal (QTree.internal anw ane asw ase) (QTree.internal bnw bne bsw bse) (QTree.internal cnw cne csw cse) (QTree.internal dnw dne dsw dse)) = shrinkGo f (QTree.internal ase bsw cne dnw) := by
  simp only [shrinkGo]
  rw [if_pos h4]
  split
  · rfl
  · rename_i hcond
    exfalso
    apply hcond
    simp only [Bool.and_eq_true, beq_iff_eq]
    exact ⟨⟨⟨⟨⟨⟨⟨⟨⟨⟨⟨q1, q2⟩, q3⟩, q4⟩, q5⟩, q6⟩, q7⟩, q8⟩, q9⟩, q10⟩, q11⟩, q12⟩

theorem shrinkT_step (anw ane asw ase bnw bne bsw bse cnw cne csw cse dnw dne dsw dse : QTree)
    (hw : wfT (QTree.internal (QTree.internal anw ane asw ase) (QTree.internal bnw bne bsw bse) (QTree.internal cnw cne csw cse) (QTree.internal dnw dne dsw dse)) = true)
    (h4 : 4 < levelT (QTree.internal (QTree.internal anw ane asw ase) (QTree.internal bnw bne bsw bse) (QTree.internal cnw cne csw cse) (QTree.internal dnw dne dsw dse)))
    (q1 : anw = emptyT (levelT (QTree.internal (QTree.internal anw ane asw ase) (QTree.internal bnw bne bsw bse) (QTree.internal cnw cne csw cse) (QTree.internal dnw dne dsw dse)) - 2))
    (q2 : ane = emptyT (levelT (QTree.internal (QTree.internal anw ane asw ase) (QTree.internal bnw bne bsw bse) (QTree.internal cnw cne csw cse) (QTree.internal dnw dne dsw dse)) - 2))
    (q3 : asw = emptyT (levelT (QTree.internal (QTree.internal anw ane asw ase) (QTree.internal bnw bne bsw bse) (QTree.internal cnw cne csw cse) (QTree.internal dnw dne dsw dse)) - 2))
    (q4 : bnw = emptyT (levelT (QTree.internal (QTree.internal anw ane asw ase) (QTree.internal bnw bne bsw bse) (QTree.internal cnw cne csw cse) (QTree.internal dnw dne dsw dse)) - 2))
    (q5 : bne = emptyT (levelT (QTree.internal (QTree.internal anw ane asw ase) (QTree.internal bnw bne bsw bse) (QTree.internal cnw cne csw cse) (QTree.internal dnw dne dsw dse)) - 2))
    (q6 : bse = emptyT (levelT (QTree.internal (QTree.internal anw ane asw ase) (QTree.internal bnw bne bsw bse) (QTree.internal cnw cne csw cse) (QTree.internal dnw dne dsw dse)) - 2))
    (q7 : cnw = emptyT (levelT (QTree.internal (QTree.internal anw ane asw ase) (QTree.internal bnw bne bsw bse) (QTree.internal cnw cne csw cse) (QTree.internal dnw dne dsw dse)) - 2))
    (q8 : csw = emptyT (levelT (QTree.internal (QTree.internal anw ane asw ase) (QTree.internal bnw bne bsw bse) (QTree.internal cnw cne csw cse) (QTree.internal dnw dne dsw dse)) - 2))
    (q9 : cse = emptyT (levelT (QTree.internal (QTree.internal anw ane asw ase) (QTree.internal bnw bne bsw bse) (QTree.internal cnw cne csw cse) (QTree.internal dnw dne dsw dse)) - 2))
    (q10 : dne = emptyT (levelT (QTree.internal (QTree.internal anw ane asw ase) (QTree.internal bnw bne bsw bse) (QTree.internal cnw cne csw cse) (QTree.internal dnw dne dsw dse)) - 2))
    (q11 : dsw = emptyT (levelT (QTree.internal (QTree.internal anw ane asw ase) (QTree.internal bnw bne bsw bse) (QTree.internal cnw cne csw cse) (QTree.internal dnw dne dsw dse)) - 2))
    (q12 : dse = emptyT (levelT (QTree.internal (QTree.internal anw ane asw ase) (QTree.internal bnw bne bsw bse) (QTree.internal cnw cne csw cse) (QTree.internal dnw dne dsw dse)) - 2)) :
    shrinkT (QTree.internal (QTree.internal anw ane asw ase) (QTree.internal bnw bne bsw bse) (QTree.internal cnw cne csw cse) (QTree.internal dnw dne dsw dse)) = shrinkT (QTree.internal ase bsw cne dnw) := by
  obtain ⟨hwI, hlI⟩ := shrink_inner_wf anw ane asw ase bnw bne bsw bse cnw cne csw cse dnw dne dsw dse hw
  have hL : levelT (QTree.internal (QTree.internal anw ane asw ase) (QTree.internal bnw bne bsw bse) (QTree.internal cnw cne csw cse) (QTree.internal dnw dne dsw dse)) = (levelT anw + 1) + 1 := rfl
  have hli : levelT (QTree.internal ase bsw cne dnw) = levelT anw + 1 := by omega
  simp only [shrinkT]
  rw [hli, hL]
  exact shrinkGo_succ_step (levelT anw + 1) anw ane asw ase bnw bne bsw bse cnw cne csw cse dnw dne dsw dse h4 q1 q2 q3 q4 q5 q6 q7 q8 q9 q10 q11 q12

theorem shrinkT_stop_cond (anw ane asw ase bnw bne bsw bse cnw cne csw cse dnw dne dsw dse : QTree)
    (hne : ¬ (anw = emptyT (levelT (QTree.internal (QTree.internal anw ane asw ase) (QTree.internal bnw bne bsw bse) (QTree.internal cnw cne csw cse) (QTree.internal dnw dne dsw dse)) - 2) ∧
         ane = emptyT (levelT (QTree.internal (QTree.internal anw ane asw ase) (QTree.internal bnw bne bsw bse) (QTree.internal cnw cne csw cse) (QTree.internal dnw dne dsw dse)) - 2) ∧
         asw = emptyT (levelT (QTree.internal (QTree.internal anw ane asw ase) (QTree.internal bnw bne bsw bse) (QTree.internal cnw cne csw cse) (QTree.internal dnw dne dsw dse)) - 2) ∧
         bnw = emptyT (levelT (QTree.internal (QTree.internal anw ane asw ase) (QTree.internal bnw bne bsw bse) (QTree.internal cnw cne csw cse) (QTree.internal dnw dne dsw dse)) - 2) ∧
         bne = emptyT (levelT (QTree.internal (QTree.internal anw ane asw ase) (QTree.internal bnw bne bsw bse) (QTree.internal cnw cne csw cse) (QTree.internal dnw dne dsw dse)) - 2) ∧
         bse = emptyT (levelT (QTree.internal (QTree.internal anw ane asw ase) (QTree.internal bnw bne bsw bse) (QTree.internal cnw cne csw cse) (QTree.internal dnw dne dsw dse)) - 2) ∧
         cnw = emptyT (levelT (QTree.internal (QTree.internal anw ane asw ase) (QTree.internal bnw bne bsw bse) (QTree.internal cnw cne csw cse) (QTree.internal dnw dne dsw dse)) - 2) ∧
         csw = emptyT (levelT (QTree.internal (QTree.internal anw ane asw ase) (QTree.internal bnw bne bsw bse) (QTree.internal cnw cne csw cse) (QTree.internal dnw dne dsw dse)) - 2) ∧
         cse = emptyT (levelT (QTree.internal (QTree.internal anw ane asw ase) (QTree.internal bnw bne bsw bse) (QTree.internal cnw cne csw cse) (QTree.internal dnw dne dsw dse)) - 2) ∧
         dne = emptyT (levelT (QTree.internal (QTree.internal anw ane asw ase) (QTree.internal bnw bne bsw bse) (QTree.internal cnw cne csw cse) (QTree.internal dnw dne dsw dse)) - 2) ∧
         dsw = emptyT (levelT (QTree.internal (QTree.internal anw ane asw ase) (QTree.internal bnw bne bsw bse) (QTree.internal cnw cne csw cse) (QTree.internal dnw dne dsw dse)) - 2) ∧
         dse = emptyT (levelT (QTree.internal (QTree.internal anw ane asw ase) (QTree.internal bnw bne bsw bse) (QTree.internal cnw cne csw cse) (QTree.internal dnw dne dsw dse)) - 2))) :
    shrinkT (QTree.internal (QTree.internal anw ane asw ase) (QTree.internal bnw bne bsw bse) (QTree.internal cnw cne csw cse) (QTree.internal dnw dne dsw dse)) = (QTree.internal (QTree.internal anw ane asw ase) (QTree.internal bnw bne bsw bse) (QTree.internal cnw cne csw cse) (QTree.internal dnw dne dsw dse)) := by
  by_cases h4 : 4 < levelT (QTree.internal (QTree.internal anw ane asw ase) (QTree.internal bnw bne bsw bse) (QTree.internal cnw cne csw cse) (QTree.internal dnw dne dsw dse))
  · have hL : levelT (QTree.internal (QTree.internal anw ane asw ase) (QTree.internal bnw bne bsw bse) (QTree.internal cnw cne csw cse) (QTree.internal dnw dne dsw dse)) = (levelT anw + 1) + 1 := rfl
    simp only [shrinkT]
    rw [hL]
    simp only [shrinkGo]
    rw [if_pos h4]
    split
    · rename_i hcond
      exfalso
      simp only [Bool.and_eq_true, beq_iff_eq] at hcond
      obtain ⟨⟨⟨⟨⟨⟨⟨⟨⟨⟨⟨e1, e2⟩, e3⟩, e4⟩, e5⟩, e6⟩, e7⟩, e8⟩, e9⟩, e10⟩, e11⟩, e12⟩ := hcond
      exact hne ⟨e1, e2, e3, e4, e5, e6, e7, e8, e9, e10, e11, e12⟩
    · rfl
  · exact shrinkGo_stop (levelT (QTree.internal (QTree.internal anw ane asw ase) (QTree.internal bnw bne bsw bse) (QTree.internal cnw cne csw cse) (QTree.internal dnw dne dsw dse))) _ h4

/-- C7: `shrink` behaves as the spec's while-loop: while the root's level
exceeds 4 and the twelve non-center grandchildren are the canonical empty
node of level `root.level - 2`, the root is replaced by the internal node of
the four innermost grandchildren; the loop stops when the level is at most 4
or some of the twelve is non-empty; the root never drops below level 4, and
the live-cell set is unchanged. -/
theorem claim_C7 (t : QTree) (hw : wfT t = true) :
    (∀ anw ane asw ase bnw bne bsw bse cnw cne csw cse dnw dne dsw dse : QTree,
        t = (QTree.internal (QTree.internal anw ane asw ase) (QTree.internal bnw bne bsw bse) (QTree.internal cnw cne csw cse) (QTree.internal dnw dne dsw dse)) →
        4 < levelT t →
        anw = emptyT (levelT t - 2) →
        ane = emptyT (levelT t - 2) →
        asw = emptyT (levelT t - 2) →
        bnw = emptyT (levelT t - 2) →
        bne = emptyT (levelT t - 2) →
        bse = emptyT (levelT t - 2) →
        cnw = emptyT (levelT t - 2) →
        csw = emptyT (levelT t - 2) →
        cse = emptyT (levelT t - 2) →
        dne = emptyT (levelT t - 2) →
        dsw = emptyT (levelT t - 2) →
        dse = emptyT (levelT t - 2) →
        shrinkT t = shrinkT (QTree.internal ase bsw cne dnw)) ∧
    (¬ 4 < levelT t → shrinkT t = t) ∧
    (∀ anw ane asw ase bnw bne bsw bse cnw cne csw cse dnw dne dsw dse : QTree,
        t = (QTree.internal (QTree.internal anw ane asw ase) (QTree.internal bnw bne bsw bse) (QTree.internal cnw cne csw cse) (QTree.internal dnw dne dsw dse)) →
        ¬ (anw = emptyT (levelT t - 2) ∧
            ane = emptyT (levelT t - 2) ∧
            asw = emptyT (levelT t - 2) ∧
            bnw = emptyT (levelT t - 2) ∧
            bne = emptyT (levelT t - 2) ∧
            bse = emptyT (levelT t - 2) ∧
            cnw = emptyT (levelT t - 2) ∧
            csw = emptyT (levelT t - 2) ∧
            cse = emptyT (levelT t - 2) ∧
            dne = emptyT (levelT t - 2) ∧
            dsw = emptyT (levelT t - 2) ∧
            dse = emptyT (levelT t - 2)) →
        shrinkT t = t) ∧
    (4 ≤ levelT t → 4 ≤ levelT (shrinkT t)) ∧
    (∀ p q : Int, toGrid (shrinkT t) p q = toGrid t p q) := by
  refine ⟨?_, ?_, ?_, ?_, ?_⟩
  · intro anw ane asw ase bnw bne bsw bse cnw cne csw cse dnw dne dsw dse heq h4 q1 q2 q3 q4 q5 q6 q7 q8 q9 q10 q11 q12
    subst heq
    exact shrinkT_step anw ane asw ase bnw bne bsw bse cnw cne csw cse dnw dne dsw dse hw h4 q1 q2 q3 q4 q5 q6 q7 q8 q9 q10 q11 q12
  · intro h4
    exact shrinkGo_stop (levelT t) t h4
  · intro anw ane asw ase bnw bne bsw bse cnw cne csw cse dnw dne dsw dse heq hne
    subst heq
    exact shrinkT_stop_cond anw ane asw ase bnw bne bsw bse cnw cne csw cse dnw dne dsw dse hne
  · intro h4
    exact (shrinkGo_pres (levelT t) t hw).2 h4
  · intro p q
    exact shrinkGo_grid (levelT t) t hw p q

theorem claim_C7_witness :
    wfT (QTree.internal (QTree.internal (QTree.leaf 0 0 0 0) (QTree.leaf 0 0 0 0) (QTree.leaf 0 0 0 0) (QTree.leaf 1 2 3 4)) (QTree.internal (QTree.leaf 0 0 0 0) (QTree.leaf 0 0 0 0) (QTree.leaf 5 0 0 0) (QTree.leaf 0 0 0 0)) (QTree.internal (QTree.leaf 0 0 0 0) (QTree.leaf 9 0 0 0) (QTree.leaf 0 0 0 0) (QTree.leaf 0 0 0 0)) (QTree.internal (QTree.leaf 7 0 0 0) (QTree.leaf 0 0 0 0) (QTree.leaf 0 0 0 0) (QTree.leaf 0 0 0 0))) = true ∧
    4 ≤ levelT (shrinkT (QTree.internal (QTree.internal (QTree.leaf 0 0 0 0) (QTree.leaf 0 0 0 0) (QTree.leaf 0 0 0 0) (QTree.leaf 1 2 3 4)) (QTree.internal (QTree.leaf 0 0 0 0) (QTree.leaf 0 0 0 0) (QTree.leaf 5 0 0 0) (QTree.leaf 0 0 0 0)) (QTree.internal (QTree.leaf 0 0 0 0) (QTree.leaf 9 0 0 0) (QTree.leaf 0 0 0 0) (QTree.leaf 0 0 0 0)) (QTree.internal (QTree.leaf 7 0 0 0) (QTree.leaf 0 0 0 0) (QTree.leaf 0 0 0 0) (QTree.leaf 0 0 0 0)))) ∧
    toGrid (shrinkT (QTree.internal (QTree.internal (QTree.leaf 0 0 0 0) (QTree.leaf 0 0 0 0) (QTree.leaf 0 0 0 0) (QTree.leaf 1 2 3 4)) (QTree.internal (QTree.leaf 0 0 0 0) (QTree.leaf 0 0 0 0) (QTree.leaf 5 0 0 0) (QTree.leaf 0 0 0 0)) (QTree.internal (QTree.leaf 0 0 0 0) (QTree.leaf 9 0 0 0) (QTree.leaf 0 0 0 0) (QTree.leaf 0 0 0 0)) (QTree.internal (QTree.leaf 7 0 0 0) (QTree.leaf 0 0 0 0) (QTree.leaf 0 0 0 0) (QTree.leaf 0 0 0 0)))) (-1) (-1) =
      toGrid (QTree.internal (QTree.internal (QTree.leaf 0 0 0 0) (QTree.leaf 0 0 0 0) (QTree.leaf 0 0 0 0) (QTree.leaf 1 2 3 4)) (QTree.internal (QTree.leaf 0 0 0 0) (QTree.leaf 0 0 0 0) (QTree.leaf 5 0 0 0) (QTree.leaf 0 0 0 0)) (QTree.internal (QTree.leaf 0 0 0 0) (QTree.leaf 9 0 0 0) (QTree.leaf 0 0 0 0) (QTree.leaf 0 0 0 0)) (QTree.internal (QTree.leaf 7 0 0 0) (QTree.leaf 0 0 0 0) (QTree.leaf 0 0 0 0) (QTree.leaf 0 0 0 0))) (-1) (-1) :=
  ⟨by decide,
   (claim_C7 (QTree.internal (QTree.internal (QTree.leaf 0 0 0 0) (QTree.leaf 0 0 0 0) (QTree.leaf 0 0 0 0) (QTree.leaf 1 2 3 4)) (QTree.internal (QTree.leaf 0 0 0 0) (QTree.leaf 0 0 0 0) (QTree.leaf 5 0 0 0) (QTree.leaf 0 0 0 0)) (QTree.internal (QTree.leaf 0 0 0 0) (QTree.leaf 9 0 0 0) (QTree.leaf 0 0 0 0) (QTree.leaf 0 0 0 0)) (QTree.internal (QTree.leaf 7 0 0 0) (QTree.leaf 0 0 0 0) (QTree.leaf 0 0 0 0) (QTree.leaf 0 0 0 0))) (by decide)).2.2.2.1 (by decide),
   (claim_C7 (QTree.internal (QTree.internal (QTree.leaf 0 0 0 0) (QTree.leaf 0 0 0 0) (QTree.leaf 0 0 0 0) (QTree.leaf 1 2 3 4)) (QTree.internal (QTree.leaf 0 0 0 0) (QTree.leaf 0 0 0 0) (QTree.leaf 5 0 0 0) (QTree.leaf 0 0 0 0)) (QTree.internal (QTree.leaf 0 0 0 0) (QTree.leaf 9 0 0 0) (QTree.leaf 0 0 0 0) (QTree.leaf 0 0 0 0)) (QTree.internal (QTree.leaf 7 0 0 0) (QTree.leaf 0 0 0 0) (QTree.leaf 0 0 0 0) (QTree.leaf 0 0 0 0))) (by decide)).2.2.2.2 (-1) (-1)⟩


/-! ### Boundary theorems -/

theorem exists_y8 (a b c d : Nat) (x : Int) :
    (∃ y : Int, leafGrid a b c d x y = true) ↔
    (leafGrid a b c d x (-4) ||
       leafGrid a b c d x (-3) ||
       leafGrid a b c d x (-2) ||
       leafGrid a b c d x (-1) ||
       leafGrid a b c d x 0 ||
       leafGrid a b c d x 1 ||
       leafGrid a b c d x 2 ||
       leafGrid a b c d x 3) = true := by
  constructor
  · rintro ⟨y, hy⟩
    have hr : -4 ≤ y ∧ y < 4 := by
      by_contra hno
      rw [leafGrid_out a b c d x y (by omega)] at hy
      simp at hy
    have h8 : y = -4 ∨ y = -3 ∨ y = -2 ∨ y = -1 ∨ y = 0 ∨ y = 1 ∨ y = 2 ∨ y = 3 := by omega
    simp only [Bool.or_eq_true]
    rcases h8 with rfl | rfl | rfl | rfl | rfl | rfl | rfl | rfl
    · exact Or.inl (Or.inl (Or.inl (Or.inl (Or.inl (Or.inl (Or.inl hy))))))
    · exact Or.inl (Or.inl (Or.inl (Or.inl (Or.inl (Or.inl (Or.inr hy))))))
    · exact Or.inl (Or.inl (Or.inl (Or.inl (Or.inl (Or.inr hy)))))
    · exact Or.inl (Or.inl (Or.inl (Or.inl (Or.inr hy))))
    · exact Or.inl (Or.inl (Or.inl (Or.inr hy)))
    · exact Or.inl (Or.inl (Or.inr hy))
    · exact Or.inl (Or.inr hy)
    · exact Or.inr hy
  · intro h
    simp only [Bool.or_eq_true] at h
    rcases h with ((((((h|h)|h)|h)|h)|h)|h)|h
    exacts [⟨-4, h⟩, ⟨-3, h⟩, ⟨-2, h⟩, ⟨-1, h⟩, ⟨0, h⟩, ⟨1, h⟩, ⟨2, h⟩, ⟨3, h⟩]

theorem exists_x8 (a b c d : Nat) (y : Int) :
    (∃ x : Int, leafGrid a b c d x y = true) ↔
    (leafGrid a b c d (-4) y ||
       leafGrid a b c d (-3) y ||
       leafGrid a b c d (-2) y ||
       leafGrid a b c d (-1) y ||
       leafGrid a b c d 0 y ||
       leafGrid a b c d 1 y ||
       leafGrid a b c d 2 y ||
       leafGrid a b c d 3 y) = true := by
  constructor
  · rintro ⟨x, hy⟩
    have hr : -4 ≤ x ∧ x < 4 := by
      by_contra hno
      rw [leafGrid_out a b c d x y (by omega)] at hy
      simp at hy
    have h8 : x = -4 ∨ x = -3 ∨ x = -2 ∨ x = -1 ∨ x = 0 ∨ x = 1 ∨ x = 2 ∨ x = 3 := by omega
    simp only [Bool.or_eq_true]
    rcases h8 with rfl | rfl | rfl | rfl | rfl | rfl | rfl | rfl
    · exact Or.inl (Or.inl (Or.inl (Or.inl (Or.inl (Or.inl (Or.inl hy))))))
    · exact Or.inl (Or.inl (Or.inl (Or.inl (Or.inl (Or.inl (Or.inr hy))))))
    · exact Or.inl (Or.inl (Or.inl (Or.inl (Or.inl (Or.inr hy)))))
    · exact Or.inl (Or.inl (Or.inl (Or.inl (Or.inr hy))))
    · exact Or.inl (Or.inl (Or.inl (Or.inr hy)))
    · exact Or.inl (Or.inl (Or.inr hy))
    · exact Or.inl (Or.inr hy)
    · exact Or.inr hy
  · intro h
    simp only [Bool.or_eq_true] at h
    rcases h with ((((((h|h)|h)|h)|h)|h)|h)|h
    exacts [⟨-4, h⟩, ⟨-3, h⟩, ⟨-2, h⟩, ⟨-1, h⟩, ⟨0, h⟩, ⟨1, h⟩, ⟨2, h⟩, ⟨3, h⟩]

theorem rowMask_bit0 (a b c d : Nat) :
    (rowMask a b c d).testBit 0 =
      (leafGrid a b c d 3 (-4) ||
       leafGrid a b c d 3 (-3) ||
       leafGrid a b c d 3 (-2) ||
       leafGrid a b c d 3 (-1) ||
       leafGrid a b c d 3 0 ||
       leafGrid a b c d 3 1 ||
       leafGrid a b c d 3 2 ||
       leafGrid a b c d 3 3) := by
  simp only [rowMask, leafGrid]
  norm_num [tn0, tn1, tn2, tn3, sq4]
  try norm_num [Nat.testBit, Nat.shiftRight_eq_div_pow]
  try rw [Bool.eq_iff_iff]
  have hj2 : ∀ m : Nat, m % 2 / 2 = 0 := fun m => Nat.div_eq_of_lt (by omega)
  have hj4 : ∀ m : Nat, m % 2 / 4 = 0 := fun m => Nat.div_eq_of_lt (by omega)
  have hj8 : ∀ m : Nat, m % 2 / 8 = 0 := fun m => Nat.div_eq_of_lt (by omega)
  have hj16 : ∀ m : Nat, m % 2 / 16 = 0 := fun m => Nat.div_eq_of_lt (by omega)
  have hj32 : ∀ m : Nat, m % 2 / 32 = 0 := fun m => Nat.div_eq_of_lt (by omega)
  have hj64 : ∀ m : Nat, m % 2 / 64 = 0 := fun m => Nat.div_eq_of_lt (by omega)
  have hj128 : ∀ m : Nat, m % 2 / 128 = 0 := fun m => Nat.div_eq_of_lt (by omega)
  try simp only [Bool.or_eq_true, Bool.and_eq_true, beq_iff_eq, decide_eq_true_eq]
  try norm_num [hj2, hj4, hj8, hj16, hj32, hj64, hj128]
  tauto

theorem rowMask_bit1 (a b c d : Nat) :
    (rowMask a b c d).testBit 1 =
      (leafGrid a b c d 2 (-4) ||
       leafGrid a b c d 2 (-3) ||
       leafGrid a b c d 2 (-2) ||
       leafGrid a b c d 2 (-1) ||
       leafGrid a b c d 2 0 ||
       leafGrid a b c d 2 1 ||
       leafGrid a b c d 2 2 ||
       leafGrid a b c d 2 3) := by
  simp only [rowMask, leafGrid]
  norm_num [tn0, tn1, tn2, tn3, sq4]
  try norm_num [Nat.testBit, Nat.shiftRight_eq_div_pow]
  try rw [Bool.eq_iff_iff]
  have hj2 : ∀ m : Nat, m % 2 / 2 = 0 := fun m => Nat.div_eq_of_lt (by omega)
  have hj4 : ∀ m : Nat, m % 2 / 4 = 0 := fun m => Nat.div_eq_of_lt (by omega)
  have hj8 : ∀ m : Nat, m % 2 / 8 = 0 := fun m => Nat.div_eq_of_lt (by omega)
  have hj16 : ∀ m : Nat, m % 2 / 16 = 0 := fun m => Nat.div_eq_of_lt (by omega)
  have hj32 : ∀ m : Nat, m % 2 / 32 = 0 := fun m => Nat.div_eq_of_lt (by omega)
  have hj64 : ∀ m : Nat, m % 2 / 64 = 0 := fun m => Nat.div_eq_of_lt (by omega)
  have hj128 : ∀ m : Nat, m % 2 / 128 = 0 := fun m => Nat.div_eq_of_lt (by omega)
  try simp only [Bool.or_eq_true, Bool.and_eq_true, beq_iff_eq, decide_eq_true_eq]
  try norm_num [hj2, hj4, hj8, hj16, hj32, hj64, hj128]
  tauto

theorem rowMask_bit2 (a b c d : Nat) :
    (rowMask a b c d).testBit 2 =
      (leafGrid a b c d 1 (-4) ||
       leafGrid a b c d 1 (-3) ||
       leafGrid a b c d 1 (-2) ||
       leafGrid a b c d 1 (-1) ||
       leafGrid a b c d 1 0 ||
       leafGrid a b c d 1 1 ||
       leafGrid a b c d 1 2 ||
       leafGrid a b c d 1 3) := by
  simp only [rowMask, leafGrid]
  norm_num [tn0, tn1, tn2, tn3, sq4]
  try norm_num [Nat.testBit, Nat.shiftRight_eq_div_pow]
  try rw [Bool.eq_iff_iff]
  have hj2 : ∀ m : Nat, m % 2 / 2 = 0 := fun m => Nat.div_eq_of_lt (by omega)
  have hj4 : ∀ m : Nat, m % 2 / 4 = 0 := fun m => Nat.div_eq_of_lt (by omega)
  have hj8 : ∀ m : Nat, m % 2 / 8 = 0 := fun m => Nat.div_eq_of_lt (by omega)
  have hj16 : ∀ m : Nat, m % 2 / 16 = 0 := fun m => Nat.div_eq_of_lt (by omega)
  have hj32 : ∀ m : Nat, m % 2 / 32 = 0 := fun m => Nat.div_eq_of_lt (by omega)
  have hj64 : ∀ m : Nat, m % 2 / 64 = 0 := fun m => Nat.div_eq_of_lt (by omega)
  have hj128 : ∀ m : Nat, m % 2 / 128 = 0 := fun m => Nat.div_eq_of_lt (by omega)
  try simp only [Bool.or_eq_true, Bool.and_eq_true, beq_iff_eq, decide_eq_true_eq]
  try norm_num [hj2, hj4, hj8, hj16, hj32, hj64, hj128]
  tauto

theorem rowMask_bit3 (a b c d : Nat) :
    (rowMask a b c d).testBit 3 =
      (leafGrid a b c d 0 (-4) ||
       leafGrid a b c d 0 (-3) ||
       leafGrid a b c d 0 (-2) ||
       leafGrid a b c d 0 (-1) ||
       leafGrid a b c d 0 0 ||
       leafGrid a b c d 0 1 ||
       leafGrid a b c d 0 2 ||
       leafGrid a b c d 0 3) := by
  simp only [rowMask, leafGrid]
  norm_num [tn0, tn1, tn2, tn3, sq4]
  try norm_num [Nat.testBit, Nat.shiftRight_eq_div_pow]
  try rw [Bool.eq_iff_iff]
  have hj2 : ∀ m : Nat, m % 2 / 2 = 0 := fun m => Nat.div_eq_of_lt (by omega)
  have hj4 : ∀ m : Nat, m % 2 / 4 = 0 := fun m => Nat.div_eq_of_lt (by omega)
  have hj8 : ∀ m : Nat, m % 2 / 8 = 0 := fun m => Nat.div_eq_of_lt (by omega)
  have hj16 : ∀ m : Nat, m % 2 / 16 = 0 := fun m => Nat.div_eq_of_lt (by omega)
  have hj32 : ∀ m : Nat, m % 2 / 32 = 0 := fun m => Nat.div_eq_of_lt (by omega)
  have hj64 : ∀ m : Nat, m % 2 / 64 = 0 := fun m => Nat.div_eq_of_lt (by omega)
  have hj128 : ∀ m : Nat, m % 2 / 128 = 0 := fun m => Nat.div_eq_of_lt (by omega)
  try simp only [Bool.or_eq_true, Bool.and_eq_true, beq_iff_eq, decide_eq_true_eq]
  try norm_num [hj2, hj4, hj8, hj16, hj32, hj64, hj128]
  tauto

theorem rowMask_bit4 (a b c d : Nat) :
    (rowMask a b c d).testBit 4 =
      (leafGrid a b c d (-1) (-4) ||
       leafGrid a b c d (-1) (-3) ||
       leafGrid a b c d (-1) (-2) ||
       leafGrid a b c d (-1) (-1) ||
       leafGrid a b c d (-1) 0 ||
       leafGrid a b c d (-1) 1 ||
       leafGrid a b c d (-1) 2 ||
       leafGrid a b c d (-1) 3) := by
  simp only [rowMask, leafGrid]
  norm_num [tn0, tn1, tn2, tn3, sq4]
  try norm_num [Nat.testBit, Nat.shiftRight_eq_div_pow]
  try rw [Bool.eq_iff_iff]
  have hj2 : ∀ m : Nat, m % 2 / 2 = 0 := fun m => Nat.div_eq_of_lt (by omega)
  have hj4 : ∀ m : Nat, m % 2 / 4 = 0 := fun m => Nat.div_eq_of_lt (by omega)
  have hj8 : ∀ m : Nat, m % 2 / 8 = 0 := fun m => Nat.div_eq_of_lt (by omega)
  have hj16 : ∀ m : Nat, m % 2 / 16 = 0 := fun m => Nat.div_eq_of_lt (by omega)
  have hj32 : ∀ m : Nat, m % 2 / 32 = 0 := fun m => Nat.div_eq_of_lt (by omega)
  have hj64 : ∀ m : Nat, m % 2 / 64 = 0 := fun m => Nat.div_eq_of_lt (by omega)
  have hj128 : ∀ m : Nat, m % 2 / 128 = 0 := fun m => Nat.div_eq_of_lt (by omega)
  try simp only [Bool.or_eq_true, Bool.and_eq_true, beq_iff_eq, decide_eq_true_eq]
  try norm_num [hj2, hj4, hj8, hj16, hj32, hj64, hj128]
  tauto

theorem rowMask_bit5 (a b c d : Nat) :
    (rowMask a b c d).testBit 5 =
      (leafGrid a b c d (-2) (-4) ||
       leafGrid a b c d (-2) (-3) ||
       leafGrid a b c d (-2) (-2) ||
       leafGrid a b c d (-2) (-1) ||
       leafGrid a b c d (-2) 0 ||
       leafGrid a b c d (-2) 1 ||
       leafGrid a b c d (-2) 2 ||
       leafGrid a b c d (-2) 3) := by
  simp only [rowMask, leafGrid]
  norm_num [tn0, tn1, tn2, tn3, sq4]
  try norm_num [Nat.testBit, Nat.shiftRight_eq_div_pow]
  try rw [Bool.eq_iff_iff]
  have hj2 : ∀ m : Nat, m % 2 / 2 = 0 := fun m => Nat.div_eq_of_lt (by omega)
  have hj4 : ∀ m : Nat, m % 2 / 4 = 0 := fun m => Nat.div_eq_of_lt (by omega)
  have hj8 : ∀ m : Nat, m % 2 / 8 = 0 := fun m => Nat.div_eq_of_lt (by omega)
  have hj16 : ∀ m : Nat, m % 2 / 16 = 0 := fun m => Nat.div_eq_of_lt (by omega)
  have hj32 : ∀ m : Nat, m % 2 / 32 = 0 := fun m => Nat.div_eq_of_lt (by omega)
  have hj64 : ∀ m : Nat, m % 2 / 64 = 0 := fun m => Nat.div_eq_of_lt (by omega)
  have hj128 : ∀ m : Nat, m % 2 / 128 = 0 := fun m => Nat.div_eq_of_lt (by omega)
  try simp only [Bool.or_eq_true, Bool.and_eq_true, beq_iff_eq, decide_eq_true_eq]
  try norm_num [hj2, hj4, hj8, hj16, hj32, hj64, hj128]
  tauto

theorem rowMask_bit6 (a b c d : Nat) :
    (rowMask a b c d).testBit 6 =
      (leafGrid a b c d (-3) (-4) ||
       leafGrid a b c d (-3) (-3) ||
       leafGrid a b c d (-3) (-2) ||
       leafGrid a b c d (-3) (-1) ||
       leafGrid a b c d (-3) 0 ||
       leafGrid a b c d (-3) 1 ||
       leafGrid a b c d (-3) 2 ||
       leafGrid a b c d (-3) 3) := by
  simp only [rowMask, leafGrid]
  norm_num [tn0, tn1, tn2, tn3, sq4]
  try norm_num [Nat.testBit, Nat.shiftRight_eq_div_pow]
  try rw [Bool.eq_iff_iff]
  have hj2 : ∀ m : Nat, m % 2 / 2 = 0 := fun m => Nat.div_eq_of_lt (by omega)
  have hj4 : ∀ m : Nat, m % 2 / 4 = 0 := fun m => Nat.div_eq_of_lt (by omega)
  have hj8 : ∀ m : Nat, m % 2 / 8 = 0 := fun m => Nat.div_eq_of_lt (by omega)
  have hj16 : ∀ m : Nat, m % 2 / 16 = 0 := fun m => Nat.div_eq_of_lt (by omega)
  have hj32 : ∀ m : Nat, m % 2 / 32 = 0 := fun m => Nat.div_eq_of_lt (by omega)
  have hj64 : ∀ m : Nat, m % 2 / 64 = 0 := fun m => Nat.div_eq_of_lt (by omega)
  have hj128 : ∀ m : Nat, m % 2 / 128 = 0 := fun m => Nat.div_eq_of_lt (by omega)
  try simp only [Bool.or_eq_true, Bool.and_eq_true, beq_iff_eq, decide_eq_true_eq]
  try norm_num [hj2, hj4, hj8, hj16, hj32, hj64, hj128]
  tauto

theorem rowMask_bit7 (a b c d : Nat) :
    (rowMask a b c d).testBit 7 =
      (leafGrid a b c d (-4) (-4) ||
       leafGrid a b c d (-4) (-3) ||
       leafGrid a b c d (-4) (-2) ||
       leafGrid a b c d (-4) (-1) ||
       leafGrid a b c d (-4) 0 ||
       leafGrid a b c d (-4) 1 ||
       leafGrid a b c d (-4) 2 ||
       leafGrid a b c d (-4) 3) := by
  simp only [rowMask, leafGrid]
  norm_num [tn0, tn1, tn2, tn3, sq4]
  try norm_num [Nat.testBit, Nat.shiftRight_eq_div_pow]
  try rw [Bool.eq_iff_iff]
  have hj2 : ∀ m : Nat, m % 2 / 2 = 0 := fun m => Nat.div_eq_of_lt (by omega)
  have hj4 : ∀ m : Nat, m % 2 / 4 = 0 := fun m => Nat.div_eq_of_lt (by omega)
  have hj8 : ∀ m : Nat, m % 2 / 8 = 0 := fun m => Nat.div_eq_of_lt (by omega)
  have hj16 : ∀ m : Nat, m % 2 / 16 = 0 := fun m => Nat.div_eq_of_lt (by omega)
  have hj32 : ∀ m : Nat, m % 2 / 32 = 0 := fun m => Nat.div_eq_of_lt (by omega)
  have hj64 : ∀ m : Nat, m % 2 / 64 = 0 := fun m => Nat.div_eq_of_lt (by omega)
  have hj128 : ∀ m : Nat, m % 2 / 128 = 0 := fun m => Nat.div_eq_of_lt (by omega)
  try simp only [Bool.or_eq_true, Bool.and_eq_true, beq_iff_eq, decide_eq_true_eq]
  try norm_num [hj2, hj4, hj8, hj16, hj32, hj64, hj128]
  tauto

theorem colMask_bit0 (a b c d : Nat) :
    (colMask a b c d).testBit 0 =
      (leafGrid a b c d (-4) 3 ||
       leafGrid a b c d (-3) 3 ||
       leafGrid a b c d (-2) 3 ||
       leafGrid a b c d (-1) 3 ||
       leafGrid a b c d 0 3 ||
       leafGrid a b c d 1 3 ||
       leafGrid a b c d 2 3 ||
       leafGrid a b c d 3 3) := by
  simp only [colMask, leafGrid]
  norm_num [tn0, tn1, tn2, tn3, sq4]
  try norm_num [Nat.testBit, Nat.shiftRight_eq_div_pow]
  try rw [Bool.eq_iff_iff]
  have hj2 : ∀ m : Nat, m % 2 / 2 = 0 := fun m => Nat.div_eq_of_lt (by omega)
  have hj4 : ∀ m : Nat, m % 2 / 4 = 0 := fun m => Nat.div_eq_of_lt (by omega)
  have hj8 : ∀ m : Nat, m % 2 / 8 = 0 := fun m => Nat.div_eq_of_lt (by omega)
  have hj16 : ∀ m : Nat, m % 2 / 16 = 0 := fun m => Nat.div_eq_of_lt (by omega)
  have hj32 : ∀ m : Nat, m % 2 / 32 = 0 := fun m => Nat.div_eq_of_lt (by omega)
  have hj64 : ∀ m : Nat, m % 2 / 64 = 0 := fun m => Nat.div_eq_of_lt (by omega)
  have hj128 : ∀ m : Nat, m % 2 / 128 = 0 := fun m => Nat.div_eq_of_lt (by omega)
  try simp only [Bool.or_eq_true, Bool.and_eq_true, beq_iff_eq, decide_eq_true_eq]
  try norm_num [hj2, hj4, hj8, hj16, hj32, hj64, hj128]
  tauto

theorem colMask_bit1 (a b c d : Nat) :
    (colMask a b c d).testBit 1 =
      (leafGrid a b c d (-4) 2 ||
       leafGrid a b c d (-3) 2 ||
       leafGrid a b c d (-2) 2 ||
       leafGrid a b c d (-1) 2 ||
       leafGrid a b c d 0 2 ||
       leafGrid a b c d 1 2 ||
       leafGrid a b c d 2 2 ||
       leafGrid a b c d 3 2) := by
  simp only [colMask, leafGrid]
  norm_num [tn0, tn1, tn2, tn3, sq4]
  try norm_num [Nat.testBit, Nat.shiftRight_eq_div_pow]
  try rw [Bool.eq_iff_iff]
  have hj2 : ∀ m : Nat, m % 2 / 2 = 0 := fun m => Nat.div_eq_of_lt (by omega)
  have hj4 : ∀ m : Nat, m % 2 / 4 = 0 := fun m => Nat.div_eq_of_lt (by omega)
  have hj8 : ∀ m : Nat, m % 2 / 8 = 0 := fun m => Nat.div_eq_of_lt (by omega)
  have hj16 : ∀ m : Nat, m % 2 / 16 = 0 := fun m => Nat.div_eq_of_lt (by omega)
  have hj32 : ∀ m : Nat, m % 2 / 32 = 0 := fun m => Nat.div_eq_of_lt (by omega)
  have hj64 : ∀ m : Nat, m % 2 / 64 = 0 := fun m => Nat.div_eq_of_lt (by omega)
  have hj128 : ∀ m : Nat, m % 2 / 128 = 0 := fun m => Nat.div_eq_of_lt (by omega)
  try simp only [Bool.or_eq_true, Bool.and_eq_true, beq_iff_eq, decide_eq_true_eq]
  try norm_num [hj2, hj4, hj8, hj16, hj32, hj64, hj128]
  tauto

theorem colMask_bit2 (a b c d : Nat) :
    (colMask a b c d).testBit 2 =
      (leafGrid a b c d (-4) 1 ||
       leafGrid a b c d (-3) 1 ||
       leafGrid a b c d (-2) 1 ||
       leafGrid a b c d (-1) 1 ||
       leafGrid a b c d 0 1 ||
       leafGrid a b c d 1 1 ||
       leafGrid a b c d 2 1 ||
       leafGrid a b c d 3 1) := by
  simp only [colMask, leafGrid]
  norm_num [tn0, tn1, tn2, tn3, sq4]
  try norm_num [Nat.testBit, Nat.shiftRight_eq_div_pow]
  try rw [Bool.eq_iff_iff]
  have hj2 : ∀ m : Nat, m % 2 / 2 = 0 := fun m => Nat.div_eq_of_lt (by omega)
  have hj4 : ∀ m : Nat, m % 2 / 4 = 0 := fun m => Nat.div_eq_of_lt (by omega)
  have hj8 : ∀ m : Nat, m % 2 / 8 = 0 := fun m => Nat.div_eq_of_lt (by omega)
  have hj16 : ∀ m : Nat, m % 2 / 16 = 0 := fun m => Nat.div_eq_of_lt (by omega)
  have hj32 : ∀ m : Nat, m % 2 / 32 = 0 := fun m => Nat.div_eq_of_lt (by omega)
  have hj64 : ∀ m : Nat, m % 2 / 64 = 0 := fun m => Nat.div_eq_of_lt (by omega)
  have hj128 : ∀ m : Nat, m % 2 / 128 = 0 := fun m => Nat.div_eq_of_lt (by omega)
  try simp only [Bool.or_eq_true, Bool.and_eq_true, beq_iff_eq, decide_eq_true_eq]
  try norm_num [hj2, hj4, hj8, hj16, hj32, hj64, hj128]
  tauto

theorem colMask_bit3 (a b c d : Nat) :
    (colMask a b c d).testBit 3 =
      (leafGrid a b c d (-4) 0 ||
       leafGrid a b c d (-3) 0 ||
       leafGrid a b c d (-2) 0 ||
       leafGrid a b c d (-1) 0 ||
       leafGrid a b c d 0 0 ||
       leafGrid a b c d 1 0 ||
       leafGrid a b c d 2 0 ||
       leafGrid a b c d 3 0) := by
  simp only [colMask, leafGrid]
  norm_num [tn0, tn1, tn2, tn3, sq4]
  try norm_num [Nat.testBit, Nat.shiftRight_eq_div_pow]
  try rw [Bool.eq_iff_iff]
  have hj2 : ∀ m : Nat, m % 2 / 2 = 0 := fun m => Nat.div_eq_of_lt (by omega)
  have hj4 : ∀ m : Nat, m % 2 / 4 = 0 := fun m => Nat.div_eq_of_lt (by omega)
  have hj8 : ∀ m : Nat, m % 2 / 8 = 0 := fun m => Nat.div_eq_of_lt (by omega)
  have hj16 : ∀ m : Nat, m % 2 / 16 = 0 := fun m => Nat.div_eq_of_lt (by omega)
  have hj32 : ∀ m : Nat, m % 2 / 32 = 0 := fun m => Nat.div_eq_of_lt (by omega)
  have hj64 : ∀ m : Nat, m % 2 / 64 = 0 := fun m => Nat.div_eq_of_lt (by omega)
  have hj128 : ∀ m : Nat, m % 2 / 128 = 0 := fun m => Nat.div_eq_of_lt (by omega)
  try simp only [Bool.or_eq_true, Bool.and_eq_true, beq_iff_eq, decide_eq_true_eq]
  try norm_num [hj2, hj4, hj8, hj16, hj32, hj64, hj128]
  tauto

theorem colMask_bit4 (a b c d : Nat) :
    (colMask a b c d).testBit 4 =
      (leafGrid a b c d (-4) (-1) ||
       leafGrid a b c d (-3) (-1) ||
       leafGrid a b c d (-2) (-1) ||
       leafGrid a b c d (-1) (-1) ||
       leafGrid a b c d 0 (-1) ||
       leafGrid a b c d 1 (-1) ||
       leafGrid a b c d 2 (-1) ||
       leafGrid a b c d 3 (-1)) := by
  simp only [colMask, leafGrid]
  norm_num [tn0, tn1, tn2, tn3, sq4]
  try norm_num [Nat.testBit, Nat.shiftRight_eq_div_pow]
  try rw [Bool.eq_iff_iff]
  have hj2 : ∀ m : Nat, m % 2 / 2 = 0 := fun m => Nat.div_eq_of_lt (by omega)
  have hj4 : ∀ m : Nat, m % 2 / 4 = 0 := fun m => Nat.div_eq_of_lt (by omega)
  have hj8 : ∀ m : Nat, m % 2 / 8 = 0 := fun m => Nat.div_eq_of_lt (by omega)
  have hj16 : ∀ m : Nat, m % 2 / 16 = 0 := fun m => Nat.div_eq_of_lt (by omega)
  have hj32 : ∀ m : Nat, m % 2 / 32 = 0 := fun m => Nat.div_eq_of_lt (by omega)
  have hj64 : ∀ m : Nat, m % 2 / 64 = 0 := fun m => Nat.div_eq_of_lt (by omega)
  have hj128 : ∀ m : Nat, m % 2 / 128 = 0 := fun m => Nat.div_eq_of_lt (by omega)
  try simp only [Bool.or_eq_true, Bool.and_eq_true, beq_iff_eq, decide_eq_true_eq]
  try norm_num [hj2, hj4, hj8, hj16, hj32, hj64, hj128]
  tauto

theorem colMask_bit5 (a b c d : Nat) :
    (colMask a b c d).testBit 5 =
      (leafGrid a b c d (-4) (-2) ||
       leafGrid a b c d (-3) (-2) ||
       leafGrid a b c d (-2) (-2) ||
       leafGrid a b c d (-1) (-2) ||
       leafGrid a b c d 0 (-2) ||
       leafGrid a b c d 1 (-2) ||
       leafGrid a b c d 2 (-2) ||
       leafGrid a b c d 3 (-2)) := by
  simp only [colMask, leafGrid]
  norm_num [tn0, tn1, tn2, tn3, sq4]
  try norm_num [Nat.testBit, Nat.shiftRight_eq_div_pow]
  try rw [Bool.eq_iff_iff]
  have hj2 : ∀ m : Nat, m % 2 / 2 = 0 := fun m => Nat.div_eq_of_lt (by omega)
  have hj4 : ∀ m : Nat, m % 2 / 4 = 0 := fun m => Nat.div_eq_of_lt (by omega)
  have hj8 : ∀ m : Nat, m % 2 / 8 = 0 := fun m => Nat.div_eq_of_lt (by omega)
  have hj16 : ∀ m : Nat, m % 2 / 16 = 0 := fun m => Nat.div_eq_of_lt (by omega)
  have hj32 : ∀ m : Nat, m % 2 / 32 = 0 := fun m => Nat.div_eq_of_lt (by omega)
  have hj64 : ∀ m : Nat, m % 2 / 64 = 0 := fun m => Nat.div_eq_of_lt (by omega)
  have hj128 : ∀ m : Nat, m % 2 / 128 = 0 := fun m => Nat.div_eq_of_lt (by omega)
  try simp only [Bool.or_eq_true, Bool.and_eq_true, beq_iff_eq, decide_eq_true_eq]
  try norm_num [hj2, hj4, hj8, hj16, hj32, hj64, hj128]
  tauto

theorem colMask_bit6 (a b c d : Nat) :
    (colMask a b c d).testBit 6 =
      (leafGrid a b c d (-4) (-3) ||
       leafGrid a b c d (-3) (-3) ||
       leafGrid a b c d (-2) (-3) ||
       leafGrid a b c d (-1) (-3) ||
       leafGrid a b c d 0 (-3) ||
       leafGrid a b c d 1 (-3) ||
       leafGrid a b c d 2 (-3) ||
       leafGrid a b c d 3 (-3)) := by
  simp only [colMask, leafGrid]
  norm_num [tn0, tn1, tn2, tn3, sq4]
  try norm_num [Nat.testBit, Nat.shiftRight_eq_div_pow]
  try rw [Bool.eq_iff_iff]
  have hj2 : ∀ m : Nat, m % 2 / 2 = 0 := fun m => Nat.div_eq_of_lt (by omega)
  have hj4 : ∀ m : Nat, m % 2 / 4 = 0 := fun m => Nat.div_eq_of_lt (by omega)
  have hj8 : ∀ m : Nat, m % 2 / 8 = 0 := fun m => Nat.div_eq_of_lt (by omega)
  have hj16 : ∀ m : Nat, m % 2 / 16 = 0 := fun m => Nat.div_eq_of_lt (by omega)
  have hj32 : ∀ m : Nat, m % 2 / 32 = 0 := fun m => Nat.div_eq_of_lt (by omega)
  have hj64 : ∀ m : Nat, m % 2 / 64 = 0 := fun m => Nat.div_eq_of_lt (by omega)
  have hj128 : ∀ m : Nat, m % 2 / 128 = 0 := fun m => Nat.div_eq_of_lt (by omega)
  try simp only [Bool.or_eq_true, Bool.and_eq_true, beq_iff_eq, decide_eq_true_eq]
  try norm_num [hj2, hj4, hj8, hj16, hj32, hj64, hj128]
  tauto

theorem colMask_bit7 (a b c d : Nat) :
    (colMask a b c d).testBit 7 =
      (leafGrid a b c d (-4) (-4) ||
       leafGrid a b c d (-3) (-4) ||
       leafGrid a b c d (-2) (-4) ||
       leafGrid a b c d (-1) (-4) ||
       leafGrid a b c d 0 (-4) ||
       leafGrid a b c d 1 (-4) ||
       leafGrid a b c d 2 (-4) ||
       leafGrid a b c d 3 (-4)) := by
  simp only [colMask, leafGrid]
  norm_num [tn0, tn1, tn2, tn3, sq4]
  try norm_num [Nat.testBit, Nat.shiftRight_eq_div_pow]
  try rw [Bool.eq_iff_iff]
  have hj2 : ∀ m : Nat, m % 2 / 2 = 0 := fun m => Nat.div_eq_of_lt (by omega)
  have hj4 : ∀ m : Nat, m % 2 / 4 = 0 := fun m => Nat.div_eq_of_lt (by omega)
  have hj8 : ∀ m : Nat, m % 2 / 8 = 0 := fun m => Nat.div_eq_of_lt (by omega)
  have hj16 : ∀ m : Nat, m % 2 / 16 = 0 := fun m => Nat.div_eq_of_lt (by omega)
  have hj32 : ∀ m : Nat, m % 2 / 32 = 0 := fun m => Nat.div_eq_of_lt (by omega)
  have hj64 : ∀ m : Nat, m % 2 / 64 = 0 := fun m => Nat.div_eq_of_lt (by omega)
  have hj128 : ∀ m : Nat, m % 2 / 128 = 0 := fun m => Nat.div_eq_of_lt (by omega)
  try simp only [Bool.or_eq_true, Bool.and_eq_true, beq_iff_eq, decide_eq_true_eq]
  try norm_num [hj2, hj4, hj8, hj16, hj32, hj64, hj128]
  tauto

set_option maxRecDepth 40000 in
theorem byteRange_mem : ∀ m, m < 256 → ∀ i : Nat, i < 8 → m.testBit i = true →
    (byteRange m).1 ≤ 3 - (i : Int) ∧ 3 - (i : Int) < (byteRange m).2 := by decide

set_option maxRecDepth 40000 in
theorem byteRange_left_attain : ∀ m, m < 256 → m ≠ 0 →
    ∃ i : Nat, i < 8 ∧ m.testBit i = true ∧ (byteRange m).1 = 3 - (i : Int) := by decide

set_option maxRecDepth 40000 in
theorem byteRange_right_attain : ∀ m, m < 256 → m ≠ 0 →
    ∃ i : Nat, i < 8 ∧ m.testBit i = true ∧ (byteRange m).2 = 3 - (i : Int) + 1 := by decide

theorem leafGrid_inrange (a b c d : Nat) (x y : Int)
    (hx : leafGrid a b c d x y = true) :
    -4 ≤ x ∧ x < 4 ∧ -4 ≤ y ∧ y < 4 := by
  refine ⟨?_, ?_, ?_, ?_⟩ <;> by_contra h <;>
    rw [leafGrid_out a b c d x y (by omega)] at hx <;> simp at hx

theorem rowMask_of_live (a b c d : Nat) (x y : Int)
    (hx : leafGrid a b c d x y = true) :
    (rowMask a b c d).testBit (3 - x).toNat = true := by
  have hr := leafGrid_inrange a b c d x y hx
  have h8 : x = -4 ∨ x = -3 ∨ x = -2 ∨ x = -1 ∨ x = 0 ∨ x = 1 ∨ x = 2 ∨ x = 3 := by omega
  rcases h8 with rfl | rfl | rfl | rfl | rfl | rfl | rfl | rfl
  · rw [show ((3 : Int) - (-4)).toNat = 7 from rfl, rowMask_bit7 a b c d]
    exact (exists_y8 a b c d (-4)).mp ⟨y, hx⟩
  · rw [show ((3 : Int) - (-3)).toNat = 6 from rfl, rowMask_bit6 a b c d]
    exact (exists_y8 a b c d (-3)).mp ⟨y, hx⟩
  · rw [show ((3 : Int) - (-2)).toNat = 5 from rfl, rowMask_bit5 a b c d]
    exact (exists_y8 a b c d (-2)).mp ⟨y, hx⟩
  · rw [show ((3 : Int) - (-1)).toNat = 4 from rfl, rowMask_bit4 a b c d]
    exact (exists_y8 a b c d (-1)).mp ⟨y, hx⟩
  · rw [show ((3 : Int) - 0).toNat = 3 from rfl, rowMask_bit3 a b c d]
    exact (exists_y8 a b c d 0).mp ⟨y, hx⟩
  · rw [show ((3 : Int) - 1).toNat = 2 from rfl, rowMask_bit2 a b c d]
    exact (exists_y8 a b c d 1).mp ⟨y, hx⟩
  · rw [show ((3 : Int) - 2).toNat = 1 from rfl, rowMask_bit1 a b c d]
    exact (exists_y8 a b c d 2).mp ⟨y, hx⟩
  · rw [show ((3 : Int) - 3).toNat = 0 from rfl, rowMask_bit0 a b c d]
    exact (exists_y8 a b c d 3).mp ⟨y, hx⟩

theorem colMask_of_live (a b c d : Nat) (x y : Int)
    (hx : leafGrid a b c d x y = true) :
    (colMask a b c d).testBit (3 - y).toNat = true := by
  have hr := leafGrid_inrange a b c d x y hx
  have h8 : y = -4 ∨ y = -3 ∨ y = -2 ∨ y = -1 ∨ y = 0 ∨ y = 1 ∨ y = 2 ∨ y = 3 := by omega
  rcases h8 with rfl | rfl | rfl | rfl | rfl | rfl | rfl | rfl
  · rw [show ((3 : Int) - (-4)).toNat = 7 from rfl, colMask_bit7 a b c d]
    exact (exists_x8 a b c d (-4)).mp ⟨x, hx⟩
  · rw [show ((3 : Int) - (-3)).toNat = 6 from rfl, colMask_bit6 a b c d]
    exact (exists_x8 a b c d (-3)).mp ⟨x, hx⟩
  · rw [show ((3 : Int) - (-2)).toNat = 5 from rfl, colMask_bit5 a b c d]
    exact (exists_x8 a b c d (-2)).mp ⟨x, hx⟩
  · rw [show ((3 : Int) - (-1)).toNat = 4 from rfl, colMask_bit4 a b c d]
    exact (exists_x8 a b c d (-1)).mp ⟨x, hx⟩
  · rw [show ((3 : Int) - 0).toNat = 3 from rfl, colMask_bit3 a b c d]
    exact (exists_x8 a b c d 0).mp ⟨x, hx⟩
  · rw [show ((3 : Int) - 1).toNat = 2 from rfl, colMask_bit2 a b c d]
    exact (exists_x8 a b c d 1).mp ⟨x, hx⟩
  · rw [show ((3 : Int) - 2).toNat = 1 from rfl, colMask_bit1 a b c d]
    exact (exists_x8 a b c d 2).mp ⟨x, hx⟩
  · rw [show ((3 : Int) - 3).toNat = 0 from rfl, colMask_bit0 a b c d]
    exact (exists_x8 a b c d 3).mp ⟨x, hx⟩

theorem rowMask_attain (a b c d : Nat) (i : Nat) (hi : i < 8)
    (h : (rowMask a b c d).testBit i = true) :
    ∃ y, leafGrid a b c d (3 - (i : Int)) y = true := by
  interval_cases i
  · rw [rowMask_bit0 a b c d] at h
    rw [show (3 : Int) - ((0 : Nat) : Int) = 3 from by norm_num]
    exact (exists_y8 a b c d 3).mpr h
  · rw [rowMask_bit1 a b c d] at h
    rw [show (3 : Int) - ((1 : Nat) : Int) = 2 from by norm_num]
    exact (exists_y8 a b c d 2).mpr h
  · rw [rowMask_bit2 a b c d] at h
    rw [show (3 : Int) - ((2 : Nat) : Int) = 1 from by norm_num]
    exact (exists_y8 a b c d 1).mpr h
  · rw [rowMask_bit3 a b c d] at h
    rw [show (3 : Int) - ((3 : Nat) : Int) = 0 from by norm_num]
    exact (exists_y8 a b c d 0).mpr h
  · rw [rowMask_bit4 a b c d] at h
    rw [show (3 : Int) - ((4 : Nat) : Int) = (-1) from by norm_num]
    exact (exists_y8 a b c d (-1)).mpr h
  · rw [rowMask_bit5 a b c d] at h
    rw [show (3 : Int) - ((5 : Nat) : Int) = (-2) from by norm_num]
    exact (exists_y8 a b c d (-2)).mpr h
  · rw [rowMask_bit6 a b c d] at h
    rw [show (3 : Int) - ((6 : Nat) : Int) = (-3) from by norm_num]
    exact (exists_y8 a b c d (-3)).mpr h
  · rw [rowMask_bit7 a b c d] at h
    rw [show (3 : Int) - ((7 : Nat) : Int) = (-4) from by norm_num]
    exact (exists_y8 a b c d (-4)).mpr h

theorem colMask_attain (a b c d : Nat) (i : Nat) (hi : i < 8)
    (h : (colMask a b c d).testBit i = true) :
    ∃ x, leafGrid a b c d x (3 - (i : Int)) = true := by
  interval_cases i
  · rw [colMask_bit0 a b c d] at h
    rw [show (3 : Int) - ((0 : Nat) : Int) = 3 from by norm_num]
    exact (exists_x8 a b c d 3).mpr h
  · rw [colMask_bit1 a b c d] at h
    rw [show (3 : Int) - ((1 : Nat) : Int) = 2 from by norm_num]
    exact (exists_x8 a b c d 2).mpr h
  · rw [colMask_bit2 a b c d] at h
    rw [show (3 : Int) - ((2 : Nat) : Int) = 1 from by norm_num]
    exact (exists_x8 a b c d 1).mpr h
  · rw [colMask_bit3 a b c d] at h
    rw [show (3 : Int) - ((3 : Nat) : Int) = 0 from by norm_num]
    exact (exists_x8 a b c d 0).mpr h
  · rw [colMask_bit4 a b c d] at h
    rw [show (3 : Int) - ((4 : Nat) : Int) = (-1) from by norm_num]
    exact (exists_x8 a b c d (-1)).mpr h
  · rw [colMask_bit5 a b c d] at h
    rw [show (3 : Int) - ((5 : Nat) : Int) = (-2) from by norm_num]
    exact (exists_x8 a b c d (-2)).mpr h
  · rw [colMask_bit6 a b c d] at h
    rw [show (3 : Int) - ((6 : Nat) : Int) = (-3) from by norm_num]
    exact (exists_x8 a b c d (-3)).mpr h
  · rw [colMask_bit7 a b c d] at h
    rw [show (3 : Int) - ((7 : Nat) : Int) = (-4) from by norm_num]
    exact (exists_x8 a b c d (-4)).mpr h

theorem leafGrid_zero (x y : Int) : leafGrid 0 0 0 0 x y = false := by
  unfold leafGrid sq4
  split_ifs <;> simp

theorem or_lt_256 (u v : Nat) (hu : u < 256) (hv : v < 256) : u ||| v < 256 := by
  have h1 : u ||| v < 2 ^ 8 := Nat.or_lt_two_pow hu hv
  simpa using h1

theorem rowMask_lt (a b c d : Nat) : rowMask a b c d < 256 := by
  simp only [rowMask]
  have h1 : ((a ||| c) >>> 8 ||| (a ||| c) >>> 4 ||| (a ||| c) ||| (a ||| c) <<< 4) &&& 240 ≤ 240 :=
    Nat.and_le_right
  have h2 : ((b ||| d) >>> 12 ||| (b ||| d) >>> 8 ||| (b ||| d) >>> 4 ||| (b ||| d)) &&& 15 ≤ 15 :=
    Nat.and_le_right
  exact or_lt_256 _ _ (by omega) (by omega)

theorem colMask_lt (a b c d : Nat) : colMask a b c d < 256 := by
  simp only [colMask]
  have k1 : ∀ u m : Nat, m ≤ 255 → u &&& m ≤ 255 := by
    intro u m hm
    have h : u &&& m ≤ m := Nat.and_le_right
    omega
  have h1 := k1 ((a ||| b ||| (a ||| b) >>> 1 ||| (a ||| b) >>> 2 ||| (a ||| b) >>> 3) >>> 5) 0x80 (by norm_num)
  have h2 := k1 ((a ||| b ||| (a ||| b) >>> 1 ||| (a ||| b) >>> 2 ||| (a ||| b) >>> 3) >>> 2) 0x40 (by norm_num)
  have h3 := k1 ((a ||| b ||| (a ||| b) >>> 1 ||| (a ||| b) >>> 2 ||| (a ||| b) >>> 3) <<< 1) 0x20 (by norm_num)
  have h4 := k1 ((a ||| b ||| (a ||| b) >>> 1 ||| (a ||| b) >>> 2 ||| (a ||| b) >>> 3) <<< 4) 0x10 (by norm_num)
  have h5 := k1 ((c ||| d ||| (c ||| d) >>> 1 ||| (c ||| d) >>> 2 ||| (c ||| d) >>> 3) >>> 9) 0x8 (by norm_num)
  have h6 := k1 ((c ||| d ||| (c ||| d) >>> 1 ||| (c ||| d) >>> 2 ||| (c ||| d) >>> 3) >>> 6) 0x4 (by norm_num)
  have h7 := k1 ((c ||| d ||| (c ||| d) >>> 1 ||| (c ||| d) >>> 2 ||| (c ||| d) >>> 3) >>> 3) 0x2 (by norm_num)
  have h8 := k1 (c ||| d ||| (c ||| d) >>> 1 ||| (c ||| d) >>> 2 ||| (c ||| d) >>> 3) 0x1 (by norm_num)
  have o := or_lt_256
  exact o _ _ (o _ _ (o _ _ (o _ _ (o _ _ (o _ _ (o _ _ (by omega) (by omega)) (by omega)) (by omega)) (by omega)) (by omega)) (by omega)) (by omega)

theorem leafGrid_nw (a b c d : Nat) (cx cy : Nat) (h1 : cx < 4) (h2 : cy < 4) :
    leafGrid a b c d ((cx : Int) - 4) ((cy : Int) - 4) = a.testBit (15 - (cx + 4 * cy)) := by
  unfold leafGrid
  rw [if_pos (show ((cx : Int) - 4) < 0 from by omega),
      if_pos (show ((cy : Int) - 4) < 0 from by omega)]
  unfold sq4
  rw [if_pos ⟨by omega, by omega, by omega, by omega⟩]
  congr 1
  have e1 : ((cx : Int) - 4 + 4) = (cx : Int) := by ring
  have e2 : ((cy : Int) - 4 + 4) = (cy : Int) := by ring
  rw [e1, e2]
  simp

theorem leafGrid_ne (a b c d : Nat) (cx cy : Nat) (h1 : cx < 4) (h2 : cy < 4) :
    leafGrid a b c d (cx : Int) ((cy : Int) - 4) = b.testBit (15 - (cx + 4 * cy)) := by
  unfold leafGrid
  rw [if_neg (show ¬ ((cx : Int) < 0) from by omega),
      if_pos (show ((cy : Int) - 4) < 0 from by omega)]
  unfold sq4
  rw [if_pos ⟨by omega, by omega, by omega, by omega⟩]
  congr 1
  have e2 : ((cy : Int) - 4 + 4) = (cy : Int) := by ring
  rw [e2]
  simp

theorem leafGrid_sw (a b c d : Nat) (cx cy : Nat) (h1 : cx < 4) (h2 : cy < 4) :
    leafGrid a b c d ((cx : Int) - 4) (cy : Int) = c.testBit (15 - (cx + 4 * cy)) := by
  unfold leafGrid
  rw [if_pos (show ((cx : Int) - 4) < 0 from by omega),
      if_neg (show ¬ ((cy : Int) < 0) from by omega)]
  unfold sq4
  rw [if_pos ⟨by omega, by omega, by omega, by omega⟩]
  congr 1
  have e1 : ((cx : Int) - 4 + 4) = (cx : Int) := by ring
  rw [e1]
  simp

theorem leafGrid_se (a b c d : Nat) (cx cy : Nat) (h1 : cx < 4) (h2 : cy < 4) :
    leafGrid a b c d (cx : Int) (cy : Int) = d.testBit (15 - (cx + 4 * cy)) := by
  unfold leafGrid
  rw [if_neg (show ¬ ((cx : Int) < 0) from by omega),
      if_neg (show ¬ ((cy : Int) < 0) from by omega)]
  unfold sq4
  rw [if_pos ⟨by omega, by omega, by omega, by omega⟩]
  simp

theorem quad_zero_of_dead (q : Nat) (hq : q < 65536)
    (f : Nat → Nat → Bool)
    (hf : ∀ cx cy, cx < 4 → cy < 4 → f cx cy = q.testBit (15 - (cx + 4 * cy)))
    (hno : ∀ cx cy, cx < 4 → cy < 4 → f cx cy = false) : q = 0 := by
  apply Nat.eq_of_testBit_eq
  intro i
  rw [Nat.zero_testBit]
  by_cases hi : i < 16
  · have hcx : (15 - i) % 4 < 4 := by omega
    have hcy : (15 - i) / 4 < 4 := by omega
    have h := hf ((15 - i) % 4) ((15 - i) / 4) hcx hcy
    rw [hno _ _ hcx hcy] at h
    have hidx : 15 - ((15 - i) % 4 + 4 * ((15 - i) / 4)) = i := by omega
    rw [hidx] at h
    exact h.symm
  · apply Nat.testBit_lt_two_pow
    have h216 : (65536 : Nat) ≤ 2 ^ i := by
      calc (65536 : Nat) = 2 ^ 16 := by norm_num
        _ ≤ 2 ^ i := Nat.pow_le_pow_right (by norm_num) (by omega)
    omega

theorem leaf_live_of_ne_zero (a b c d : Nat)
    (ha : a < 65536) (hb : b < 65536) (hc : c < 65536) (hd : d < 65536)
    (h : ¬ (a = 0 ∧ b = 0 ∧ c = 0 ∧ d = 0)) :
    ∃ x y, leafGrid a b c d x y = true := by
  by_contra hno
  push_neg at hno
  simp only [Bool.not_eq_true] at hno
  apply h
  refine ⟨?_, ?_, ?_, ?_⟩
  · exact quad_zero_of_dead a ha (fun cx cy => leafGrid a b c d ((cx : Int) - 4) ((cy : Int) - 4))
      (fun cx cy h1 h2 => leafGrid_nw a b c d cx cy h1 h2)
      (fun cx cy h1 h2 => hno _ _)
  · exact quad_zero_of_dead b hb (fun cx cy => leafGrid a b c d (cx : Int) ((cy : Int) - 4))
      (fun cx cy h1 h2 => leafGrid_ne a b c d cx cy h1 h2)
      (fun cx cy h1 h2 => hno _ _)
  · exact quad_zero_of_dead c hc (fun cx cy => leafGrid a b c d ((cx : Int) - 4) (cy : Int))
      (fun cx cy h1 h2 => leafGrid_sw a b c d cx cy h1 h2)
      (fun cx cy h1 h2 => hno _ _)
  · exact quad_zero_of_dead d hd (fun cx cy => leafGrid a b c d (cx : Int) (cy : Int))
      (fun cx cy h1 h2 => leafGrid_se a b c d cx cy h1 h2)
      (fun cx cy h1 h2 => hno _ _)

theorem boxOk_congr (S T : Int → Int → Prop) (B : Int × Int × Int × Int)
    (h : ∀ x y, S x y ↔ T x y) (hS : boxOk S B) : boxOk T B := by
  obtain ⟨h1, h2⟩ := hS
  refine ⟨fun x y ht => h1 x y ((h x y).mpr ht), ?_⟩
  rcases h2 with ⟨hE, hno⟩ |
    ⟨⟨x1, y1, hs1, he1⟩, ⟨x2, y2, hs2, he2⟩, ⟨x3, y3, hs3, he3⟩, ⟨x4, y4, hs4, he4⟩,
     hb1, hb2, hb3, hb4⟩
  · exact Or.inl ⟨hE, fun x y ht => hno x y ((h x y).mpr ht)⟩
  · exact Or.inr ⟨⟨x1, y1, (h _ _).mp hs1, he1⟩, ⟨x2, y2, (h _ _).mp hs2, he2⟩,
      ⟨x3, y3, (h _ _).mp hs3, he3⟩, ⟨x4, y4, (h _ _).mp hs4, he4⟩, hb1, hb2, hb3, hb4⟩

theorem boxOk_union (S T : Int → Int → Prop) (B C : Int × Int × Int × Int)
    (hS : boxOk S B) (hT : boxOk T C) :
    boxOk (fun x y => S x y ∨ T x y)
      (min B.1 C.1, min B.2.1 C.2.1, max B.2.2.1 C.2.2.1, max B.2.2.2 C.2.2.2) := by
  obtain ⟨bl, bt, br, bb⟩ := B
  obtain ⟨cl, ct, cr, cb⟩ := C
  obtain ⟨hSin, hSc⟩ := hS
  obtain ⟨hTin, hTc⟩ := hT
  dsimp only [boxOk] at hSin hTin hSc hTc ⊢
  constructor
  · rintro x y (h | h)
    · obtain ⟨u1, u2, u3, u4⟩ := hSin x y h
      exact ⟨by omega, by omega, by omega, by omega⟩
    · obtain ⟨u1, u2, u3, u4⟩ := hTin x y h
      exact ⟨by omega, by omega, by omega, by omega⟩
  rcases hSc with ⟨hE1, hno1⟩ |
    ⟨⟨x1, y1, hs1, he1⟩, ⟨x2, y2, hs2, he2⟩, ⟨x3, y3, hs3, he3⟩, ⟨x4, y4, hs4, he4⟩,
     sb1, sb2, sb3, sb4⟩
  · rcases hTc with ⟨hE2, hno2⟩ |
      ⟨⟨p1, q1, ht1, hf1⟩, ⟨p2, q2, ht2, hf2⟩, ⟨p3, q3, ht3, hf3⟩, ⟨p4, q4, ht4, hf4⟩,
       tb1, tb2, tb3, tb4⟩
    · simp only [EMPTY_BOUNDARY, Prod.mk.injEq] at hE1 hE2 ⊢
      obtain ⟨e1, e2, e3, e4⟩ := hE1
      obtain ⟨f1, f2, f3, f4⟩ := hE2
      refine Or.inl ⟨⟨by omega, by omega, by omega⟩, ?_⟩
      rintro x y (h | h)
      exacts [hno1 x y h, hno2 x y h]
    · simp only [EMPTY_BOUNDARY, Prod.mk.injEq] at hE1
      obtain ⟨e1, e2, e3, e4⟩ := hE1
      refine Or.inr ⟨⟨p1, q1, Or.inr ht1, by omega⟩, ⟨p2, q2, Or.inr ht2, by omega⟩,
        ⟨p3, q3, Or.inr ht3, by omega⟩, ⟨p4, q4, Or.inr ht4, by omega⟩,
        by omega, by omega, by omega, by omega⟩
  · rcases hTc with ⟨hE2, hno2⟩ |
      ⟨⟨p1, q1, ht1, hf1⟩, ⟨p2, q2, ht2, hf2⟩, ⟨p3, q3, ht3, hf3⟩, ⟨p4, q4, ht4, hf4⟩,
       tb1, tb2, tb3, tb4⟩
    · simp only [EMPTY_BOUNDARY, Prod.mk.injEq] at hE2
      obtain ⟨f1, f2, f3, f4⟩ := hE2
      refine Or.inr ⟨⟨x1, y1, Or.inl hs1, by omega⟩, ⟨x2, y2, Or.inl hs2, by omega⟩,
        ⟨x3, y3, Or.inl hs3, by omega⟩, ⟨x4, y4, Or.inl hs4, by omega⟩,
        by omega, by omega, by omega, by omega⟩
    · refine Or.inr ⟨?_, ?_, ?_, ?_, by omega, by omega, by omega, by omega⟩
      · rcases le_total bl cl with h | h
        · exact ⟨x1, y1, Or.inl hs1, by omega⟩
        · exact ⟨p1, q1, Or.inr ht1, by omega⟩
      · rcases le_total br cr with h | h
        · exact ⟨p2, q2, Or.inr ht2, by omega⟩
        · exact ⟨x2, y2, Or.inl hs2, by omega⟩
      · rcases le_total bt ct with h | h
        · exact ⟨x3, y3, Or.inl hs3, by omega⟩
        · exact ⟨p3, q3, Or.inr ht3, by omega⟩
      · rcases le_total bb cb with h | h
        · exact ⟨p4, q4, Or.inr ht4, by omega⟩
        · exact ⟨x4, y4, Or.inl hs4, by omega⟩

theorem toGrid_union (a b c d : QTree) (hw : wfT (QTree.internal a b c d) = true) (x y : Int) :
    toGrid (QTree.internal a b c d) x y =
      (toGrid a (x + 2 ^ (levelT a - 1)) (y + 2 ^ (levelT a - 1)) ||
       toGrid b (x - 2 ^ (levelT a - 1)) (y + 2 ^ (levelT a - 1)) ||
       toGrid c (x + 2 ^ (levelT a - 1)) (y - 2 ^ (levelT a - 1)) ||
       toGrid d (x - 2 ^ (levelT a - 1)) (y - 2 ^ (levelT a - 1))) := by
  simp only [wfT, Bool.and_eq_true, beq_iff_eq] at hw
  obtain ⟨⟨⟨⟨⟨⟨hwa, hwb⟩, hwc⟩, hwd⟩, hlb⟩, hlc⟩, hld⟩ := hw
  have hp := two_pow_pos (levelT a - 1)
  simp only [toGrid]
  set r := (2 : Int) ^ (levelT a - 1) with hrdef
  split <;> split
  · rw [toGrid_out b _ _ hwb (by rw [hlb, ← hrdef]; omega),
        toGrid_out c _ _ hwc (by rw [hlc, ← hrdef]; omega),
        toGrid_out d _ _ hwd (by rw [hld, ← hrdef]; omega)]
    simp
  · rw [toGrid_out a _ _ hwa (by omega),
        toGrid_out c _ _ hwc (by rw [hlc, ← hrdef]; omega),
        toGrid_out d _ _ hwd (by rw [hld, ← hrdef]; omega)]
    simp
  · rw [toGrid_out a _ _ hwa (by omega),
        toGrid_out b _ _ hwb (by rw [hlb, ← hrdef]; omega),
        toGrid_out d _ _ hwd (by rw [hld, ← hrdef]; omega)]
    simp
  · rw [toGrid_out a _ _ hwa (by omega),
        toGrid_out b _ _ hwb (by rw [hlb, ← hrdef]; omega),
        toGrid_out c _ _ hwc (by rw [hlc, ← hrdef]; omega)]
    simp

theorem boundaryRec_ok : ∀ t : QTree, wfT t = true → ∀ ox oy : Int,
    -I64MAX + 2 ^ (levelT t - 1) ≤ ox → ox ≤ I64MAX - 2 ^ (levelT t - 1) →
    -I64MAX + 2 ^ (levelT t - 1) ≤ oy → oy ≤ I64MAX - 2 ^ (levelT t - 1) →
    boxOk (fun X Y => toGrid t (X - ox) (Y - oy) = true) (boundaryRec t ox oy) := by
  intro t
  induction t with
  | leaf a b c d =>
      intro hw ox oy ho1 ho2 ho3 ho4
      simp only [wfT, Bool.and_eq_true, decide_eq_true_eq] at hw
      obtain ⟨⟨⟨ha, hb⟩, hc⟩, hd⟩ := hw
      have hMM : I64MIN < -I64MAX := by norm_num [I64MIN, I64MAX]
      have hlev : (2 : Int) ^ (levelT (QTree.leaf a b c d) - 1) = 4 := rfl
      rw [hlev] at ho1 ho2 ho3 ho4
      by_cases he : QTree.leaf a b c d = emptyT 3
      · rw [show boundaryRec (QTree.leaf a b c d) ox oy = EMPTY_BOUNDARY from by
          simp only [boundaryRec]
          rw [if_pos he]]
        have hz : a = 0 ∧ b = 0 ∧ c = 0 ∧ d = 0 := by
          simpa only [emptyT, QTree.leaf.injEq] using he
        obtain ⟨rfl, rfl, rfl, rfl⟩ := hz
        dsimp only [boxOk]
        refine ⟨?_, Or.inl ⟨rfl, ?_⟩⟩
        · intro X Y hXY
          rw [show toGrid (QTree.leaf 0 0 0 0) (X - ox) (Y - oy) = false from
            leafGrid_zero _ _] at hXY
          simp at hXY
        · intro X Y hXY
          rw [show toGrid (QTree.leaf 0 0 0 0) (X - ox) (Y - oy) = false from
            leafGrid_zero _ _] at hXY
          simp at hXY
      · have hne : ¬ (a = 0 ∧ b = 0 ∧ c = 0 ∧ d = 0) := by
          intro hz
          obtain ⟨rfl, rfl, rfl, rfl⟩ := hz
          exact he rfl
        obtain ⟨x0, y0, hlive0⟩ := leaf_live_of_ne_zero a b c d ha hb hc hd hne
        rw [show boundaryRec (QTree.leaf a b c d) ox oy =
            ((byteRange (rowMask a b c d)).1 + ox, (byteRange (colMask a b c d)).1 + oy,
             (byteRange (rowMask a b c d)).2 + ox, (byteRange (colMask a b c d)).2 + oy) from by
          simp only [boundaryRec]
          rw [if_neg he]]
        dsimp only [boxOk]
        constructor
        · intro X Y hXY
          have hXY' : leafGrid a b c d (X - ox) (Y - oy) = true := hXY
          have hr := leafGrid_inrange _ _ _ _ _ _ hXY'
          have hrow := rowMask_of_live a b c d _ _ hXY'
          have hcol := colMask_of_live a b c d _ _ hXY'
          have hm1 := byteRange_mem (rowMask a b c d) (rowMask_lt a b c d)
            ((3 - (X - ox)).toNat) (by omega) hrow
          have hm2 := byteRange_mem (colMask a b c d) (colMask_lt a b c d)
            ((3 - (Y - oy)).toNat) (by omega) hcol
          have hxx : (3 : Int) - (((3 - (X - ox)).toNat : Nat) : Int) = X - ox := by omega
          have hyy : (3 : Int) - (((3 - (Y - oy)).toNat : Nat) : Int) = Y - oy := by omega
          rw [hxx] at hm1
          rw [hyy] at hm2
          obtain ⟨hm1a, hm1b⟩ := hm1
          obtain ⟨hm2a, hm2b⟩ := hm2
          exact ⟨by omega, by omega, by omega, by omega⟩
        · right
          have hrow0 := rowMask_of_live a b c d _ _ hlive0
          have hrne : rowMask a b c d ≠ 0 := by
            intro h0
            rw [h0] at hrow0
            simp [Nat.zero_testBit] at hrow0
          have hcol0 := colMask_of_live a b c d _ _ hlive0
          have hcne : colMask a b c d ≠ 0 := by
            intro h0
            rw [h0] at hcol0
            simp [Nat.zero_testBit] at hcol0
          obtain ⟨iL, hiL, hbitL, heqL⟩ := byteRange_left_attain _ (rowMask_lt a b c d) hrne
          obtain ⟨iR, hiR, hbitR, heqR⟩ := byteRange_right_attain _ (rowMask_lt a b c d) hrne
          obtain ⟨iT, hiT, hbitT, heqT⟩ := byteRange_left_attain _ (colMask_lt a b c d) hcne
          obtain ⟨iB, hiB, hbitB, heqB⟩ := byteRange_right_attain _ (colMask_lt a b c d) hcne
          obtain ⟨yL, hyL⟩ := rowMask_attain a b c d iL hiL hbitL
          obtain ⟨yR, hyR⟩ := rowMask_attain a b c d iR hiR hbitR
          obtain ⟨xT, hxT⟩ := colMask_attain a b c d iT hiT hbitT
          obtain ⟨xB, hxB⟩ := colMask_attain a b c d iB hiB hbitB
          have hyLr := leafGrid_inrange _ _ _ _ _ _ hyL
          have hyRr := leafGrid_inrange _ _ _ _ _ _ hyR
          have hxTr := leafGrid_inrange _ _ _ _ _ _ hxT
          have hxBr := leafGrid_inrange _ _ _ _ _ _ hxB
          refine ⟨⟨3 - (iL : Int) + ox, yL + oy, ?_, by omega⟩,
                  ⟨3 - (iR : Int) + ox, yR + oy, ?_, by omega⟩,
                  ⟨xT + ox, 3 - (iT : Int) + oy, ?_, by omega⟩,
                  ⟨xB + ox, 3 - (iB : Int) + oy, ?_, by omega⟩,
                  by omega, by omega, by omega, by omega⟩
          · show toGrid (QTree.leaf a b c d) (3 - (iL : Int) + ox - ox) (yL + oy - oy) = true
            rw [show (3 - (iL : Int) + ox - ox) = 3 - (iL : Int) from by ring,
                show (yL + oy - oy) = yL from by ring]
            exact hyL
          · show toGrid (QTree.leaf a b c d) (3 - (iR : Int) + ox - ox) (yR + oy - oy) = true
            rw [show (3 - (iR : Int) + ox - ox) = 3 - (iR : Int) from by ring,
                show (yR + oy - oy) = yR from by ring]
            exact hyR
          · show toGrid (QTree.leaf a b c d) (xT + ox - ox) (3 - (iT : Int) + oy - oy) = true
            rw [show (xT + ox - ox) = xT from by ring,
                show (3 - (iT : Int) + oy - oy) = 3 - (iT : Int) from by ring]
            exact hxT
          · show toGrid (QTree.leaf a b c d) (xB + ox - ox) (3 - (iB : Int) + oy - oy) = true
            rw [show (xB + ox - ox) = xB from by ring,
                show (3 - (iB : Int) + oy - oy) = 3 - (iB : Int) from by ring]
            exact hxB
  | internal a b c d iha ihb ihc ihd =>
      intro hw ox oy ho1 ho2 ho3 ho4
      have hwo := hw
      simp only [wfT, Bool.and_eq_true, beq_iff_eq] at hw
      obtain ⟨⟨⟨⟨⟨⟨hwa, hwb⟩, hwc⟩, hwd⟩, hlb⟩, hlc⟩, hld⟩ := hw
      have h3 := levelT_ge a
      have hp := two_pow_pos (levelT a - 1)
      by_cases he : QTree.internal a b c d = emptyT (levelT (QTree.internal a b c d))
      · rw [show boundaryRec (QTree.internal a b c d) ox oy = EMPTY_BOUNDARY from by
          simp only [boundaryRec]
          rw [if_pos he]]
        dsimp only [boxOk]
        refine ⟨?_, Or.inl ⟨rfl, ?_⟩⟩
        · intro X Y hXY
          rw [he, toGrid_emptyT] at hXY
          simp at hXY
        · intro X Y hXY
          rw [he, toGrid_emptyT] at hXY
          simp at hXY
      · simp only [levelT] at ho1 ho2 ho3 ho4
        rw [two_pow_shift (levelT a) (by omega)] at ho1 ho2 ho3 ho4
        have hlb2 : (2 : Int) ^ (levelT b - 1) = 2 ^ (levelT a - 1) := by rw [hlb]
        have hlc2 : (2 : Int) ^ (levelT c - 1) = 2 ^ (levelT a - 1) := by rw [hlc]
        have hld2 : (2 : Int) ^ (levelT d - 1) = 2 ^ (levelT a - 1) := by rw [hld]
        have Ba := iha hwa (ox - 2 ^ (levelT a - 1)) (oy - 2 ^ (levelT a - 1))
          (by omega) (by omega) (by omega) (by omega)
        have Bb := ihb hwb (ox + 2 ^ (levelT b - 1)) (oy - 2 ^ (levelT b - 1))
          (by rw [hlb2]; omega) (by rw [hlb2]; omega) (by rw [hlb2]; omega) (by rw [hlb2]; omega)
        have Bc := ihc hwc (ox - 2 ^ (levelT c - 1)) (oy + 2 ^ (levelT c - 1))
          (by rw [hlc2]; omega) (by rw [hlc2]; omega) (by rw [hlc2]; omega) (by rw [hlc2]; omega)
        have Bd := ihd hwd (ox + 2 ^ (levelT d - 1)) (oy + 2 ^ (levelT d - 1))
          (by rw [hld2]; omega) (by rw [hld2]; omega) (by rw [hld2]; omega) (by rw [hld2]; omega)
        rw [hlb2] at Bb
        rw [hlc2] at Bc
        rw [hld2] at Bd
        have hAB := boxOk_union _ _ _ _ Ba Bb
        have hCD := boxOk_union _ _ _ _ Bc Bd
        have hcomb := boxOk_union _ _ _ _ hAB hCD
        dsimp only at hcomb
        rw [show boundaryRec (QTree.internal a b c d) ox oy =
            (min (min (boundaryRec a (ox - 2 ^ (levelT a - 1)) (oy - 2 ^ (levelT a - 1))).1
                      (boundaryRec b (ox + 2 ^ (levelT a - 1)) (oy - 2 ^ (levelT a - 1))).1)
                 (min (boundaryRec c (ox - 2 ^ (levelT a - 1)) (oy + 2 ^ (levelT a - 1))).1
                      (boundaryRec d (ox + 2 ^ (levelT a - 1)) (oy + 2 ^ (levelT a - 1))).1),
             min (min (boundaryRec a (ox - 2 ^ (levelT a - 1)) (oy - 2 ^ (levelT a - 1))).2.1
                      (boundaryRec b (ox + 2 ^ (levelT a - 1)) (oy - 2 ^ (levelT a - 1))).2.1)
                 (min (boundaryRec c (ox - 2 ^ (levelT a - 1)) (oy + 2 ^ (levelT a - 1))).2.1
                      (boundaryRec d (ox + 2 ^ (levelT a - 1)) (oy + 2 ^ (levelT a - 1))).2.1),
             max (max (boundaryRec a (ox - 2 ^ (levelT a - 1)) (oy - 2 ^ (levelT a - 1))).2.2.1
                      (boundaryRec b (ox + 2 ^ (levelT a - 1)) (oy - 2 ^ (levelT a - 1))).2.2.1)
                 (max (boundaryRec c (ox - 2 ^ (levelT a - 1)) (oy + 2 ^ (levelT a - 1))).2.2.1
                      (boundaryRec d (ox + 2 ^ (levelT a - 1)) (oy + 2 ^ (levelT a - 1))).2.2.1),
             max (max (boundaryRec a (ox - 2 ^ (levelT a - 1)) (oy - 2 ^ (levelT a - 1))).2.2.2
                      (boundaryRec b (ox + 2 ^ (levelT a - 1)) (oy - 2 ^ (levelT a - 1))).2.2.2)
                 (max (boundaryRec c (ox - 2 ^ (levelT a - 1)) (oy + 2 ^ (levelT a - 1))).2.2.2
                      (boundaryRec d (ox + 2 ^ (levelT a - 1)) (oy + 2 ^ (levelT a - 1))).2.2.2))
            from by
          simp only [boundaryRec]
          rw [if_neg he]]
        apply boxOk_congr _ _ _ ?_ hcomb
        intro X Y
        rw [toGrid_union a b c d hwo (X - ox) (Y - oy)]
        simp only [Bool.or_eq_true]
        rw [show X - ox + 2 ^ (levelT a - 1) = X - (ox - 2 ^ (levelT a - 1)) from by ring,
            show X - ox - 2 ^ (levelT a - 1) = X - (ox + 2 ^ (levelT a - 1)) from by ring,
            show Y - oy + 2 ^ (levelT a - 1) = Y - (oy - 2 ^ (levelT a - 1)) from by ring,
            show Y - oy - 2 ^ (levelT a - 1) = Y - (oy + 2 ^ (levelT a - 1)) from by ring]
        tauto

/-- C5: `boundary()` returns the smallest axis-aligned box (left, top,
right, bottom), right and bottom exclusive, containing every live cell:
every live cell lies inside it and each of its four sides is attained by
some live cell; an all-dead universe yields the sentinel
`(i64::MAX, i64::MAX, i64::MIN, i64::MIN)`.  (`levelT t ≤ 63` keeps all
cell coordinates inside the `i64` range, as in the Rust engine.) -/
theorem claim_C5 (t : QTree) (hw : wfT t = true) (hl : levelT t ≤ 63) :
    (∀ x y, toGrid t x y = true →
       (boundaryT t).1 ≤ x ∧ x < (boundaryT t).2.2.1 ∧
       (boundaryT t).2.1 ≤ y ∧ y < (boundaryT t).2.2.2) ∧
    ((∃ x y, toGrid t x y = true) →
       (∃ y, toGrid t (boundaryT t).1 y = true) ∧
       (∃ y, toGrid t ((boundaryT t).2.2.1 - 1) y = true) ∧
       (∃ x, toGrid t x (boundaryT t).2.1 = true) ∧
       (∃ x, toGrid t x ((boundaryT t).2.2.2 - 1) = true)) ∧
    ((∀ x y, toGrid t x y = false) → boundaryT t = EMPTY_BOUNDARY) := by
  simp only [boundaryT]
  have hb : (2 : Int) ^ (levelT t - 1) ≤ 2 ^ 62 :=
    pow_le_pow_right₀ (by norm_num) (by omega)
  have hI : I64MAX = 2 ^ 63 - 1 := rfl
  have h62 : (2 : Int) ^ 62 * 2 = 2 ^ 63 := by norm_num
  have h621 : (0 : Int) < 2 ^ 62 := by norm_num
  have hp := two_pow_pos (levelT t - 1)
  have hok := boundaryRec_ok t hw 0 0 (by omega) (by omega) (by omega) (by omega)
  obtain ⟨hin, hcase⟩ := hok
  refine ⟨?_, ?_, ?_⟩
  · intro x y hxy
    exact hin x y (show toGrid t (x - 0) (y - 0) = true from by
      rw [show x - 0 = x from by ring, show y - 0 = y from by ring]
      exact hxy)
  · rintro ⟨x0, y0, h0⟩
    rcases hcase with ⟨hE, hno⟩ |
      ⟨⟨x1, y1, hs1, he1⟩, ⟨x2, y2, hs2, he2⟩, ⟨x3, y3, hs3, he3⟩, ⟨x4, y4, hs4, he4⟩,
       hb1, hb2, hb3, hb4⟩
    · exact absurd (show toGrid t (x0 - 0) (y0 - 0) = true from by
        rw [show x0 - 0 = x0 from by ring, show y0 - 0 = y0 from by ring]
        exact h0) (hno x0 y0)
    · rw [show x1 - 0 = x1 from by ring, show y1 - 0 = y1 from by ring] at hs1
      replace hs2 : toGrid t (x2 - 0) (y2 - 0) = true := hs2
      rw [show x2 - 0 = x2 from by ring, show y2 - 0 = y2 from by ring] at hs2
      replace hs3 : toGrid t (x3 - 0) (y3 - 0) = true := hs3
      rw [show x3 - 0 = x3 from by ring, show y3 - 0 = y3 from by ring] at hs3
      replace hs4 : toGrid t (x4 - 0) (y4 - 0) = true := hs4
      rw [show x4 - 0 = x4 from by ring, show y4 - 0 = y4 from by ring] at hs4
      refine ⟨⟨y1, ?_⟩, ⟨y2, ?_⟩, ⟨x3, ?_⟩, ⟨x4, ?_⟩⟩
      · rw [← he1]
        exact hs1
      · rw [show (boundaryRec t 0 0).2.2.1 - 1 = x2 from by omega]
        exact hs2
      · rw [← he3]
        exact hs3
      · rw [show (boundaryRec t 0 0).2.2.2 - 1 = y4 from by omega]
        exact hs4
  · intro hdead
    rcases hcase with ⟨hE, hno⟩ | ⟨⟨x1, y1, hs1, he1⟩, h2, h3, h4, hb1, hb2, hb3, hb4⟩
    · exact hE
    · replace hs1 : toGrid t (x1 - 0) (y1 - 0) = true := hs1
      rw [hdead _ _] at hs1
      simp at hs1

theorem claim_C5_witness :
    wfT (QTree.leaf 32768 0 0 0) = true ∧ levelT (QTree.leaf 32768 0 0 0) ≤ 63 ∧
    toGrid (QTree.leaf 32768 0 0 0) (-4) (-4) = true ∧
    ((boundaryT (QTree.leaf 32768 0 0 0)).1 ≤ -4 ∧
     (-4 : Int) < (boundaryT (QTree.leaf 32768 0 0 0)).2.2.1 ∧
     (boundaryT (QTree.leaf 32768 0 0 0)).2.1 ≤ -4 ∧
     (-4 : Int) < (boundaryT (QTree.leaf 32768 0 0 0)).2.2.2) :=
  ⟨by decide, by decide, by decide,
   (claim_C5 (QTree.leaf 32768 0 0 0) (by decide) (by decide)).1 (-4) (-4) (by decide)⟩


/-! ### Stateful-engine theorems -/

set_option maxRecDepth 1000000 in
set_option maxHeartbeats 4000000 in
/-- C1 (REFUTED — code bug): the 6-cell universe `uniC1` (a horizontal
blinker at the origin and a vertical blinker at `x = -16`) is advanced by
`simulate(3)`, yet the engine's cell `(0, 1)` is dead while three
generations of the rule applied to the initial live set make it live: the
engine returns the generation-2 state, because `clear_results(k_old,
k_new)` clears only the cache levels `k_old < level - 2 ≤ k_new`, leaving
stale memoized results from the previous `k` at higher levels. -/
theorem claim_C1 :
    cellU (simulateU uniC1 3) 0 1 = false ∧
    lifeIter GAME_OF_LIFE 3 (cellU uniC1) 0 1 = true :=
  ⟨by decide, by decide⟩

set_option maxRecDepth 1000000 in
set_option maxHeartbeats 4000000 in
/-- C9 counterexample: after two consecutive `simulate(6)` calls on a
fresh universe the canonical empty node of level 4 exists but its cached
result is `INVALID` (0): `clear_results` wiped it when `simulate` moved to
a different `k`, so the cache is not "never INVALID". -/
theorem claim_C9_counterexample :
    5 ≤ (simulateU (simulateU (newU GAME_OF_LIFE) 6) 6).emptyNodes.length ∧
    (match getNode (simulateU (simulateU (newU GAME_OF_LIFE) 6) 6)
        ((simulateU (simulateU (newU GAME_OF_LIFE) 6) 6).emptyNodes.getD 4 0) with
     | SNode.internal n => n.result
     | SNode.leaf _ => 999) = 0 :=
  ⟨by decide, by decide⟩

theorem getD_concat_len {α : Type} (l : List α) (x d : α) :
    (l ++ [x]).getD l.length d = x := by
  rw [List.getD_eq_getElem?_getD]
  simp

theorem getD_set_ne {α : Type} (l : List α) (i j : Nat) (x d : α) (h : i ≠ j) :
    (l.set i x).getD j d = l.getD j d := by
  rw [List.getD_eq_getElem?_getD, List.getD_eq_getElem?_getD, List.getElem?_set_ne h]

theorem getD_set_self {α : Type} (l : List α) (i : Nat) (x d : α) (h : i < l.length) :
    (l.set i x).getD i d = x := by
  rw [List.getD_eq_getElem?_getD]
  simp [List.getElem?_set, h]

theorem findNode_found (u : Uni) (k : SKey) (j : Nat)
    (h : u.nodes.findIdx? (fun n => nodeKey n == k) = some j) :
    findNode u k = (u, j + 1) := by
  simp [findNode, h]

theorem findNode_new (u : Uni) (k : SKey)
    (h : u.nodes.findIdx? (fun n => nodeKey n == k) = none) :
    findNode u k = ({ u with nodes := u.nodes ++ [mkNode u k] }, u.nodes.length + 1) := by
  simp [findNode, h]

theorem findNode_emptyNodes (u : Uni) (k : SKey) :
    ((findNode u k).1).emptyNodes = u.emptyNodes := by
  unfold findNode
  split <;> rfl

theorem setResult_emptyNodes (u : Uni) (id r : Nat) :
    (setResult u id r).emptyNodes = u.emptyNodes := by
  unfold setResult
  split <;> rfl

theorem getNode_internal_lt (u : Uni) (id : Nat) (n : SInt)
    (h : getNode u id = .internal n) : id - 1 < u.nodes.length := by
  by_contra hge
  push_neg at hge
  rw [getNode, List.getD_eq_getElem?_getD, List.getElem?_eq_none hge] at h
  exact absurd h (by simp [Option.getD, defaultSNode])

theorem getNode_setResult_read (u : Uni) (id r jd : Nat) (m : SInt)
    (hidx : jd - 1 = id - 1) (h : getNode u id = .internal m) :
    getNode (setResult u id r) jd = .internal { m with result := r } := by
  unfold setResult
  rw [h]
  show (u.nodes.set (id - 1) _).getD (jd - 1) defaultSNode = _
  rw [hidx]
  exact getD_set_self _ _ _ _ (getNode_internal_lt u id m h)

theorem getNode_setResult_ne (u : Uni) (id r jd : Nat) (h : jd - 1 ≠ id - 1) :
    getNode (setResult u id r) jd = getNode u jd := by
  unfold setResult
  split
  · show (u.nodes.set (id - 1) _).getD (jd - 1) defaultSNode = u.nodes.getD (jd - 1) defaultSNode
    exact getD_set_ne _ _ _ _ _ (fun e => h e.symm)
  · rfl

theorem feStep_eq_found (u : Uni) (j : Nat)
    (h : u.nodes.findIdx? (fun n => nodeKey n == feKey u) = some j) :
    feStep u = { setResult u (j + 1) (fePrev u) with
                 emptyNodes := (setResult u (j + 1) (fePrev u)).emptyNodes ++ [j + 1] } := by
  unfold feStep
  rw [findNode_found u (feKey u) j h]

theorem feStep_eq_new (u : Uni)
    (h : u.nodes.findIdx? (fun n => nodeKey n == feKey u) = none) :
    feStep u =
      { setResult { u with nodes := u.nodes ++ [mkNode u (feKey u)] }
          (u.nodes.length + 1) (fePrev u) with
        emptyNodes :=
          (setResult { u with nodes := u.nodes ++ [mkNode u (feKey u)] }
            (u.nodes.length + 1) (fePrev u)).emptyNodes ++ [u.nodes.length + 1] } := by
  unfold feStep
  rw [findNode_new u (feKey u) h]

theorem feStep_emptyNodes (u : Uni) :
    (feStep u).emptyNodes = u.emptyNodes ++ [(findNode u (feKey u)).2] := by
  rcases hidx : u.nodes.findIdx? (fun n => nodeKey n == feKey u) with _ | j
  · rw [feStep_eq_new u hidx, findNode_new u (feKey u) hidx]
    show (setResult _ _ _).emptyNodes ++ _ = _
    rw [setResult_emptyNodes]
  · rw [feStep_eq_found u j hidx, findNode_found u (feKey u) j hidx]
    show (setResult _ _ _).emptyNodes ++ _ = _
    rw [setResult_emptyNodes]

theorem feStep_len (u : Uni) :
    (feStep u).emptyNodes.length = u.emptyNodes.length + 1 := by
  rw [feStep_emptyNodes]
  simp

theorem feStep_getD_lt (u : Uni) (i : Nat) (h : i < u.emptyNodes.length) :
    (feStep u).emptyNodes.getD i 0 = u.emptyNodes.getD i 0 := by
  rw [feStep_emptyNodes]
  exact List.getD_append _ _ _ _ h

theorem feStep_getD_len (u : Uni) :
    (feStep u).emptyNodes.getD u.emptyNodes.length 0 = (findNode u (feKey u)).2 := by
  rw [feStep_emptyNodes]
  exact getD_concat_len _ _ _

theorem findEmptyGo_succ (f : Nat) (u : Uni) :
    findEmptyGo (f + 1) u = findEmptyGo f (feStep u) := rfl

theorem getNode_feStep_pres (u : Uni) (id : Nat) (n : SInt)
    (hg : getNode u id = .internal n) (hres : n.result = n.nw) :
    getNode (feStep u) id = .internal n := by
  have hlt : id - 1 < u.nodes.length := getNode_internal_lt u id n hg
  rcases hidx : u.nodes.findIdx? (fun x => nodeKey x == feKey u) with _ | j
  · rw [feStep_eq_new u hidx]
    show getNode (setResult { u with nodes := u.nodes ++ [mkNode u (feKey u)] }
        (u.nodes.length + 1) (fePrev u)) id = .internal n
    rw [getNode_setResult_ne _ _ _ _ (by omega)]
    show (u.nodes ++ [mkNode u (feKey u)]).getD (id - 1) defaultSNode = _
    rw [List.getD_append _ _ _ _ hlt]
    exact hg
  · rw [feStep_eq_found u j hidx]
    show getNode (setResult u (j + 1) (fePrev u)) id = .internal n
    by_cases hj : j = id - 1
    · obtain ⟨hjlt, hp, -⟩ := List.findIdx?_eq_some_iff_getElem.mp hidx
      have hkey : nodeKey u.nodes[j] = feKey u := by simpa using hp
      have hgj : getNode u (j + 1) = .internal n := by
        show u.nodes.getD (j + 1 - 1) defaultSNode = _
        rw [Nat.add_sub_cancel, hj]
        exact hg
      rw [getNode_setResult_read u (j + 1) (fePrev u) id n (by omega) hgj]
      have hq : n.nw = fePrev u := by
        have he : u.nodes[j] = getNode u (j + 1) := by
          show _ = u.nodes.getD (j + 1 - 1) defaultSNode
          rw [Nat.add_sub_cancel, List.getD_eq_getElem?_getD, List.getElem?_eq_getElem hjlt]
          rfl
        rw [he, hgj] at hkey
        simp only [nodeKey, feKey, SKey.internal.injEq] at hkey
        exact hkey.1
      obtain ⟨a, b, c, d, e, f⟩ := n
      simp only [] at hres hq
      simp [← hq, hres]
    · rw [getNode_setResult_ne _ _ _ _ (by omega)]
      exact hg

theorem feStep_pres (u : Uni) (i : Nat) (hi : i < u.emptyNodes.length)
    (h : emptyInv u i) : emptyInv (feStep u) i := by
  have hi1 : i - 1 < u.emptyNodes.length := by omega
  unfold emptyInv at h ⊢
  rcases hg : getNode u (u.emptyNodes.getD i 0) with l | n
  · rw [hg] at h
    exact h.elim
  · rw [hg] at h
    obtain ⟨h1, h2, h3, h4, h5⟩ := h
    rw [feStep_getD_lt u i hi, feStep_getD_lt u (i - 1) hi1]
    rw [getNode_feStep_pres u _ n hg (by rw [h5, h1])]
    exact ⟨h1, h2, h3, h4, h5⟩

theorem feStep_new_inv (u : Uni) (hlen : 1 ≤ u.emptyNodes.length) :
    emptyInv (feStep u) u.emptyNodes.length := by
  unfold emptyInv
  rw [feStep_getD_len u]
  rw [show (feStep u).emptyNodes.getD (u.emptyNodes.length - 1) 0 = fePrev u from by
    rw [feStep_getD_lt u _ (by omega)]
    rfl]
  rcases hidx : u.nodes.findIdx? (fun x => nodeKey x == feKey u) with _ | j
  · rw [findNode_new u (feKey u) hidx, feStep_eq_new u hidx]
    show match getNode (setResult { u with nodes := u.nodes ++ [mkNode u (feKey u)] }
        (u.nodes.length + 1) (fePrev u)) (u.nodes.length + 1) with
      | SNode.internal n =>
          n.nw = fePrev u ∧ n.ne = fePrev u ∧ n.sw = fePrev u ∧ n.se = fePrev u ∧
          n.result = fePrev u
      | SNode.leaf _ => False
    have hmk : getNode { u with nodes := u.nodes ++ [mkNode u (feKey u)] }
        (u.nodes.length + 1) =
        .internal ⟨fePrev u, fePrev u, fePrev u, fePrev u, levelOf u (fePrev u) + 1, 0⟩ := by
      show (u.nodes ++ [mkNode u (feKey u)]).getD (u.nodes.length + 1 - 1) defaultSNode = _
      rw [Nat.add_sub_cancel, getD_concat_len]
      rfl
    rw [getNode_setResult_read _ _ _ _ _ rfl hmk]
    exact ⟨rfl, rfl, rfl, rfl, rfl⟩
  · rw [findNode_found u (feKey u) j hidx, feStep_eq_found u j hidx]
    show match getNode (setResult u (j + 1) (fePrev u)) (j + 1) with
      | SNode.internal n =>
          n.nw = fePrev u ∧ n.ne = fePrev u ∧ n.sw = fePrev u ∧ n.se = fePrev u ∧
          n.result = fePrev u
      | SNode.leaf _ => False
    obtain ⟨hjlt, hp, -⟩ := List.findIdx?_eq_some_iff_getElem.mp hidx
    have hkey : nodeKey u.nodes[j] = feKey u := by simpa using hp
    rcases hnode : u.nodes[j] with l | m
    · rw [hnode] at hkey
      exact absurd hkey (by simp [nodeKey, feKey])
    · rw [hnode] at hkey
      have hflds : m.nw = fePrev u ∧ m.ne = fePrev u ∧ m.sw = fePrev u ∧ m.se = fePrev u := by
        simpa [nodeKey, feKey] using hkey
      have hgj : getNode u (j + 1) = .internal m := by
        show u.nodes.getD (j + 1 - 1) defaultSNode = _
        rw [Nat.add_sub_cancel, List.getD_eq_getElem?_getD, List.getElem?_eq_getElem hjlt,
          hnode]
        rfl
      rw [getNode_setResult_read _ _ _ _ _ rfl hgj]
      exact ⟨hflds.1, hflds.2.1, hflds.2.2.1, hflds.2.2.2, rfl⟩

theorem findEmptyGo_pres (f : Nat) :
    ∀ (u : Uni) (i : Nat), i < u.emptyNodes.length → emptyInv u i →
      emptyInv (findEmptyGo f u) i := by
  induction f with
  | zero => exact fun u i _ h => h
  | succ f ih =>
      intro u i hi h
      rw [findEmptyGo_succ]
      exact ih (feStep u) i (by rw [feStep_len]; omega) (feStep_pres u i hi h)

theorem findEmptyGo_new (f : Nat) :
    ∀ (u : Uni) (i : Nat), 1 ≤ i → u.emptyNodes.length ≤ i →
      i < (findEmptyGo f u).emptyNodes.length → emptyInv (findEmptyGo f u) i := by
  induction f with
  | zero =>
      intro u i h1 h2 h3
      exact absurd h3 (by simp [findEmptyGo]; omega)
  | succ f ih =>
      intro u i h1 h2 h3
      rw [findEmptyGo_succ] at h3 ⊢
      by_cases hc : u.emptyNodes.length + 1 ≤ i
      · exact ih (feStep u) i h1 (by rw [feStep_len]; omega) h3
      · have hieq : i = u.emptyNodes.length := by omega
        subst hieq
        exact findEmptyGo_pres f (feStep u) _ (by rw [feStep_len]; omega)
          (feStep_new_inv u (by omega))

/-- C9 (amended): whenever `find_empty_node` creates a canonical empty node —
that is, for every universe state `u`, requested `level`, and every index `i`
of `empty_nodes` freshly filled by the call (`u.emptyNodes.length ≤ i`, with
`1 ≤ i` so a lower neighbour exists) — the created node is internal, its four
children are the canonical empty node one level lower (entry `i - 1`), and its
cached result is set to that same lower empty node. The result does NOT stay
valid forever, contrary to the original claim: `clear_results` — run by
`simulate` whenever the power-of-two exponent `k` changes — later resets it to
`INVALID`, as the counterexample shows. -/
theorem claim_C9 (u : Uni) (level i : Nat) (h1 : 1 ≤ i)
    (h2 : u.emptyNodes.length ≤ i)
    (h3 : i < ((findEmptyNode u level).1).emptyNodes.length) :
    match getNode ((findEmptyNode u level).1)
        (((findEmptyNode u level).1).emptyNodes.getD i 0) with
    | SNode.internal n =>
        n.nw = ((findEmptyNode u level).1).emptyNodes.getD (i - 1) 0 ∧
        n.ne = ((findEmptyNode u level).1).emptyNodes.getD (i - 1) 0 ∧
        n.sw = ((findEmptyNode u level).1).emptyNodes.getD (i - 1) 0 ∧
        n.se = ((findEmptyNode u level).1).emptyNodes.getD (i - 1) 0 ∧
        n.result = ((findEmptyNode u level).1).emptyNodes.getD (i - 1) 0
    | SNode.leaf _ => False := by
  show emptyInv ((findEmptyNode u level).1) i
  have h3' : i < (if u.emptyNodes.length < level + 1
      then findEmptyGo (level + 1 - u.emptyNodes.length) u
      else u).emptyNodes.length := h3
  show emptyInv (if u.emptyNodes.length < level + 1
      then findEmptyGo (level + 1 - u.emptyNodes.length) u
      else u) i
  by_cases hc : u.emptyNodes.length < level + 1
  · rw [if_pos hc] at h3' ⊢
    exact findEmptyGo_new _ u i h1 h2 h3'
  · rw [if_neg hc] at h3'
    omega

theorem claim_C9_witness :
    1 ≤ 4 ∧ (newU GAME_OF_LIFE).emptyNodes.length ≤ 4 ∧
    4 < ((findEmptyNode (newU GAME_OF_LIFE) 5).1).emptyNodes.length ∧
    match getNode ((findEmptyNode (newU GAME_OF_LIFE) 5).1)
        (((findEmptyNode (newU GAME_OF_LIFE) 5).1).emptyNodes.getD 4 0) with
    | SNode.internal n =>
        n.nw = ((findEmptyNode (newU GAME_OF_LIFE) 5).1).emptyNodes.getD (4 - 1) 0 ∧
        n.ne = ((findEmptyNode (newU GAME_OF_LIFE) 5).1).emptyNodes.getD (4 - 1) 0 ∧
        n.sw = ((findEmptyNode (newU GAME_OF_LIFE) 5).1).emptyNodes.getD (4 - 1) 0 ∧
        n.se = ((findEmptyNode (newU GAME_OF_LIFE) 5).1).emptyNodes.getD (4 - 1) 0 ∧
        n.result = ((findEmptyNode (newU GAME_OF_LIFE) 5).1).emptyNodes.getD (4 - 1) 0
    | SNode.leaf _ => False :=
  ⟨by decide, by decide, by decide,
    claim_C9 (newU GAME_OF_LIFE) 5 4 (by decide) (by decide) (by decide)⟩

theorem nodeKey_mkNode (u : Uni) (key : SKey) : nodeKey (mkNode u key) = key := by
  cases key <;> rfl

theorem findIdx?_append_single (l : List SNode) (x : SNode) (p : SNode → Bool)
    (hn : l.findIdx? p = none) (hx : p x = true) :
    (l ++ [x]).findIdx? p = some l.length := by
  induction l with
  | nil => simp [List.findIdx?_cons, hx]
  | cons a l ih =>
      rw [List.findIdx?_cons, List.findIdx?_succ] at hn
      by_cases ha : p a = true
      · rw [if_pos ha] at hn
        simp at hn
      · rw [if_neg ha] at hn
        have hn2 : l.findIdx? p = none := by
          cases h2 : l.findIdx? p with
          | none => rfl
          | some v =>
              rw [h2] at hn
              simp at hn
        rw [List.cons_append, List.findIdx?_cons, List.findIdx?_succ, if_neg ha, ih hn2]
        simp

/-- C4: interning is idempotent — a second `find_node` call with a
structurally equal key returns the same `NodeId` and leaves the universe
unchanged, so structurally-equal nodes always share one handle. -/
theorem claim_C4 (u : Uni) (key : SKey) :
    findNode (findNode u key).1 key = findNode u key := by
  cases h : u.nodes.findIdx? (fun n => nodeKey n == key) with
  | some i =>
      simp only [findNode, h]
  | none =>
      simp only [findNode, h]
      rw [findIdx?_append_single u.nodes (mkNode u key) _ h
        (by rw [nodeKey_mkNode]; exact beq_self_eq_true key)]

end HashLife
